import Mathlib

/-!
Verification of the go-dicom-parser library against its natural-language
specification.  The Go sources are shallowly embedded: byte streams are
`List Nat` (each entry a byte value), machine integers are `Nat`/`Int`
with explicit reductions modulo `2^w` where the Go code can overflow, and
fallible code returns `Option`/`Except`-style results.
-/

namespace GoDicom

/-- `binary.ByteOrder` from Go's encoding/binary: the two byte orders used
by the library (`binary.LittleEndian`, `binary.BigEndian`). -/
inductive ByteOrder where
  | littleEndian
  | bigEndian
deriving DecidableEq, Repr

/-- `ByteOrder.PutUint16`: the two bytes of `v` (as a uint16) in the given
byte order. -/
def putUInt16 (order : ByteOrder) (v : Nat) : List Nat :=
  let lo := v % 256
  let hi := v / 256 % 256
  match order with
  | .littleEndian => [lo, hi]
  | .bigEndian => [hi, lo]

/-- `ByteOrder.PutUint32`: the four bytes of `v` (as a uint32) in the given
byte order. -/
def putUInt32 (order : ByteOrder) (v : Nat) : List Nat :=
  let b0 := v % 256
  let b1 := v / 256 % 256
  let b2 := v / 65536 % 256
  let b3 := v / 16777216 % 256
  match order with
  | .littleEndian => [b0, b1, b2, b3]
  | .bigEndian => [b3, b2, b1, b0]

/-- Result of a primitive read from a byte stream, mirroring Go's io error
discipline: `ok` carries the value and the remaining bytes, `eof` is
`io.EOF` (no bytes were available), `err` is any other error (in
particular `io.ErrUnexpectedEOF` for a short read). -/
inductive RRes (α : Type) where
  | ok (a : α) (rest : List Nat)
  | eof
  | err
deriving DecidableEq, Repr

/-- `dcmReader.UInt16` via `binary.Read`: `io.EOF` when no bytes are
available, an error on a 1-byte short read. -/
def readUInt16 (order : ByteOrder) : List Nat → RRes Nat
  | [] => .eof
  | [_] => .err
  | b0 :: b1 :: rest =>
    match order with
    | .littleEndian => .ok (b0 % 256 + b1 % 256 * 256) rest
    | .bigEndian => .ok (b1 % 256 + b0 % 256 * 256) rest

/-- `dcmReader.UInt32` via `binary.Read`: `io.EOF` when no bytes are
available, an error on a short read. -/
def readUInt32 (order : ByteOrder) : List Nat → RRes Nat
  | [] => .eof
  | b0 :: b1 :: b2 :: b3 :: rest =>
    match order with
    | .littleEndian =>
      .ok (b0 % 256 + b1 % 256 * 256 + b2 % 256 * 65536 + b3 % 256 * 16777216) rest
    | .bigEndian =>
      .ok (b3 % 256 + b2 % 256 * 256 + b1 % 256 * 65536 + b0 % 256 * 16777216) rest
  | _ => .err

/-- `dcmReader.Bytes` via `io.ReadAtLeast`: returns exactly `n` bytes or an
error (a short read of any kind, including 0 bytes, is wrapped into a
non-EOF error by `dcmReader.Bytes`). -/
def readBytes (n : Nat) (bs : List Nat) : RRes (List Nat) :=
  if n ≤ bs.length then .ok (bs.take n) (bs.drop n) else .err

/-- `dcmReader.Skip` via `io.CopyN`: advances `n` bytes, an error if the
stream is shorter. -/
def skipBytes (n : Nat) (bs : List Nat) : RRes Unit :=
  if n ≤ bs.length then .ok () (bs.drop n) else .err

/-- `dcmReader.Tag`: reads the 16-bit group then the 16-bit element number
in the given byte order and packs them as `group<<16 | element`.  Errors of
either 16-bit read (including `io.EOF` from the second one) propagate
unchanged, as in the Go code. -/
def readTagBytes (order : ByteOrder) (bs : List Nat) : RRes Nat :=
  match readUInt16 order bs with
  | .eof => .eof
  | .err => .err
  | .ok group rest =>
    match readUInt16 order rest with
    | .eof => .eof
    | .err => .err
    | .ok element rest₂ => .ok (group * 65536 + element) rest₂

/-- Two's-complement encoding of a Go signed integer into its unsigned
`bits`-bit pattern, as `binary.Write` emits it. -/
def toUnsignedBits (bits : Nat) (v : Int) : Nat :=
  (v % (2 ^ bits : Nat)).toNat

/-- Two's-complement reading of an unsigned `bits`-bit pattern as a Go
signed integer, as `binary.Read` produces it. -/
def toSignedBits (bits : Nat) (n : Nat) : Int :=
  if n < 2 ^ (bits - 1) then (n : Int) else (n : Int) - (2 ^ bits : Nat)

/-- ASCII byte list of a Lean string literal; used for the UID constants
and the file signature, which are ASCII in the Go sources. -/
def strBytes (s : String) : List Nat :=
  s.toList.map Char.toNat

/-! ## Go strings

Go strings are byte sequences; the library splits and trims them.  A
string is embedded as a byte list.  `strings.Split` on the single-byte
separator `"\\"` and `strings.Join` operate bytewise.  The trim helpers
(`strings.TrimFunc`, `strings.TrimRightFunc`) operate on UTF-8 runes, so a
faithful rune decoder for the first and last rune of a byte string is
embedded below, together with Go's `unicode.IsSpace`. -/

/-- the replacement rune `utf8.RuneError` returned by Go's UTF-8 decoder
on malformed input. -/
def runeError : Nat := 0xFFFD

/-- whether `b` is a UTF-8 continuation byte (`0x80 ≤ b < 0xC0`). -/
def isContinuationByte (b : Nat) : Bool :=
  0x80 ≤ b && b < 0xC0

/-- `utf8.DecodeRune` on the first bytes of `s`: the decoded rune and its
size in bytes; `none` when `s` is empty.  Malformed sequences decode to
(`RuneError`, 1) as in Go. -/
def utf8DecodeFirst : List Nat → Option (Nat × Nat)
  | [] => none
  | b0 :: rest =>
    if b0 < 0x80 then some (b0, 1)
    else if 0xC2 ≤ b0 && b0 ≤ 0xDF then
      match rest with
      | b1 :: _ =>
        if isContinuationByte b1 then some ((b0 - 0xC0) * 64 + (b1 - 0x80), 2)
        else some (runeError, 1)
      | _ => some (runeError, 1)
    else if 0xE0 ≤ b0 && b0 ≤ 0xEF then
      match rest with
      | b1 :: b2 :: _ =>
        let lo1 := if b0 = 0xE0 then 0xA0 else 0x80
        let hi1 := if b0 = 0xED then 0x9F else 0xBF
        if lo1 ≤ b1 && b1 ≤ hi1 && isContinuationByte b2 then
          some ((b0 - 0xE0) * 4096 + (b1 - 0x80) * 64 + (b2 - 0x80), 3)
        else some (runeError, 1)
      | _ => some (runeError, 1)
    else if 0xF0 ≤ b0 && b0 ≤ 0xF4 then
      match rest with
      | b1 :: b2 :: b3 :: _ =>
        let lo1 := if b0 = 0xF0 then 0x90 else 0x80
        let hi1 := if b0 = 0xF4 then 0x8F else 0xBF
        if lo1 ≤ b1 && b1 ≤ hi1 && isContinuationByte b2 && isContinuationByte b3 then
          some ((b0 - 0xF0) * 262144 + (b1 - 0x80) * 4096 + (b2 - 0x80) * 64 + (b3 - 0x80), 4)
        else some (runeError, 1)
      | _ => some (runeError, 1)
    else some (runeError, 1)

/-- `utf8.DecodeLastRune` on the final bytes of `s`: the decoded rune and
its size; `none` when `s` is empty.  Walks back over at most three
continuation bytes to a start byte and checks that the decoded rune spans
exactly the walked-back suffix, else (`RuneError`, 1), as in Go. -/
def utf8DecodeLast (s : List Nat) : Option (Nat × Nat) :=
  match s.getLast? with
  | none => none
  | some bLast =>
    if bLast < 0x80 then some (bLast, 1)
    else
      let n := s.length
      let isStart : Nat → Bool := fun i => !(isContinuationByte ((s.get? i).getD 0))
      let back? : Option Nat :=
        if 2 ≤ n && isStart (n - 2) then some 1
        else if 3 ≤ n && isStart (n - 3) then some 2
        else if 4 ≤ n && isStart (n - 4) then some 3
        else none
      match back? with
      | none => some (runeError, 1)
      | some back =>
        match utf8DecodeFirst (s.drop (n - 1 - back)) with
        | some (r, sz) => if sz = back + 1 then some (r, sz) else some (runeError, 1)
        | none => some (runeError, 1)

/-- Go's `unicode.IsSpace` on a rune: the Unicode `White_Space` set. -/
def goIsSpace (r : Nat) : Bool :=
  (0x09 ≤ r && r ≤ 0x0D) || r = 0x20 || r = 0x85 || r = 0xA0 || r = 0x1680 ||
  (0x2000 ≤ r && r ≤ 0x200A) || r = 0x2028 || r = 0x2029 || r = 0x202F ||
  r = 0x205F || r = 0x3000

/-- `strings.TrimLeftFunc`: repeatedly removes the first rune while the
predicate holds. -/
def trimLeftFunc (p : Nat → Bool) (s : List Nat) : List Nat :=
  go s.length s
where
  go : Nat → List Nat → List Nat
    | 0, s => s
    | fuel + 1, s =>
      match utf8DecodeFirst s with
      | none => s
      | some (r, sz) => if p r then go fuel (s.drop sz) else s

/-- `strings.TrimRightFunc`: repeatedly removes the last rune while the
predicate holds. -/
def trimRightFunc (p : Nat → Bool) (s : List Nat) : List Nat :=
  go s.length s
where
  go : Nat → List Nat → List Nat
    | 0, s => s
    | fuel + 1, s =>
      match utf8DecodeLast s with
      | none => s
      | some (r, sz) => if p r then go fuel (s.take (s.length - sz)) else s

/-- `strings.TrimFunc`: trims both ends. -/
def trimFunc (p : Nat → Bool) (s : List Nat) : List Nat :=
  trimRightFunc p (trimLeftFunc p s)

/-- `strings.Split(s, "\\")` on the single backslash byte 0x5C. -/
def splitOnBackslash (s : List Nat) : List (List Nat) :=
  go s [] where
  go : List Nat → List Nat → List (List Nat)
    | [], acc => [acc.reverse]
    | b :: rest, acc =>
      if b = 0x5C then acc.reverse :: go rest [] else go rest (b :: acc)

/-- `strings.Join(ss, "\\")` on the single backslash byte 0x5C. -/
def joinBackslash : List (List Nat) → List Nat
  | [] => []
  | [s] => s
  | s :: rest => s ++ 0x5C :: joinBackslash rest

/-! ## VR model (vr.go)

Each VR is a 2-letter code with a semantic kind (`vrType` in the source).
The Go source interns `*VR` values in a lookup map; the embedding uses an
inductive enumeration with the same names and kinds. -/

/-- `vrType` from vr.go: groups VRs that share a parse/write strategy. -/
inductive VRKind where
  | textVR
  | numberBinaryVR
  | bulkDataVR
  | uniqueIdentifierVR
  | sequenceVR
  | tagVR
deriving DecidableEq, Repr

/-- the 2-letter VR codes declared in vr.go. -/
inductive VRName where
  | CS | SH | LO | ST | LT | AS | PN | AE | DA | TM | DT | IS | DS
  | SS | US | SL | UL | FL | FD
  | OB | OD | OL | OW | OF | UC | UN | UR | UT
  | AT | UI | SQ
deriving DecidableEq, Repr

/-- the kind assigned to each VR in vr.go (`newVR` calls). -/
def VRName.kind : VRName → VRKind
  | .CS | .SH | .LO | .ST | .LT | .AS | .PN | .AE | .DA | .TM | .DT | .IS | .DS =>
    .textVR
  | .SS | .US | .SL | .UL | .FL | .FD => .numberBinaryVR
  | .OB | .OD | .OL | .OW | .OF | .UC | .UN | .UR | .UT => .bulkDataVR
  | .AT => .tagVR
  | .UI => .uniqueIdentifierVR
  | .SQ => .sequenceVR

/-- the two ASCII bytes of the VR code (`VR.Name`), as written on the wire
by `explicitSyntax.writeVR`. -/
def VRName.nameBytes : VRName → List Nat
  | .CS => strBytes "CS" | .SH => strBytes "SH" | .LO => strBytes "LO"
  | .ST => strBytes "ST" | .LT => strBytes "LT" | .AS => strBytes "AS"
  | .PN => strBytes "PN" | .AE => strBytes "AE" | .DA => strBytes "DA"
  | .TM => strBytes "TM" | .DT => strBytes "DT" | .IS => strBytes "IS"
  | .DS => strBytes "DS" | .SS => strBytes "SS" | .US => strBytes "US"
  | .SL => strBytes "SL" | .UL => strBytes "UL" | .FL => strBytes "FL"
  | .FD => strBytes "FD" | .OB => strBytes "OB" | .OD => strBytes "OD"
  | .OL => strBytes "OL" | .OW => strBytes "OW" | .OF => strBytes "OF"
  | .UC => strBytes "UC" | .UN => strBytes "UN" | .UR => strBytes "UR"
  | .UT => strBytes "UT" | .AT => strBytes "AT" | .UI => strBytes "UI"
  | .SQ => strBytes "SQ"

/-- `lookupVRByName` over the interned VR map: resolves the two bytes read
from the wire to a VR, or fails for an unknown code. -/
def lookupVRByName (b : List Nat) : Option VRName :=
  (([.CS, .SH, .LO, .ST, .LT, .AS, .PN, .AE, .DA, .TM, .DT, .IS, .DS,
     .SS, .US, .SL, .UL, .FL, .FD, .OB, .OD, .OL, .OW, .OF, .UC, .UN,
     .UR, .UT, .AT, .UI, .SQ] : List VRName).find? fun vr => vr.nameBytes = b)

/-- `UndefinedLength` (0xFFFFFFFF) from vr.go. -/
def UndefinedLength : Nat := 0xFFFFFFFF

/-! ## Tags (dataset.go) -/

/-- `DataElementTag.GroupNumber`: high 16 bits. -/
def groupNumber (t : Nat) : Nat := t / 65536 % 65536

/-- `DataElementTag.ElementNumber`: low 16 bits. -/
def elementNumber (t : Nat) : Nat := t % 65536

/-- `DataElementTag.IsPrivate`: odd group number. -/
def isPrivateTag (t : Nat) : Bool := groupNumber t % 2 ≠ 0

/-- `DataElementTag.IsPrivateCreator`: private with element number in
[0x0010, 0x00FF]. -/
def isPrivateCreator (t : Nat) : Bool :=
  isPrivateTag t && 0x0010 ≤ elementNumber t && elementNumber t ≤ 0x00FF

/-- `DataElementTag.IsMetaElement`: group 0x0002. -/
def isMetaElement (t : Nat) : Bool := groupNumber t = 0x0002

/-- tag constants from the generated tag list used by the library. -/
def ItemTag : Nat := 0xFFFEE000

/-- the item delimitation tag (0xFFFE,0xE00D). -/
def ItemDelimitationItemTag : Nat := 0xFFFEE00D

/-- the sequence delimitation tag (0xFFFE,0xE0DD). -/
def SequenceDelimitationItemTag : Nat := 0xFFFEE0DD

/-- the pixel data tag (0x7FE0,0x0010). -/
def PixelDataTag : Nat := 0x7FE00010

/-- the transfer syntax UID tag (0x0002,0x0010). -/
def TransferSyntaxUIDTag : Nat := 0x00020010

/-- the file meta information group length tag (0x0002,0x0000). -/
def FileMetaInformationGroupLengthTag : Nat := 0x00020000

/-- the specific character set tag (0x0008,0x0005). -/
def SpecificCharacterSetTag : Nat := 0x00080005

/-- Representative slice of the generated single-value data-dictionary
table (`singleValueTagVRMap`).  The full table is generated from the
external DICOM data dictionary, which the specification treats as an
external collaborator consumed as a pure function; the entries here are
the ones exercised in this development, with the same wildcard-free
lookup shape as `DataElementTag.dictionaryVR`. -/
def dictionaryVRRaw (t : Nat) : Option VRName :=
  if t = TransferSyntaxUIDTag then some .UI
  else if t = 0x00020002 then some .UI         -- MediaStorageSOPClassUID
  else if t = 0x00020003 then some .UI         -- MediaStorageSOPInstanceUID
  else if t = 0x00020001 then some .OB         -- FileMetaInformationVersion
  else if t = 0x00020012 then some .UI         -- ImplementationClassUID
  else if t = 0x00020013 then some .SH         -- ImplementationVersionName
  else if t = SpecificCharacterSetTag then some .CS
  else if t = 0x00280010 then some .US         -- Rows
  else if t = 0x00280011 then some .US         -- Columns
  else if t = 0x00280002 then some .US         -- SamplesPerPixel
  else if t = 0x00280100 then some .US         -- BitsAllocated
  else if t = 0x00280008 then some .IS         -- NumberOfFrames
  else if t = PixelDataTag then some .OW
  else if t = 0x00081155 then some .UI         -- ReferencedSOPInstanceUID
  else if t = 0x00081150 then some .UI         -- ReferencedSOPClassUID
  else if t = 0x00081110 then some .SQ         -- ReferencedStudySequence
  else if t = 0x00081140 then some .SQ         -- ReferencedImageSequence
  else none

/-- `DataElementTag.DictionaryVR`: private creator elements resolve to LO,
group length elements to UL, dictionary hits to their dictionary VR and
unknown tags to UN. -/
def dictionaryVR (t : Nat) : VRName :=
  if isPrivateCreator t then .LO
  else if elementNumber t = 0 then .UL
  else (dictionaryVRRaw t).getD .UN

/-! ## Transfer syntaxes (transfersyntax.go, current interface version) -/

/-- the four transfer syntaxes the library distinguishes. -/
inductive TransferStx where
  | implicitVRLittleEndian
  | explicitVRLittleEndian
  | explicitVRBigEndian
  | deflatedExplicitVRLittleEndian
deriving DecidableEq, Repr

/-- transfer syntax UID constants from transfersyntax.go. -/
def ImplicitVRLittleEndianUID : List Nat := strBytes "1.2.840.10008.1.2"

/-- the Explicit VR Little Endian UID. -/
def ExplicitVRLittleEndianUID : List Nat := strBytes "1.2.840.10008.1.2.1"

/-- the Explicit VR Big Endian UID. -/
def ExplicitVRBigEndianUID : List Nat := strBytes "1.2.840.10008.1.2.2"

/-- the Deflated Explicit VR Little Endian UID. -/
def DeflatedExplicitVRLittleEndianUID : List Nat := strBytes "1.2.840.10008.1.2.1.99"

/-- `lookupTransferSyntax`: unknown UIDs default to explicit VR little
endian per PS3.5 A.4. -/
def lookupTransferStx (uid : List Nat) : TransferStx :=
  if uid = ExplicitVRLittleEndianUID then .explicitVRLittleEndian
  else if uid = ImplicitVRLittleEndianUID then .implicitVRLittleEndian
  else if uid = ExplicitVRBigEndianUID then .explicitVRBigEndian
  else if uid = DeflatedExplicitVRLittleEndianUID then .deflatedExplicitVRLittleEndian
  else .explicitVRLittleEndian

/-- `transferSyntax.byteOrder()`. -/
def TransferStx.byteOrder : TransferStx → ByteOrder
  | .implicitVRLittleEndian => .littleEndian
  | .explicitVRLittleEndian => .littleEndian
  | .explicitVRBigEndian => .bigEndian
  | .deflatedExplicitVRLittleEndian => .littleEndian

/-- `transferSyntax.isDeflated()`. -/
def TransferStx.isDeflated : TransferStx → Bool
  | .deflatedExplicitVRLittleEndian => true
  | _ => false

/-- whether the syntax is the implicit-VR one (`implicitSyntax` vs
`explicitSyntax` in the source). -/
def TransferStx.isImplicit : TransferStx → Bool
  | .implicitVRLittleEndian => true
  | _ => false

/-- `explicitSyntax.has32BitLength`: the VRs whose explicit encoding uses a
reserved 16-bit field plus a 32-bit length. -/
def has32BitLength (vr : VRName) : Bool :=
  match vr with
  | .OB | .OD | .OF | .OL | .OW | .SQ | .UC | .UR | .UT | .UN => true
  | _ => false

/-- `transferSyntax.elementSize`: the serialized size of an element given
its VR and value-field length (uint32 semantics as in the source, with
`UndefinedLength` propagated). -/
def elementSize (stx : TransferStx) (vr : Option VRName) (valueFieldLength : Nat) : Nat :=
  if valueFieldLength = UndefinedLength then UndefinedLength
  else if stx.isImplicit then (4 + 4 + valueFieldLength) % 2 ^ 32
  else if (vr.map has32BitLength).getD false then
    (4 + 2 + 2 + 4 + valueFieldLength) % 2 ^ 32
  else (4 + 2 + 2 + valueFieldLength) % 2 ^ 32

/-- the eight bytes of `v` (as a uint64) in the given byte order, used for
the float64 bit patterns of the FD/OD value representations. -/
def putUInt64 (order : ByteOrder) (v : Nat) : List Nat :=
  match order with
  | .littleEndian => putUInt32 .littleEndian (v % 4294967296) ++ putUInt32 .littleEndian (v / 4294967296)
  | .bigEndian => putUInt32 .bigEndian (v / 4294967296) ++ putUInt32 .bigEndian (v % 4294967296)

/-- reading of a uint64 (the bit pattern of a float64), mirroring
`binary.Read`. -/
def readUInt64 (order : ByteOrder) (bs : List Nat) : RRes Nat :=
  match readUInt32 order bs with
  | .eof => .eof
  | .err => .err
  | .ok w1 rest =>
    match readUInt32 order rest with
    | .ok w2 rest₂ =>
      match order with
      | .littleEndian => .ok (w1 + w2 * 4294967296) rest₂
      | .bigEndian => .ok (w2 + w1 * 4294967296) rest₂
    | _ => .err

/-- `dcmWriter.Tag`: the 16-bit group then the 16-bit element number. -/
def putTag (order : ByteOrder) (tag : Nat) : List Nat :=
  putUInt16 order (groupNumber tag) ++ putUInt16 order (elementNumber tag)

/-- `dcmWriter.Delimiter`: a delimiter tag followed by a zero 32-bit
length. -/
def putDelimiter (order : ByteOrder) (tag : Nat) : List Nat :=
  putTag order tag ++ putUInt32 order 0

/-! ## Data model (dataset.go, current version)

`DataElement` is the quadruple (tag, VR, value field, value length); a
`DataSet` maps tags to elements.  The Go `ValueField` is an `interface{}`
holding one of the documented types; it is embedded as a closed inductive
with one case per type.  Go float32/float64 slices appear in this library
only as containers for bytes read or written through `binary.Read` /
`binary.Write`, so they are embedded as their IEEE-754 bit patterns
(`Nat` below 2^32 / 2^64); no arithmetic is ever performed on them.
The `DataSet.Elements` map is embedded as an association list keyed by
each element's own tag (the library always stores an element under its
`Tag`), and `Sequence` is its list of item data sets. -/

mutual

/-- the `DataElement.ValueField` variants. -/
inductive Value : Type where
  | strs (ss : List (List Nat))                  -- []string
  | i16s (xs : List Int)                         -- []int16
  | u16s (xs : List Nat)                         -- []uint16
  | i32s (xs : List Int)                         -- []int32
  | u32s (xs : List Nat)                         -- []uint32
  | f32s (xs : List Nat)                         -- []float32 bit patterns
  | f64s (xs : List Nat)                         -- []float64 bit patterns
  | bytesBuf (frags : List (List Nat))           -- BulkDataBuffer (bytesValue)
  | encapBuf (frags : List (List Nat))           -- encapsulatedFormatBuffer
  | refs (rs : List (Nat × Nat))                 -- []BulkDataReference
  | oneShotIter (data : List Nat) (offset : Nat) (len : Int) (empty : Bool)
  | encapIterVal (data : List Nat) (offset : Nat) (empty : Bool)
  | seqVal (items : List DataSet)                -- *Sequence

/-- a DICOM data element. -/
inductive DataElement : Type where
  | mk (tag : Nat) (vr : Option VRName) (value : Value) (vlen : Nat)

/-- a DICOM data set: elements plus the byte length recorded for it. -/
inductive DataSet : Type where
  | mk (elements : List DataElement) (len : Nat)

end

/-- the tag of a data element. -/
def DataElement.tag : DataElement → Nat
  | .mk t _ _ _ => t

/-- the VR of a data element (`nil` is `none`). -/
def DataElement.vr : DataElement → Option VRName
  | .mk _ v _ _ => v

/-- the value field of a data element. -/
def DataElement.value : DataElement → Value
  | .mk _ _ v _ => v

/-- the `ValueLength` of a data element. -/
def DataElement.vlen : DataElement → Nat
  | .mk _ _ _ l => l

/-- the elements of a data set. -/
def DataSet.elements : DataSet → List DataElement
  | .mk es _ => es

/-- the recorded byte length of a data set. -/
def DataSet.len : DataSet → Nat
  | .mk _ l => l

/-- insertion into the `Elements` map: replaces the entry with the same
tag or appends. -/
def mapInsert (es : List DataElement) (e : DataElement) : List DataElement :=
  match es with
  | [] => [e]
  | x :: rest => if x.tag = e.tag then e :: rest else x :: mapInsert rest e

/-- insertion step of ascending sort by tag. -/
def insertByTag (e : DataElement) : List DataElement → List DataElement
  | [] => [e]
  | x :: rest => if e.tag < x.tag then e :: x :: rest else x :: insertByTag e rest

/-- `DataSet.SortedElements` (and `SortedTags`): the elements in ascending
tag order. -/
def sortElements (es : List DataElement) : List DataElement :=
  es.foldr insertByTag []

/-- Modelled from the spec: `DataSet.MetaElements` (defined in the
repository's dataset.go, not under src/, with its unit tests present)
returns the sub-data-set of elements whose tag is in group 0x0002. -/
def metaElements (ds : DataSet) : DataSet :=
  .mk (ds.elements.filter fun e => isMetaElement e.tag) 0

/-- Modelled from the spec: `DataSet.isMetaHeader` (not under src/) checks
that every element of the data set is a file meta element. -/
def isMetaHeader (ds : DataSet) : Bool :=
  ds.elements.all fun e => isMetaElement e.tag

/-- Modelled from the spec: `DataSet.transferSyntax` (not under src/)
reads the transfer-syntax-UID element (0002,0010), takes its first string
value, and resolves it with `lookupTransferSyntax`; it fails when the
element is missing or has no string value. -/
def dataSetTransferStx (ds : DataSet) : Option TransferStx :=
  match ds.elements.find? fun e => e.tag = TransferSyntaxUIDTag with
  | none => none
  | some e =>
    match e.value with
    | .strs (uid :: _) => some (lookupTransferStx uid)
    | _ => none

/-! ## Length recalculation (part of the writer, part_011)

`calculateElementLength` and friends recompute every `ValueLength`.  The
Go version mutates each sequence item's `Length` in place
(`item.Length = itemLen` in `calculateSequenceLength`); the embedding
returns the updated value alongside the computed length. -/

/-- the byte count of a `[]string` value: the summed lengths plus one
backslash separator between consecutive values. -/
def strsNumBytes (ss : List (List Nat)) : Nat :=
  (ss.map List.length).sum + (if 0 < ss.length then ss.length - 1 else 0)

/-- total length of a `[][]byte` fragment list (`bytesValue.Length`). -/
def fragsTotal (frags : List (List Nat)) : Nat :=
  (frags.map List.length).sum

/-- final steps of `calculateElementLength`: lengths at or above
`math.MaxUint32` become `UndefinedLength`, odd lengths get one padding
byte. -/
def clampPad (n : Nat) : Nat :=
  if UndefinedLength ≤ n then UndefinedLength
  else if n % 2 = 1 then n + 1 else n

mutual

/-- `calculateElementLength` from part_011: recomputes the value length
from the value field; `UndefinedLength` is kept as is.  Returns the
computed length together with the value (with nested item lengths
updated, modelling the Go in-place update). -/
def calculateElementLength (e : DataElement) (stx : TransferStx) : Option (Nat × Value) :=
  match e with
  | .mk _tag _vr v vlen =>
    if vlen = UndefinedLength then some (UndefinedLength, v)
    else
      match v with
      | .strs ss => some (clampPad (strsNumBytes ss), v)
      | .i16s xs => some (clampPad (xs.length * 2), v)
      | .u16s xs => some (clampPad (xs.length * 2), v)
      | .i32s xs => some (clampPad (xs.length * 4), v)
      | .u32s xs => some (clampPad (xs.length * 4), v)
      | .f32s xs => some (clampPad (xs.length * 4), v)
      | .f64s xs => some (clampPad (xs.length * 8), v)
      | .seqVal items =>
        match calculateSequenceLength items stx with
        | none => none
        | some (seqLen, items₁) => some (clampPad seqLen, .seqVal items₁)
      | .bytesBuf frags => some (clampPad (fragsTotal frags), v)
      | .encapBuf _ => some (UndefinedLength, v)
      | .oneShotIter _ _ len _ =>
        if len < 0 then none else some (clampPad len.toNat, v)
      | .encapIterVal _ _ _ => some (UndefinedLength, v)
      | .refs _ => none

/-- `calculateSequenceLength` from part_011: an 8-byte item header plus
the item length for each item; totals above `math.MaxUint32` become
`UndefinedLength`.  Each item's `Length` is set to its computed length. -/
def calculateSequenceLength (items : List DataSet) (stx : TransferStx) :
    Option (Nat × List DataSet) :=
  match items with
  | [] => some (0, [])
  | item :: rest =>
    match calculateDataSetLength item stx with
    | none => none
    | some (itemLen, item₁) =>
      match calculateSequenceLength rest stx with
      | none => none
      | some (restSize, rest₁) =>
        let size := 4 + 4 + itemLen + restSize
        some (if 0xFFFFFFFF < size then UndefinedLength else size,
          DataSet.mk item₁.elements itemLen :: rest₁)

/-- `calculateDataSetLength` from part_011: `UndefinedLength` data sets
stay undefined; otherwise the sum of the serialized element sizes, with
totals above `math.MaxUint32` becoming `UndefinedLength`. -/
def calculateDataSetLength (ds : DataSet) (stx : TransferStx) : Option (Nat × DataSet) :=
  match ds with
  | .mk es dsLen =>
    if UndefinedLength ≤ dsLen then some (UndefinedLength, ds)
    else
      match calcElemsSize es stx with
      | none => none
      | some (size, es₁) =>
        some (if 0xFFFFFFFF < size then UndefinedLength else size, .mk es₁ dsLen)

/-- loop body of `calculateDataSetLength`: sums
`syntax.elementSize(elem.VR, calculateElementLength(elem))` over the
elements (an int64 sum in Go, never truncated here). -/
def calcElemsSize (es : List DataElement) (stx : TransferStx) :
    Option (Nat × List DataElement) :=
  match es with
  | [] => some (0, [])
  | e :: rest =>
    match calculateElementLength e stx with
    | none => none
    | some (elemLength, v₁) =>
      match calcElemsSize rest stx with
      | none => none
      | some (size, rest₁) =>
        some (elementSize stx e.vr elemLength + size, DataElement.mk e.tag e.vr v₁ e.vlen :: rest₁)

end

/-! Structural depth measures, used to justify termination of the
construct-side processing, which recurses on values returned by the
length recalculation. -/

mutual

/-- nesting depth of a value. -/
def valueDepth : Value → Nat
  | .seqVal items => itemsDepth items + 1
  | _ => 0

/-- nesting depth of a list of sequence items. -/
def itemsDepth : List DataSet → Nat
  | [] => 0
  | ds :: rest => dsDepth ds + itemsDepth rest + 1

/-- nesting depth of a data set. -/
def dsDepth : DataSet → Nat
  | .mk es _ => elemsDepth es + 1

/-- nesting depth of an element list. -/
def elemsDepth : List DataElement → Nat
  | [] => 0
  | e :: rest => elemDepth e + elemsDepth rest + 1

/-- nesting depth of a data element. -/
def elemDepth : DataElement → Nat
  | .mk _ _ v _ => valueDepth v + 1

end

theorem elemsDepth_insertByTag (e : DataElement) (l : List DataElement) :
    elemsDepth (insertByTag e l) = elemDepth e + elemsDepth l + 1 := by
  induction l with
  | nil => simp [insertByTag, elemsDepth]
  | cons x rest ih =>
    simp only [insertByTag]
    split
    · simp [elemsDepth]
    · simp [elemsDepth, ih]; omega

theorem elemsDepth_sortElements (es : List DataElement) :
    elemsDepth (sortElements es) = elemsDepth es := by
  induction es with
  | nil => rfl
  | cons e rest ih =>
    simp [sortElements, List.foldr] at *
    rw [elemsDepth_insertByTag]
    simp [elemsDepth, ih]

mutual

theorem calculateElementLength_depth : ∀ (e : DataElement) (stx : TransferStx)
    (n : Nat) (v₁ : Value), calculateElementLength e stx = some (n, v₁) →
    valueDepth v₁ = valueDepth e.value
  | .mk t vr (.seqVal items) vlen, stx, n, v₁, h => by
    rw [calculateElementLength.eq_def] at h
    dsimp only at h
    by_cases hu : vlen = UndefinedLength
    · simp only [hu, if_pos rfl] at h
      cases h; rfl
    · simp only [if_neg hu] at h
      match hseq : calculateSequenceLength items stx with
      | none => rw [hseq] at h; cases h
      | some (sl, items₁) =>
        rw [hseq] at h
        cases h
        have := calculateSequenceLength_depth items stx sl items₁ hseq
        simp [DataElement.value, valueDepth, this]
  | .mk t vr (.strs ss) vlen, stx, n, v₁, h => by
    rw [calculateElementLength.eq_def] at h; dsimp only at h
    by_cases hu : vlen = UndefinedLength
    · simp only [hu, if_pos rfl] at h; cases h; rfl
    · simp only [if_neg hu] at h; cases h; rfl
  | .mk t vr (.i16s xs) vlen, stx, n, v₁, h => by
    rw [calculateElementLength.eq_def] at h; dsimp only at h
    by_cases hu : vlen = UndefinedLength
    · simp only [hu, if_pos rfl] at h; cases h; rfl
    · simp only [if_neg hu] at h; cases h; rfl
  | .mk t vr (.u16s xs) vlen, stx, n, v₁, h => by
    rw [calculateElementLength.eq_def] at h; dsimp only at h
    by_cases hu : vlen = UndefinedLength
    · simp only [hu, if_pos rfl] at h; cases h; rfl
    · simp only [if_neg hu] at h; cases h; rfl
  | .mk t vr (.i32s xs) vlen, stx, n, v₁, h => by
    rw [calculateElementLength.eq_def] at h; dsimp only at h
    by_cases hu : vlen = UndefinedLength
    · simp only [hu, if_pos rfl] at h; cases h; rfl
    · simp only [if_neg hu] at h; cases h; rfl
  | .mk t vr (.u32s xs) vlen, stx, n, v₁, h => by
    rw [calculateElementLength.eq_def] at h; dsimp only at h
    by_cases hu : vlen = UndefinedLength
    · simp only [hu, if_pos rfl] at h; cases h; rfl
    · simp only [if_neg hu] at h; cases h; rfl
  | .mk t vr (.f32s xs) vlen, stx, n, v₁, h => by
    rw [calculateElementLength.eq_def] at h; dsimp only at h
    by_cases hu : vlen = UndefinedLength
    · simp only [hu, if_pos rfl] at h; cases h; rfl
    · simp only [if_neg hu] at h; cases h; rfl
  | .mk t vr (.f64s xs) vlen, stx, n, v₁, h => by
    rw [calculateElementLength.eq_def] at h; dsimp only at h
    by_cases hu : vlen = UndefinedLength
    · simp only [hu, if_pos rfl] at h; cases h; rfl
    · simp only [if_neg hu] at h; cases h; rfl
  | .mk t vr (.bytesBuf fs) vlen, stx, n, v₁, h => by
    rw [calculateElementLength.eq_def] at h; dsimp only at h
    by_cases hu : vlen = UndefinedLength
    · simp only [hu, if_pos rfl] at h; cases h; rfl
    · simp only [if_neg hu] at h; cases h; rfl
  | .mk t vr (.encapBuf fs) vlen, stx, n, v₁, h => by
    rw [calculateElementLength.eq_def] at h; dsimp only at h
    by_cases hu : vlen = UndefinedLength
    · simp only [hu, if_pos rfl] at h; cases h; rfl
    · simp only [if_neg hu] at h; cases h; rfl
  | .mk t vr (.refs rs) vlen, stx, n, v₁, h => by
    rw [calculateElementLength.eq_def] at h; dsimp only at h
    by_cases hu : vlen = UndefinedLength
    · simp only [hu, if_pos rfl] at h; cases h; rfl
    · simp only [if_neg hu] at h; cases h
  | .mk t vr (.oneShotIter d o len em) vlen, stx, n, v₁, h => by
    rw [calculateElementLength.eq_def] at h; dsimp only at h
    by_cases hu : vlen = UndefinedLength
    · simp only [hu, if_pos rfl] at h; cases h; rfl
    · simp only [if_neg hu] at h
      split at h
      · cases h
      · cases h; rfl
  | .mk t vr (.encapIterVal d o em) vlen, stx, n, v₁, h => by
    rw [calculateElementLength.eq_def] at h; dsimp only at h
    by_cases hu : vlen = UndefinedLength
    · simp only [hu, if_pos rfl] at h; cases h; rfl
    · simp only [if_neg hu] at h; cases h; rfl

theorem calculateSequenceLength_depth : ∀ (items : List DataSet) (stx : TransferStx)
    (n : Nat) (items₁ : List DataSet),
    calculateSequenceLength items stx = some (n, items₁) →
    itemsDepth items₁ = itemsDepth items
  | [], stx, n, items₁, h => by
    rw [calculateSequenceLength] at h
    cases h; rfl
  | item :: rest, stx, n, items₁, h => by
    rw [calculateSequenceLength] at h
    match hds : calculateDataSetLength item stx with
    | none => rw [hds] at h; cases h
    | some (itemLen, item₁) =>
      rw [hds] at h
      match hrest : calculateSequenceLength rest stx with
      | none => rw [hrest] at h; cases h
      | some (restSize, rest₁) =>
        rw [hrest] at h
        cases h
        have h1 := calculateDataSetLength_depth item stx itemLen item₁ hds
        have h2 := calculateSequenceLength_depth rest stx restSize rest₁ hrest
        match item₁ with
        | .mk es₁ l₁ =>
          simp [itemsDepth, dsDepth] at h1 ⊢
          simp [DataSet.elements]
          omega

theorem calculateDataSetLength_depth : ∀ (ds : DataSet) (stx : TransferStx)
    (n : Nat) (ds₁ : DataSet), calculateDataSetLength ds stx = some (n, ds₁) →
    dsDepth ds₁ = dsDepth ds
  | .mk es dsLen, stx, n, ds₁, h => by
    rw [calculateDataSetLength] at h
    by_cases hu : UndefinedLength ≤ dsLen
    · simp only [if_pos hu] at h
      cases h; rfl
    · simp only [if_neg hu] at h
      match hes : calcElemsSize es stx with
      | none => rw [hes] at h; cases h
      | some (size, es₁) =>
        rw [hes] at h
        cases h
        have := calcElemsSize_depth es stx size es₁ hes
        simp [dsDepth, this]

theorem calcElemsSize_depth : ∀ (es : List DataElement) (stx : TransferStx)
    (n : Nat) (es₁ : List DataElement), calcElemsSize es stx = some (n, es₁) →
    elemsDepth es₁ = elemsDepth es
  | [], stx, n, es₁, h => by
    rw [calcElemsSize] at h
    cases h; rfl
  | .mk t vr v l :: rest, stx, n, es₁, h => by
    rw [calcElemsSize] at h
    match he : calculateElementLength (.mk t vr v l) stx with
    | none => rw [he] at h; cases h
    | some (elemLength, v₁) =>
      rw [he] at h
      match hrest : calcElemsSize rest stx with
      | none => rw [hrest] at h; cases h
      | some (size, rest₁) =>
        rw [hrest] at h
        cases h
        have h1 := calculateElementLength_depth (.mk t vr v l) stx elemLength v₁ he
        have h2 := calcElemsSize_depth rest stx size rest₁ hrest
        simp [DataElement.value] at h1
        simp [elemsDepth, elemDepth, DataElement.tag, DataElement.vr, DataElement.vlen, h1, h2]

end

/-! ## Construct-side element processing (part_011)

`processElementForConstruct` applies the construct options (none are
modelled: this development covers the default pipeline), fills a missing
VR from the data dictionary, recalculates the value length, and descends
into sequences pre-order. -/

mutual

/-- `processElementForConstruct` with an empty option list:
`applyConstructOptions` (VR fill plus length recalculation) followed by
recursive processing of sequence items.  The value produced by the length
recalculation carries the updated item lengths, matching the Go in-place
update. -/
def processElementForConstruct (e : DataElement) (stx : TransferStx) : Option DataElement :=
  match h : calculateElementLength e stx with
  | none => none
  | some (length, .seqVal items₁) =>
    match processSequenceForConstruct items₁ stx with
    | none => none
    | some items₂ =>
      some (.mk e.tag (some (e.vr.getD (dictionaryVR e.tag))) (.seqVal items₂) length)
  | some (length, v₁) =>
    some (.mk e.tag (some (e.vr.getD (dictionaryVR e.tag))) v₁ length)
termination_by elemDepth e
decreasing_by
  have hd := calculateElementLength_depth e stx length (Value.seqVal items₁) h
  cases e with
  | mk t vr v l =>
    simp [DataElement.value] at hd
    simp [elemDepth, valueDepth] at hd ⊢
    omega

/-- `processSequenceForConstruct`: processes every item of the sequence. -/
def processSequenceForConstruct (items : List DataSet) (stx : TransferStx) :
    Option (List DataSet) :=
  match items with
  | [] => some []
  | item :: rest =>
    match processItemForConstruct item stx with
    | none => none
    | some item₂ =>
      match processSequenceForConstruct rest stx with
      | none => none
      | some rest₂ => some (item₂ :: rest₂)
termination_by itemsDepth items
decreasing_by
  · simp [itemsDepth]; omega
  · simp [itemsDepth]; omega

/-- `processItemForConstruct`: processes the item's elements in ascending
tag order into a fresh element map, keeping the item's recorded length. -/
def processItemForConstruct (ds : DataSet) (stx : TransferStx) : Option DataSet :=
  match processElemsForConstruct (sortElements ds.elements) [] stx with
  | none => none
  | some es => some (.mk es ds.len)
termination_by dsDepth ds
decreasing_by
  rw [elemsDepth_sortElements]
  cases ds with
  | mk es l => simp [dsDepth, DataSet.elements]

/-- loop of `processItemForConstruct` over the sorted elements,
accumulating `ret.Elements[tag] = processedElement`. -/
def processElemsForConstruct (es : List DataElement) (acc : List DataElement)
    (stx : TransferStx) : Option (List DataElement) :=
  match es with
  | [] => some acc
  | e :: rest =>
    match processElementForConstruct e stx with
    | none => none
    | some e₂ => processElemsForConstruct rest (mapInsert acc e₂) stx
termination_by elemsDepth es
decreasing_by
  · simp [elemsDepth]; omega
  · simp [elemsDepth]; omega

end

/-- unfolding of `elemDepth` through the accessors. -/
theorem elemDepth_eq (e : DataElement) : elemDepth e = valueDepth e.value + 1 := by
  cases e <;> rfl

/-- unfolding of `dsDepth` through the accessors. -/
theorem dsDepth_eq (ds : DataSet) : dsDepth ds = elemsDepth ds.elements + 1 := by
  cases ds <;> rfl

/-! ## Writer (part_009 current version, part_007, part_005)

`writeDataElement` emits tag, VR, length and value.  Errors (unsupported
value types, 16-bit length overflow, nil VR dereference) are `none`. -/

/-- `transferSyntax.writeVR`: the implicit syntax writes nothing, the
explicit syntaxes write the 2-letter code (`none` models the nil-VR
dereference fault). -/
def writeVRStx (stx : TransferStx) (vr : Option VRName) : Option (List Nat) :=
  if stx.isImplicit then some [] else vr.map VRName.nameBytes

/-- `transferSyntax.writeValueLength`: 32-bit with a zero reserved field
for the large VRs, 16-bit otherwise with an overflow check; always 32-bit
little-endian for the implicit syntax. -/
def writeValueLengthStx (stx : TransferStx) (vr : Option VRName) (length : Nat) :
    Option (List Nat) :=
  if stx.isImplicit then some (putUInt32 .littleEndian length)
  else if (vr.map has32BitLength).getD false then
    some (putUInt16 stx.byteOrder 0 ++ putUInt32 stx.byteOrder length)
  else if 0xFFFF < length then none
  else some (putUInt16 stx.byteOrder length)

/-- `writeText`: joins the strings with backslashes and pads an odd total
with the given padding byte. -/
def writeText (paddingByte : Nat) (v : Value) : Option (List Nat) :=
  match v with
  | .strs ss =>
    let b := joinBackslash ss
    some (if b.length % 2 = 1 then b ++ [paddingByte] else b)
  | _ => none

/-- `writeNumberBinary` via `binary.Write` in the syntax's byte order. -/
def writeNumberBinary (order : ByteOrder) (v : Value) : Option (List Nat) :=
  match v with
  | .i16s xs => some (xs.map fun x => putUInt16 order (toUnsignedBits 16 x)).flatten
  | .u16s xs => some (xs.map fun x => putUInt16 order x).flatten
  | .i32s xs => some (xs.map fun x => putUInt32 order (toUnsignedBits 32 x)).flatten
  | .u32s xs => some (xs.map fun x => putUInt32 order x).flatten
  | .f32s xs => some (xs.map fun x => putUInt32 order x).flatten
  | .f64s xs => some (xs.map fun x => putUInt64 order x).flatten
  | _ => none

/-- `writeTag` for the AT value representation: each `uint32` value is
written as a tag. -/
def writeTagValue (order : ByteOrder) (v : Value) : Option (List Nat) :=
  match v with
  | .u32s xs => some (xs.map fun x => putTag order x).flatten
  | _ => none

/-- one odd fragment padded with a trailing null
(`encapsulatedFormatBuffer.write`). -/
def padOddFrag (f : List Nat) : List Nat :=
  if f.length % 2 = 1 then f ++ [0] else f

/-- `writeEncapsulatedFormat` applied to fully materialized fragments: an
item tag and 32-bit length per fragment followed by the sequence
delimitation item, all in the byte order passed by the caller. -/
def writeEncapsulatedFormat (order : ByteOrder) (frags : List (List Nat)) : List Nat :=
  (frags.map fun f => putTag order ItemTag ++ putUInt32 order (f.length % 2 ^ 32) ++ f).flatten
    ++ putTag order SequenceDelimitationItemTag ++ putUInt32 order 0

/-- `bytesValue.write`: the concatenated fragments, with one trailing null
byte when the total length is odd. -/
def bytesValueWrite (frags : List (List Nat)) : List Nat :=
  frags.flatten ++ (if fragsTotal frags % 2 = 1 then [0] else [])

/-- `encapsulatedFormatBuffer.write`: every odd fragment is padded with a
null byte, then written in the encapsulated format. -/
def encapBufWrite (order : ByteOrder) (frags : List (List Nat)) : List Nat :=
  writeEncapsulatedFormat order (frags.map padOddFrag)

/-- loop of `encapsulatedFormatIterator.Next` (`processItemTag` with
little-endian order, 32-bit little-endian lengths): collects the
fragments of an encapsulated pixel-data stream and the remaining bytes
after the sequence delimitation item.  The delimiter's length field is
read but not validated, as in `terminate`.  `none` is any error. -/
def collectEncapFragments : Nat → List Nat → Option (List (List Nat) × List Nat)
  | 0, _ => none
  | fuel + 1, bs =>
    match readTagBytes .littleEndian bs with
    | .eof => none
    | .err => none
    | .ok tag rest =>
      if tag = SequenceDelimitationItemTag then
        match readUInt32 .littleEndian rest with
        | .ok _ rest₂ => some ([], rest₂)
        | _ => none
      else if tag = ItemTag then
        match readUInt32 .littleEndian rest with
        | .ok len rest₂ =>
          if UndefinedLength ≤ len then none
          else
            match collectEncapFragments fuel (rest₂.drop len) with
            | some (frags, rem) => some (rest₂.take len :: frags, rem)
            | none => none
        | _ => none
      else none

/-- `oneShotIterator.write`: the remaining bytes of the single reader (or
nothing once the iterator is empty). -/
def oneShotIterWrite (data : List Nat) (empty : Bool) : List Nat :=
  if empty then [] else data

/-- `encapsulatedFormatIterator.write`: streams the fragments parsed from
the iterator's input into `writeEncapsulatedFormat` with the caller's
byte order. -/
def encapIterWrite (order : ByteOrder) (data : List Nat) (empty : Bool) :
    Option (List Nat) :=
  if empty then some (writeEncapsulatedFormat order [])
  else
    match collectEncapFragments (data.length + 1) data with
    | some (frags, _) => some (writeEncapsulatedFormat order frags)
    | none => none

/-- `writeBulkData` (current version): iterators and buffers write
themselves, numeric slices go through `binary.Write`, string slices are
written as space-padded text. -/
def writeBulkData (stx : TransferStx) (v : Value) : Option (List Nat) :=
  match v with
  | .oneShotIter data _ _ empty => some (oneShotIterWrite data empty)
  | .encapIterVal data _ empty => encapIterWrite stx.byteOrder data empty
  | .bytesBuf frags => some (bytesValueWrite frags)
  | .encapBuf frags => some (encapBufWrite stx.byteOrder frags)
  | .i16s _ | .u16s _ | .i32s _ | .u32s _ | .f32s _ | .f64s _ =>
    writeNumberBinary stx.byteOrder v
  | .strs _ => writeText 0x20 v
  | _ => none

mutual

/-- `writeDataElement` (current version): tag, VR, value length and value
in sequence. -/
def writeDataElement (e : DataElement) (stx : TransferStx) : Option (List Nat) :=
  match writeVRStx stx e.vr with
  | none => none
  | some vrB =>
    match writeValueLengthStx stx e.vr e.vlen with
    | none => none
    | some lenB =>
      match writeValue stx e.vr e.value e.vlen with
      | none => none
      | some valB => some (putTag stx.byteOrder e.tag ++ vrB ++ lenB ++ valB)
termination_by (elemDepth e, 1)
decreasing_by
  simp only [elemDepth_eq]
  exact Prod.Lex.right _ (by omega)

/-- `writeValue`: dispatch on the VR kind (`none` for a nil VR,
modelling the nil dereference).  The `sequenceVR` arm is `writeSequence`
from the source, inlined here for the recursion. -/
def writeValue (stx : TransferStx) (vr : Option VRName) (v : Value) (valueLength : Nat) :
    Option (List Nat) :=
  match vr with
  | none => none
  | some vrn =>
    match vrn.kind with
    | .textVR => writeText 0x20 v
    | .numberBinaryVR => writeNumberBinary stx.byteOrder v
    | .bulkDataVR => writeBulkData stx v
    | .uniqueIdentifierVR => writeText 0x00 v
    | .tagVR => writeTagValue stx.byteOrder v
    | .sequenceVR =>
      match v with
      | .seqVal items =>
        match writeItems stx items with
        | none => none
        | some body =>
          some (body ++
            if UndefinedLength ≤ valueLength then
              putDelimiter stx.byteOrder SequenceDelimitationItemTag
            else [])
      | _ => none
termination_by (valueDepth v + 1, 0)
decreasing_by
  apply Prod.Lex.left
  simp [valueDepth]
  omega

/-- item loop of `writeSequence`: item tag, the item's recorded 32-bit
length, the item data set, and an item delimitation item when the item
length is undefined. -/
def writeItems (stx : TransferStx) (items : List DataSet) : Option (List Nat) :=
  match items with
  | [] => some []
  | item :: rest =>
    match writeDataSetBytes stx item with
    | none => none
    | some body =>
      match writeItems stx rest with
      | none => none
      | some restB =>
        some (putTag stx.byteOrder ItemTag ++ putUInt32 stx.byteOrder item.len ++ body ++
          (if UndefinedLength ≤ item.len then
            putDelimiter stx.byteOrder ItemDelimitationItemTag
          else []) ++ restB)
termination_by (itemsDepth items, 1)
decreasing_by
  · apply Prod.Lex.left; simp [itemsDepth]; omega
  · apply Prod.Lex.left; simp [itemsDepth]; omega

/-- `writeDataSet`: the elements in ascending tag order. -/
def writeDataSetBytes (stx : TransferStx) (ds : DataSet) : Option (List Nat) :=
  writeElemsList stx (sortElements ds.elements)
termination_by (dsDepth ds, 1)
decreasing_by
  apply Prod.Lex.left
  rw [elemsDepth_sortElements, dsDepth_eq]
  omega

/-- loop of `writeDataSet` over the sorted elements. -/
def writeElemsList (stx : TransferStx) (es : List DataElement) : Option (List Nat) :=
  match es with
  | [] => some []
  | e :: rest =>
    match writeDataElement e stx with
    | none => none
    | some b =>
      match writeElemsList stx rest with
      | none => none
      | some restB => some (b ++ restB)
termination_by (elemsDepth es, 2)
decreasing_by
  · apply Prod.Lex.left; simp [elemsDepth]; omega
  · apply Prod.Lex.left; simp [elemsDepth]; omega

end

/-! ## Parser (part_013, part_000 current sequence iterator, part_012, parse.go)

`Parse` drives the data-element iterator and applies `processElement` to
every streamed element; with no parse options this is exactly the
implicit bulk-data buffering (`bufferBulkData`) and the collection of
sequence iterators (`CollectSequence`).  The embedding composes the two
steps: values are produced in their buffered forms while consuming the
stream, which is byte-for-byte the behaviour of the option-free pipeline
(the iterator hands each element to `processElement` before the next
element is read).  The recursion is fuelled; `parseFile` passes more fuel
than any input of its length can consume. -/

/-- result of reading a tag at the start of an element, carrying the
stream position (`io.EOF` leaves the reader where the failing 16-bit read
left it). -/
inductive TagRes where
  | ok (tag : Nat) (rest : List Nat)
  | eofR (rest : List Nat)
  | errR
deriving Repr

/-- `dcmReader.Tag` as used by `readDataElement` and `processItemTag`. -/
def readTagForElement (order : ByteOrder) (bs : List Nat) : TagRes :=
  match readUInt16 order bs with
  | .eof => .eofR bs
  | .err => .errR
  | .ok group rest =>
    match readUInt16 order rest with
    | .eof => .eofR rest
    | .err => .errR
    | .ok element rest₂ => .ok (group * 65536 + element) rest₂

/-- result of `readDataElement` (plus the option-free `processElement`):
an element, a clean `io.EOF` (end of input before any tag byte, or an
item delimitation item), or an error. -/
inductive PERes where
  | ok (e : DataElement) (rest : List Nat)
  | eofR (rest : List Nat)
  | errR

/-- `strconv.ParseInt(s, 10, 64)` on a byte string: optional sign and at
least one decimal digit. -/
def parseDecInt (s : List Nat) : Option Int :=
  let core : List Nat → Option Nat := fun digits =>
    if digits.isEmpty then none
    else if digits.all fun d => 0x30 ≤ d && d ≤ 0x39 then
      some (digits.foldl (fun acc d => acc * 10 + (d - 0x30)) 0)
    else none
  match s with
  | 0x2D :: rest => (core rest).map fun n => -(n : Int)
  | 0x2B :: rest => (core rest).map fun n => (n : Int)
  | _ => (core s).map fun n => (n : Int)

/-- `DataElement.IntValue`: the first value of an integer-typed or
integer-string value field. -/
def intValue (e : DataElement) : Option Int :=
  match e.value with
  | .strs (s :: _) => parseDecInt s
  | .i16s (x :: _) => some x
  | .u16s (x :: _) => some (x : Int)
  | .i32s (x :: _) => some x
  | .u32s (x :: _) => some (x : Int)
  | _ => none

/-- `DataElement.StringValue`: the first value of a string value field. -/
def stringValue (e : DataElement) : Option (List Nat) :=
  match e.value with
  | .strs (s :: _) => some s
  | _ => none

/-- `transferSyntax.readValueLength`: 16-bit with zero reserved prefix and
32-bit forms for the explicit syntaxes, always 32-bit little-endian for
the implicit syntax.  Any read failure is an error. -/
def readValueLengthF (stx : TransferStx) (vr : VRName) (bs : List Nat) :
    Option (Nat × List Nat) :=
  if stx.isImplicit then
    match readUInt32 .littleEndian bs with
    | .ok n rest => some (n, rest)
    | _ => none
  else if has32BitLength vr then
    match readUInt16 stx.byteOrder bs with
    | .ok _ rest =>
      match readUInt32 stx.byteOrder rest with
      | .ok n rest₂ => some (n, rest₂)
      | _ => none
    | _ => none
  else
    match readUInt16 stx.byteOrder bs with
    | .ok n rest => some ((n : Nat), rest)
    | _ => none

/-- `readText`: reads `length` bytes, splits on backslash and trims each
value (right-only for UT/ST/LT, both sides otherwise) with the padding
predicate for the VR kind. -/
def readTextValue (vr : VRName) (isPadding : Nat → Bool) (length : Nat) (bs : List Nat) :
    Option (Value × List Nat) :=
  if length = 0 then some (.strs [], bs)
  else
    match readBytes length bs with
    | .ok buff rest =>
      let strs := (splitOnBackslash buff).map fun s =>
        if vr = .UT ∨ vr = .ST ∨ vr = .LT then trimRightFunc isPadding s
        else trimFunc isPadding s
      some (.strs strs, rest)
    | _ => none

/-- chunked `binary.Read`: `count` consecutive machine words of the given
width. -/
def readChunks (width : Nat) (order : ByteOrder) : Nat → List Nat → Option (List Nat × List Nat)
  | 0, bs => some ([], bs)
  | count + 1, bs =>
    let one :=
      if width = 2 then readUInt16 order bs
      else if width = 4 then readUInt32 order bs
      else readUInt64 order bs
    match one with
    | .ok w rest =>
      match readChunks width order count rest with
      | some (ws, rest₂) => some (w :: ws, rest₂)
      | none => none
    | _ => none

/-- `readNumberBinary`: `length / width` typed numbers in the syntax's
byte order. -/
def readNumberBinaryValue (vr : VRName) (order : ByteOrder) (length : Nat) (bs : List Nat) :
    Option (Value × List Nat) :=
  match vr with
  | .SS => (readChunks 2 order (length / 2) bs).map fun (ws, r) =>
      (.i16s (ws.map (toSignedBits 16)), r)
  | .US => (readChunks 2 order (length / 2) bs).map fun (ws, r) => (.u16s ws, r)
  | .SL => (readChunks 4 order (length / 4) bs).map fun (ws, r) =>
      (.i32s (ws.map (toSignedBits 32)), r)
  | .UL => (readChunks 4 order (length / 4) bs).map fun (ws, r) => (.u32s ws, r)
  | .FL => (readChunks 4 order (length / 4) bs).map fun (ws, r) => (.f32s ws, r)
  | .FD => (readChunks 8 order (length / 8) bs).map fun (ws, r) => (.f64s ws, r)
  | _ => none

/-- `readTag` for the AT value representation: `length / 4` tags. -/
def readTagValueF (order : ByteOrder) : Nat → List Nat → Option (List Nat × List Nat)
  | 0, bs => some ([], bs)
  | count + 1, bs =>
    match readTagBytes order bs with
    | .ok t rest =>
      match readTagValueF order count rest with
      | some (ts, rest₂) => some (t :: ts, rest₂)
      | none => none
    | _ => none

/-- `decodeFragment` / `emptyFragmentForType` from parse.go, applied by
`bufferBulkData` to the collected fragments: OW/OB/UN keep the fragment
buffer, the single-fragment types decode one fragment (an empty
fragment list gives the empty typed value, more than one fragment is an
error). -/
def bufferFromFragments (vr : VRName) (order : ByteOrder) (isEncap : Bool)
    (frags : List (List Nat)) : Option Value :=
  match vr with
  | .OW | .OB | .UN => some (if isEncap then .encapBuf frags else .bytesBuf frags)
  | .UC | .UR | .UT | .OL | .OD | .OF =>
    match frags with
    | [] =>
      match vr with
      | .UC | .UR | .UT => some (.strs [])
      | .OL => some (.u32s [])
      | .OD => some (.f64s [])
      | _ => some (.f32s [])
    | [buff] =>
      match vr with
      | .UC => some (.strs (splitOnBackslash buff))
      | .UR | .UT => some (.strs [trimRightFunc goIsSpace buff])
      | .OL =>
        match readChunks 4 order (buff.length / 4) buff with
        | some (ws, _) => some (.u32s ws)
        | none => none
      | .OD =>
        match readChunks 8 order (buff.length / 8) buff with
        | some (ws, _) => some (.f64s ws)
        | none => none
      | _ =>
        match readChunks 4 order (buff.length / 4) buff with
        | some (ws, _) => some (.f32s ws)
        | none => none
    | _ => none
  | _ => none

mutual

/-- `readDataElement` composed with the option-free `processElement`: one
data element with its value already collected into the buffered form. -/
def parseDataElementF (fuel : Nat) (stx : TransferStx) (bs : List Nat) : PERes :=
  match fuel with
  | 0 => .errR
  | fuel + 1 =>
    match readTagForElement stx.byteOrder bs with
    | .eofR rest => .eofR rest
    | .errR => .errR
    | .ok tag rest =>
      if tag = ItemDelimitationItemTag then
        match readUInt32 stx.byteOrder rest with
        | .ok len rest₂ => if len ≠ 0 then .errR else .eofR rest₂
        | _ => .errR
      else
        match
          (if stx.isImplicit then some (dictionaryVR tag, rest)
           else
             match readBytes 2 rest with
             | .ok vrBytes rest₂ =>
               match lookupVRByName vrBytes with
               | some vr => some (vr, rest₂)
               | none => none
             | _ => none) with
        | none => .errR
        | some (vr, rest₂) =>
          match readValueLengthF stx vr rest₂ with
          | none => .errR
          | some (length, rest₃) =>
            match readValueF fuel tag vr length stx rest₃ with
            | none => .errR
            | some (value, rest₄) => .ok (.mk tag (some vr) value length) rest₄

/-- `readValue` composed with the buffering of `processElement`:
dispatch on the VR kind. -/
def readValueF (fuel : Nat) (tag : Nat) (vr : VRName) (length : Nat)
    (stx : TransferStx) (bs : List Nat) : Option (Value × List Nat) :=
  match fuel with
  | 0 => none
  | fuel + 1 =>
    match vr.kind with
    | .textVR => readTextValue vr goIsSpace length bs
    | .uniqueIdentifierVR =>
      readTextValue vr (fun r => r = 0x00 || r = 0x20) length bs
    | .numberBinaryVR => readNumberBinaryValue vr stx.byteOrder length bs
    | .tagVR =>
      match readTagValueF stx.byteOrder (length / 4) bs with
      | some (ts, rest) => some (.u32s ts, rest)
      | none => none
    | .sequenceVR =>
      if length < UndefinedLength then
        match collectSeqItemsExplicitF fuel stx (bs.take length) with
        | some items => some (.seqVal items, bs.drop length)
        | none => none
      else
        match collectSeqItemsUndefF fuel stx bs with
        | some (items, rest) => some (.seqVal items, rest)
        | none => none
    | .bulkDataVR =>
      if length = UndefinedLength then
        if tag = PixelDataTag then
          match collectEncapFragments fuel bs with
          | some (frags, rest) =>
            match bufferFromFragments vr stx.byteOrder true frags with
            | some v => some (v, rest)
            | none => none
          | none => none
        else none
      else
        match bufferFromFragments vr stx.byteOrder false [bs.take length] with
        | some v => some (v, bs.drop length)
        | none => none

/-- `CollectDataElements`: drives the element iterator to `io.EOF`,
inserting each processed element into the data-set map. -/
def collectDataElementsF (fuel : Nat) (stx : TransferStx) (bs : List Nat)
    (acc : List DataElement) : Option (List DataElement × List Nat) :=
  match fuel with
  | 0 => none
  | fuel + 1 =>
    match parseDataElementF fuel stx bs with
    | .eofR rest => some (acc, rest)
    | .errR => none
    | .ok e rest => collectDataElementsF fuel stx rest (mapInsert acc e)

/-- `explicitLengthSequenceIterator` driven by `CollectSequence`: items
until the bounded reader is exhausted (a sequence delimitation item here
is an error). -/
def collectSeqItemsExplicitF (fuel : Nat) (stx : TransferStx) (bs : List Nat) :
    Option (List DataSet) :=
  match fuel with
  | 0 => none
  | fuel + 1 =>
    match readTagForElement stx.byteOrder bs with
    | .eofR _ => some []
    | .errR => none
    | .ok tag rest =>
      if tag = SequenceDelimitationItemTag then none
      else if tag ≠ ItemTag then none
      else
        match readUInt32 stx.byteOrder rest with
        | .ok itemLen rest₂ =>
          if UndefinedLength ≤ itemLen then
            match collectDataElementsF fuel stx rest₂ [] with
            | some (elems, rest₃) =>
              match collectSeqItemsExplicitF fuel stx rest₃ with
              | some items => some (.mk elems itemLen :: items)
              | none => none
            | none => none
          else
            match collectDataElementsF fuel stx (rest₂.take itemLen) [] with
            | some (elems, _) =>
              match collectSeqItemsExplicitF fuel stx (rest₂.drop itemLen) with
              | some items => some (.mk elems itemLen :: items)
              | none => none
            | none => none
        | _ => none

/-- `undefinedLengthSequenceIterator` driven by `CollectSequence`: items
until the sequence delimitation item with a zero length field;
end-of-input before delimitation is an error. -/
def collectSeqItemsUndefF (fuel : Nat) (stx : TransferStx) (bs : List Nat) :
    Option (List DataSet × List Nat) :=
  match fuel with
  | 0 => none
  | fuel + 1 =>
    match readTagForElement stx.byteOrder bs with
    | .eofR _ => none
    | .errR => none
    | .ok tag rest =>
      if tag = SequenceDelimitationItemTag then
        match readUInt32 stx.byteOrder rest with
        | .ok len rest₂ => if len ≠ 0 then none else some ([], rest₂)
        | _ => none
      else if tag ≠ ItemTag then none
      else
        match readUInt32 stx.byteOrder rest with
        | .ok itemLen rest₂ =>
          if UndefinedLength ≤ itemLen then
            match collectDataElementsF fuel stx rest₂ [] with
            | some (elems, rest₃) =>
              match collectSeqItemsUndefF fuel stx rest₃ with
              | some (items, rem) => some (.mk elems itemLen :: items, rem)
              | none => none
            | none => none
          else
            match collectDataElementsF fuel stx (rest₂.take itemLen) [] with
            | some (elems, _) =>
              match collectSeqItemsUndefF fuel stx (rest₂.drop itemLen) with
              | some (items, rem) => some (.mk elems itemLen :: items, rem)
              | none => none
            | none => none
        | _ => none

end

/-- `readDicomSignature`: skips the 128-byte preamble and checks the
"DICM" magic. -/
def readDicomSignatureF (bs : List Nat) : Option (List Nat) :=
  match skipBytes 128 bs with
  | .ok _ rest =>
    match readBytes 4 rest with
    | .ok magic rest₂ => if magic = strBytes "DICM" then some rest₂ else none
    | _ => none
  | _ => none

/-- `bufferMetadataHeader`: buffers the 12 bytes of the
file-meta-group-length element, parses it (explicit little endian),
converts its value to an integer and buffers that many further bytes. -/
def bufferMetadataHeaderF (bs : List Nat) : Option (List Nat × List Nat) :=
  match readBytes 12 bs with
  | .ok firstElemBytes rest =>
    match parseDataElementF (firstElemBytes.length + 2) .explicitVRLittleEndian firstElemBytes with
    | .ok firstElem _ =>
      match intValue firstElem with
      | some metaGroupLength =>
        if metaGroupLength < 0 then none
        else
          match readBytes metaGroupLength.toNat rest with
          | .ok remainderBytes rest₂ => some (firstElemBytes ++ remainderBytes, rest₂)
          | _ => none
      | none => none
    | _ => none
  | _ => none

/-- `findSyntax`: scans the buffered meta header (explicit little endian)
for the transfer-syntax-UID element and resolves its string value. -/
def findSyntaxUID (fuel : Nat) (bs : List Nat) : Option TransferStx :=
  match fuel with
  | 0 => none
  | fuel + 1 =>
    match parseDataElementF fuel .explicitVRLittleEndian bs with
    | .eofR _ => none
    | .errR => none
    | .ok e rest =>
      if e.tag = TransferSyntaxUIDTag then
        match stringValue e with
        | some uid => some (lookupTransferStx uid)
        | none => none
      else findSyntaxUID fuel rest

/-- `Parse` with no parse options: `NewDataElementIterator` (preamble,
signature, buffered meta header, transfer-syntax resolution) followed by
`CollectDataElements`, which yields the meta elements (parsed from the
buffered header in explicit little endian) and then the body elements in
the file's syntax.  The deflated syntax wraps the body in an external
flate decompressor, which is outside this model (`none` here). -/
def parseFile (f : List Nat) : Option DataSet :=
  let fuel := f.length + 2
  match readDicomSignatureF f with
  | none => none
  | some afterSig =>
    match bufferMetadataHeaderF afterSig with
    | none => none
    | some (metaBytes, body) =>
      match findSyntaxUID fuel metaBytes with
      | none => none
      | some stx =>
        if stx.isDeflated then none
        else
          match collectDataElementsF fuel .explicitVRLittleEndian metaBytes [] with
          | none => none
          | some (metaElems, _) =>
            match collectDataElementsF fuel stx body metaElems with
            | none => none
            | some (allElems, _) => some (.mk allElems UndefinedLength)

/-! ## Top-level writer (part_011 `NewDataElementWriter`, part_015 `Construct`) -/

/-- size loop of `createMetaGroupLengthElement`: the uint32 sum of
`explicitVRLittleEndian.elementSize(element.VR, element.ValueLength)`
over all meta elements except the group length element itself. -/
def metaGroupLengthSize (es : List DataElement) : Nat :=
  es.foldl
    (fun acc e =>
      if e.tag = FileMetaInformationGroupLengthTag then acc
      else (acc + elementSize .explicitVRLittleEndian e.vr e.vlen) % 2 ^ 32)
    0

/-- `createMetaGroupLengthElement`: a UL element carrying the computed
size, of value length 4. -/
def createMetaGroupLengthElement (es : List DataElement) : DataElement :=
  .mk FileMetaInformationGroupLengthTag
    (some (dictionaryVR FileMetaInformationGroupLengthTag))
    (.u32s [metaGroupLengthSize es]) 4

/-- processing loop of `NewDataElementWriter` over the header elements
(each element is processed in explicit VR little endian and stored back
under its key). -/
def processHeaderElems : List DataElement → Option (List DataElement)
  | [] => some []
  | e :: rest =>
    match processElementForConstruct e .explicitVRLittleEndian with
    | none => none
    | some e₂ =>
      match processHeaderElems rest with
      | some rest₂ => some (e₂ :: rest₂)
      | none => none

/-- `NewDataElementWriter`: checks the header, resolves the transfer
syntax (rejecting the deflated one for writing), writes the 128-byte zero
preamble and "DICM", processes the meta elements, recomputes the
file-meta group length, and writes the meta elements sorted in explicit
VR little endian.  Returns the data-set transfer syntax for the body
writer and the emitted header bytes. -/
def newDataElementWriterBytes (header : DataSet) : Option (TransferStx × List Nat) :=
  if ¬ isMetaHeader header then none
  else
    match dataSetTransferStx header with
    | none => none
    | some stx =>
      if stx = .deflatedExplicitVRLittleEndian then none
      else
        match processHeaderElems header.elements with
        | none => none
        | some es₁ =>
          let glElem := createMetaGroupLengthElement es₁
          let es₂ := mapInsert es₁ glElem
          match writeElemsList .explicitVRLittleEndian (sortElements es₂) with
          | none => none
          | some metaB =>
            some (stx, List.replicate 128 0 ++ strBytes "DICM" ++ metaB)

/-- body loop of `Construct`: every non-meta element in ascending tag
order is processed (`processElementForConstruct`) and written. -/
def constructBody (stx : TransferStx) : List DataElement → Option (List Nat)
  | [] => some []
  | e :: rest =>
    if isMetaElement e.tag then constructBody stx rest
    else
      match processElementForConstruct e stx with
      | none => none
      | some e₂ =>
        match writeDataElement e₂ stx with
        | none => none
        | some b =>
          match constructBody stx rest with
          | some restB => some (b ++ restB)
          | none => none

/-- `Construct`: writes the meta header through `NewDataElementWriter`
and then every non-meta element through `WriteElement`. -/
def constructFile (ds : DataSet) : Option (List Nat) :=
  match newDataElementWriterBytes (metaElements ds) with
  | none => none
  | some (stx, headerB) =>
    match constructBody stx (sortElements ds.elements) with
    | none => none
    | some bodyB => some (headerB ++ bodyB)

/-! ## Iterator state machines (bulkdata.go / part_007, part_000, part_012)

The streaming iterators are state machines over the shared byte stream.
A suspended child iterator is represented by its `Close` effect on the
stream (draining the child advances the stream to the end of the child's
scope, parsing as needed; an error while draining is `none`). -/

/-- outcome of one `Next` step of an iterator. -/
inductive IterStep (σ : Type) (α : Type) where
  | next (a : α) (s : σ)
  | eofOK (s : σ)
  | errStep

/-- `oneShotIterator`: the bounded reader's remaining bytes, its starting
offset (`cr.bytesRead`), and the `empty` flag. -/
structure OneShotIterState where
  data : List Nat
  offset : Nat
  empty : Bool
deriving Repr, DecidableEq

/-- `oneShotIterator.Next`: the single reader on the first call, `io.EOF`
afterwards; the stream is not touched in the EOF case. -/
def oneShotNext (s : OneShotIterState) : IterStep OneShotIterState (List Nat × Nat) :=
  if s.empty then .eofOK s
  else .next (s.data, s.offset) { s with empty := true }

/-- `oneShotIterator.Close`: drains the remaining bytes and marks the
iterator empty. -/
def oneShotClose (s : OneShotIterState) : OneShotIterState :=
  { data := [], offset := s.offset + s.data.length, empty := true }

/-- the `Close` effect of a suspended child iterator on the stream. -/
def DrainFun : Type := List Nat → Option (List Nat)

/-- `undefinedLengthSequenceIterator`: shared reader, syntax, suspended
current item (as its drain effect) and the `empty` flag. -/
structure UndefSeqIterState where
  buf : List Nat
  stx : TransferStx
  cur : Option DrainFun
  empty : Bool

/-- drain of a bounded sequence item (`newDataElementIterator` over
`dr.Limit(itemLength)` closed by iterating to EOF): parses the bounded
region to EOF and advances past it. -/
def boundedItemDrain (itemLen : Nat) (stx : TransferStx) : DrainFun := fun buf =>
  match collectDataElementsF (buf.length + 2) stx (buf.take itemLen) [] with
  | some _ => some (buf.drop itemLen)
  | none => none

/-- drain of an undefined-length item (terminated by the item
delimitation item): parses elements from the shared reader to EOF. -/
def undefItemDrain (stx : TransferStx) : DrainFun := fun buf =>
  match collectDataElementsF (buf.length + 2) stx buf [] with
  | some (_, rest) => some rest
  | none => none

/-- `undefinedLengthSequenceIterator.Next`: returns `io.EOF` (without
touching the stream) once empty; otherwise closes the current item,
reads an item tag in the syntax's byte order, terminates on the sequence
delimitation item with a zero length field (any EOF from the reader and
any non-zero delimiter length are errors), or suspends a new item. -/
def undefSeqNext (s : UndefSeqIterState) : IterStep UndefSeqIterState Unit :=
  if s.empty then .eofOK s
  else
    match (match s.cur with | none => some s.buf | some drain => drain s.buf) with
    | none => .errStep
    | some buf₁ =>
      match readTagForElement s.stx.byteOrder buf₁ with
      | .eofR _ => .errStep
      | .errR => .errStep
      | .ok tag rest =>
        if tag = SequenceDelimitationItemTag then
          match readUInt32 s.stx.byteOrder rest with
          | .ok itemLength rest₂ =>
            if itemLength ≠ 0 then .errStep
            else .eofOK { s with buf := rest₂, cur := none, empty := true }
          | _ => .errStep
        else if tag ≠ ItemTag then .errStep
        else
          match readUInt32 s.stx.byteOrder rest with
          | .ok itemLen rest₂ =>
            if UndefinedLength ≤ itemLen then
              .next () { s with buf := rest₂, cur := some (undefItemDrain s.stx) }
            else
              .next () { s with buf := rest₂, cur := some (boundedItemDrain itemLen s.stx) }
          | _ => .errStep

/-- `explicitLengthSequenceIterator` (part_000): the bounded reader's
remaining bytes (`dr.Limit(length)`), the syntax, and the suspended
current item.  The iterator has no `empty` flag: exhaustion of the
bounded reader yields `io.EOF`. -/
structure ExplSeqIterState where
  buf : List Nat
  stx : TransferStx
  cur : Option DrainFun

/-- `explicitLengthSequenceIterator.Next`: closes the current item, reads
an item tag in the syntax's byte order (clean end of the bounded region
is `io.EOF`), rejects a sequence delimitation item, and suspends a new
item. -/
def explSeqNext (s : ExplSeqIterState) : IterStep ExplSeqIterState Unit :=
  match (match s.cur with | none => some s.buf | some drain => drain s.buf) with
  | none => .errStep
  | some buf₁ =>
    match readTagForElement s.stx.byteOrder buf₁ with
    | .eofR rest => .eofOK { s with buf := rest, cur := none }
    | .errR => .errStep
    | .ok tag rest =>
      if tag = SequenceDelimitationItemTag then .errStep
      else if tag ≠ ItemTag then .errStep
      else
        match readUInt32 s.stx.byteOrder rest with
        | .ok itemLen rest₂ =>
          if UndefinedLength ≤ itemLen then
            .next () { s with buf := rest₂, cur := some (undefItemDrain s.stx) }
          else
            .next () { s with buf := rest₂, cur := some (boundedItemDrain itemLen s.stx) }
        | _ => .errStep

/-- `dataElementIterator` (part_012, current version): stream, syntax,
the current element's close effect, the `empty` flag, the remaining
elements of the meta-header iterator, and the recorded length. -/
structure DEIterState where
  buf : List Nat
  stx : TransferStx
  curClose : Option DrainFun
  empty : Bool
  metaPending : List DataElement
  length : Nat

/-- `dataElementIterator.NextElement` combined with
`nextDataSetElement`: meta-header elements are yielded first; once the
iterator is empty, `io.EOF` is returned without touching the stream.
Otherwise the previous element is closed and `readDataElement` runs; the
bulk-data and sequence values stay streaming, so the element's close
effect records how to skip them. -/
def deIterNext (s : DEIterState) : IterStep DEIterState DataElement :=
  match s.metaPending with
  | m :: rest => .next m { s with metaPending := rest }
  | [] =>
    if s.empty then .eofOK s
    else
      match (match s.curClose with | none => some s.buf | some drain => drain s.buf) with
      | none => .errStep
      | some buf₁ =>
        match readTagForElement s.stx.byteOrder buf₁ with
        | .eofR rest => .eofOK { s with buf := rest, curClose := none, empty := true }
        | .errR => .errStep
        | .ok tag rest =>
          if tag = ItemDelimitationItemTag then
            match readUInt32 s.stx.byteOrder rest with
            | .ok len rest₂ =>
              if len ≠ 0 then .errStep
              else .eofOK { s with buf := rest₂, curClose := none, empty := true }
            | _ => .errStep
          else
            match
              (if s.stx.isImplicit then some (dictionaryVR tag, rest)
               else
                 match readBytes 2 rest with
                 | .ok vrBytes rest₂ =>
                   match lookupVRByName vrBytes with
                   | some vr => some (vr, rest₂)
                   | none => none
                 | _ => none) with
            | none => .errStep
            | some (vr, rest₂) =>
              match readValueLengthF s.stx vr rest₂ with
              | none => .errStep
              | some (length, rest₃) =>
                match vr.kind with
                | .textVR | .uniqueIdentifierVR | .numberBinaryVR | .tagVR =>
                  match readValueF (rest₃.length + 2) tag vr length s.stx rest₃ with
                  | none => .errStep
                  | some (value, rest₄) =>
                    .next (.mk tag (some vr) value length)
                      { s with buf := rest₄, curClose := none }
                | .bulkDataVR =>
                  if length = UndefinedLength then
                    if tag = PixelDataTag then
                      .next (.mk tag (some vr) (.encapIterVal rest₃ 0 false) length)
                        { s with
                          buf := rest₃,
                          curClose := some (fun b =>
                            (collectEncapFragments (b.length + 1) b).map Prod.snd) }
                    else .errStep
                  else
                    .next
                      (.mk tag (some vr)
                        (.oneShotIter (rest₃.take length) 0 (length : Int) false) length)
                      { s with
                        buf := rest₃,
                        curClose := some (fun b => some (b.drop length)) }
                | .sequenceVR =>
                  if length < UndefinedLength then
                    .next (.mk tag (some vr) (.seqVal []) length)
                      { s with
                        buf := rest₃,
                        curClose := some (fun b =>
                          match collectSeqItemsExplicitF (b.length + 2) s.stx (b.take length) with
                          | some _ => some (b.drop length)
                          | none => none) }
                  else
                    .next (.mk tag (some vr) (.seqVal []) length)
                      { s with
                        buf := rest₃,
                        curClose := some (fun b =>
                          (collectSeqItemsUndefF (b.length + 2) s.stx b).map Prod.snd) }

/-- `dataElementIterator.Close`: iterates `NextElement` until `io.EOF`
(`none` on error or fuel exhaustion). -/
def deIterClose (fuel : Nat) (s : DEIterState) : Option DEIterState :=
  match fuel with
  | 0 => none
  | fuel + 1 =>
    match deIterNext s with
    | .eofOK s₂ => some s₂
    | .errStep => none
    | .next _ s₂ => deIterClose fuel s₂

/-! ## Native multi-frame splitter and the split-frames option
(options.go) -/

/-- `nativeMultiFrame`: the underlying fragment's remaining bytes (from
the last frame boundary), its offset, the frame length, the number of
frames, the frames read so far, and whether a returned frame is still
open. -/
structure NativeMultiFrameState where
  fragData : List Nat
  offset : Nat
  frameLength : Nat
  numberOfFrames : Int
  framesRead : Int
  curOpen : Bool
deriving Repr, DecidableEq

/-- one `Next` of a `BulkDataIterator` value, as consumed by
`newNativeMultiFrame`: a reader (bytes, offset, and whether a further
`Next` drains it because it shares the stream) or `io.EOF`, with the
iterator's successor state; `none` is an error. -/
def bulkIterNextF (v : Value) : Option (Option (List Nat × Nat × Bool) × Value) :=
  match v with
  | .oneShotIter data off len empty =>
    if empty then some (none, v)
    else some (some (data, off, false), .oneShotIter data off len true)
  | .encapIterVal data off empty =>
    if empty then some (none, v)
    else
      match readTagForElement .littleEndian data with
      | .ok tag rest =>
        if tag = SequenceDelimitationItemTag then
          match readUInt32 .littleEndian rest with
          | .ok _ rest₂ => some (none, .encapIterVal rest₂ (off + 8) true)
          | _ => none
        else if tag ≠ ItemTag then none
        else
          match readUInt32 .littleEndian rest with
          | .ok len rest₂ =>
            if UndefinedLength ≤ len then none
            else
              some (some (rest₂.take len, off + 8, true),
                .encapIterVal (rest₂.drop len) (off + 8 + len) false)
          | _ => none
      | _ => none
  | _ => none

/-- `encapsulatedFormatIterator.Close` (and `oneShotIterator.Close` seen
through the same interface): drives `Next` to `io.EOF`, draining every
remaining fragment (`none` on error or fuel exhaustion). -/
def encapIterClose (fuel : Nat) (v : Value) : Option Value :=
  match fuel with
  | 0 => none
  | fuel + 1 =>
    match bulkIterNextF v with
    | none => none
    | some (none, v₂) => some v₂
    | some (some _, v₂) => encapIterClose fuel v₂

/-- `newNativeMultiFrame`: fails when `frameLength ≤ 0`, when the first
`Next` fails (including immediate EOF), or when a second reader exists
(more than one native fragment).  A reader that shares the stream is
drained by the verification `Next`, as in the Go code. -/
def newNativeMultiFrame (iter : Value) (frameLength numberOfFrames : Int) :
    Option NativeMultiFrameState :=
  if frameLength ≤ 0 then none
  else
    match bulkIterNextF iter with
    | none => none
    | some (none, _) => none
    | some (some (r, roff, shares), iter₂) =>
      match bulkIterNextF iter₂ with
      | none => none
      | some (some _, _) => none
      | some (none, _) =>
        some { fragData := if shares then [] else r, offset := roff,
               frameLength := frameLength.toNat, numberOfFrames := numberOfFrames,
               framesRead := 0, curOpen := false }

/-- `nativeMultiFrame.Next`: after the declared number of frames the
trailing bytes are discarded and `io.EOF` is returned; otherwise the
previous frame is drained to its boundary and a reader of the next
`frameLength` bytes is returned with its computed offset. -/
def nativeMultiFrameNext (s : NativeMultiFrameState) :
    IterStep NativeMultiFrameState (List Nat × Nat) :=
  if s.numberOfFrames ≤ s.framesRead then
    .eofOK { s with fragData := [], curOpen := false }
  else
    let buf := if s.curOpen then s.fragData.drop s.frameLength else s.fragData
    .next (buf.take s.frameLength, s.offset + s.framesRead.toNat * s.frameLength)
      { s with fragData := buf, curOpen := true, framesRead := s.framesRead + 1 }

/-- the image-pixel-module metadata remembered by
`SplitUncompressedPixelDataFrames` (zero-initialized map). -/
structure PixelMetadata where
  rows : Int := 0
  cols : Int := 0
  samples : Int := 0
  bits : Int := 0
  frames : Int := 0
deriving Repr, DecidableEq

/-- result of `toMultiFrame`: an error, a dropped element (`nil, nil`),
an element passed through unchanged, or the wrapped multi-frame
iterator. -/
inductive MultiFrameRes where
  | errMF
  | dropped
  | unchanged (e : DataElement)
  | multi (e : DataElement) (s : NativeMultiFrameState)

/-- `toMultiFrame`: encapsulated (compressed) images pass through; a
`BitsAllocated` that is not a multiple of 8 or a non-positive computed
frame length drops the element; a streaming value is wrapped in the
native multi-frame splitter (Go `int64` truncated division and
remainder). -/
def toMultiFrame (e : DataElement) (md : PixelMetadata) : MultiFrameRes :=
  match e.value with
  | .encapIterVal _ _ _ => .unchanged e
  | v =>
    if Int.tmod md.bits 8 ≠ 0 then .dropped
    else
      let frameLength := Int.tdiv (md.rows * md.cols * md.samples * md.bits) 8
      if frameLength ≤ 0 then .dropped
      else
        let numberOfFrames := if md.frames ≤ 0 then 1 else md.frames
        match v with
        | .oneShotIter _ _ _ _ =>
          match newNativeMultiFrame v frameLength numberOfFrames with
          | none => .errMF
          | some s => .multi e s
        | _ => .unchanged e

/-- metadata update step of the `SplitUncompressedPixelDataFrames`
transform: image-pixel-module elements record their integer value
(failure to convert is an error). -/
def updatePixelMetadata (md : PixelMetadata) (e : DataElement) : Option PixelMetadata :=
  if e.tag = 0x00280010 then (intValue e).map fun v => { md with rows := v }
  else if e.tag = 0x00280011 then (intValue e).map fun v => { md with cols := v }
  else if e.tag = 0x00280002 then (intValue e).map fun v => { md with samples := v }
  else if e.tag = 0x00280100 then (intValue e).map fun v => { md with bits := v }
  else if e.tag = 0x00280008 then (intValue e).map fun v => { md with frames := v }
  else some md

/-- one application of the `SplitUncompressedPixelDataFrames` transform:
update the remembered metadata, then wrap pixel-data elements. -/
def splitFramesTransform (md : PixelMetadata) (e : DataElement) :
    Option (PixelMetadata × MultiFrameRes) :=
  match updatePixelMetadata md e with
  | none => none
  | some md₁ =>
    if e.tag = PixelDataTag then some (md₁, toMultiFrame e md₁)
    else some (md₁, .unchanged e)

/-! ## Character-set decoding (options.go `UTF8TextOption`,
charactersets.go `encodingSystem`)

The character-set decoders themselves come from the external
`golang.org/x/net/html/charset` lookup; the specification treats them as
an external collaborator (`encoding_lookup(term) → decoder`).  A decoder
is therefore abstract here: its `String` method (which can fail), its
streaming `Reader` (failures surface only when the stream is consumed),
and its canonical name. -/

/-- an external `*namedEncoding`: `decoder.String`, `decoder.Reader` and
the canonical name used for the euc-kr special case. -/
structure NamedDecoder where
  decodeStr : List Nat → Option (List Nat)
  decodeStream : List Nat → List Nat
  canonicalName : List Nat

/-- `strings.Split(s, "=")` on the equals byte 0x3D. -/
def splitOnEquals (s : List Nat) : List (List Nat) :=
  go s [] where
  go : List Nat → List Nat → List (List Nat)
    | [], acc => [acc.reverse]
    | b :: rest, acc =>
      if b = 0x3D then acc.reverse :: go rest [] else go rest (b :: acc)

/-- `strings.Join(ss, "=")`. -/
def joinEquals : List (List Nat) → List Nat
  | [] => []
  | [s] => s
  | s :: rest => s ++ 0x3D :: joinEquals rest

/-- `strings.Replace(s, "\x1B\x24\x29\x43", "", -1)`: removes every
occurrence of the ISO 2022 escape to the GR half of KS X 1001. -/
def stripKSX1001Escape : List Nat → List Nat
  | 0x1B :: 0x24 :: 0x29 :: 0x43 :: rest => stripKSX1001Escape rest
  | b :: rest => b :: stripKSX1001Escape rest
  | [] => []

/-- `decodeString` from charactersets.go: decoder failures fall back to
the undecoded bytes; euc-kr output has the ISO 2022 escape sequence
removed. -/
def decodeStringM (coding : NamedDecoder) (s : List Nat) : List Nat :=
  match coding.decodeStr s with
  | none => s
  | some decoded =>
    if coding.canonicalName = strBytes "euc-kr" then stripKSX1001Escape decoded
    else decoded

/-- the VRs whose character repertoire can be replaced
(`replaceableCharacterRepertoires` in `toUTF8`); a nil VR is not in the
map. -/
def replaceableRepertoire (vr : Option VRName) : Bool :=
  match vr with
  | some .SH | some .LO | some .ST | some .LT | some .PN | some .UC | some .UT => true
  | _ => false

/-- `toUTF8` from options.go: non-replaceable VRs pass through; buffered
strings are decoded one by one with the single decoder (failures keep
the string); a streamed text value must have exactly one fragment, which
is wrapped in a decoding reader. -/
def toUTF8 (coding : NamedDecoder) (e : DataElement) : Option DataElement :=
  if ¬ replaceableRepertoire e.vr then some e
  else
    match e.value with
    | .strs ss =>
      some (.mk e.tag e.vr (.strs (ss.map fun s => (coding.decodeStr s).getD s)) e.vlen)
    | .oneShotIter _ _ _ _ | .encapIterVal _ _ _ =>
      match bulkIterNextF e.value with
      | none => none
      | some (none, _) => none
      | some (some (data, off, _), it₂) =>
        match bulkIterNextF it₂ with
        | some (none, _) =>
          some (.mk e.tag e.vr (.oneShotIter (coding.decodeStream data) off (-1) false) e.vlen)
        | some (some _, _) => none
        | none => none
    | _ => some e

/-- `findEncodingFromElement` from options.go: an empty character-set
value keeps the default repertoire; otherwise only the first value is
resolved through the external lookup. -/
def findEncodingFromElement (lookup : List Nat → Option NamedDecoder)
    (dflt : NamedDecoder) (e : DataElement) : Option NamedDecoder :=
  match e.value with
  | .strs [] => some dflt
  | .strs (s :: _) => lookup s
  | _ => none

/-- one application of the `UTF8TextOption` transform from options.go:
a specific-character-set element replaces the remembered decoder (a
single decoder, resolved from the first defined term only), then
`toUTF8` runs with the remembered decoder. -/
def utf8TextTransform (lookup : List Nat → Option NamedDecoder) (dflt : NamedDecoder)
    (cur : NamedDecoder) (e : DataElement) : Option (NamedDecoder × DataElement) :=
  match
    (if e.tag = SpecificCharacterSetTag then findEncodingFromElement lookup dflt e
     else some cur) with
  | none => none
  | some cur₂ =>
    match toUTF8 cur₂ e with
    | none => none
    | some e₂ => some (cur₂, e₂)

/-- `newEncodingSystem` from charactersets.go: resolves each listed term
through the external lookup (terms beyond the third are still resolved
before the loop breaks), then pads the (alphabetic, ideographic,
phonetic) triple by repeating the last given decoder; a non-string value
field keeps the default system. -/
def newEncodingSystem (lookup : List Nat → Option NamedDecoder) (dflt : NamedDecoder)
    (e : DataElement) : Option (NamedDecoder × NamedDecoder × NamedDecoder) :=
  if e.tag ≠ SpecificCharacterSetTag then none
  else
    match e.value with
    | .strs terms =>
      match (terms.take 4).mapM lookup with
      | none => none
      | some resolved =>
        let get := fun (i : Nat) => (resolved.get? i).getD dflt
        if terms.length = 1 then some (get 0, get 0, get 0)
        else if terms.length = 2 then some (get 0, get 1, get 1)
        else if terms.length = 0 then some (dflt, dflt, dflt)
        else some (get 0, get 1, get 2)
    | _ => some (dflt, dflt, dflt)

/-- `encodingSystem.decode` from charactersets.go: a PN value is split on
"=" into up to three component groups, each decoded by the decoder at
its position, and rejoined as a single value; the other replaceable text
VRs use the alphabetic decoder; everything else passes through. -/
def encodingSystemDecode (encs : NamedDecoder × NamedDecoder × NamedDecoder)
    (e : DataElement) : Option DataElement :=
  match e.vr with
  | some .PN =>
    match e.value with
    | .strs [] => some e
    | .strs (pn :: _) =>
      let comps := splitOnEquals pn
      let decoded := (comps.zip (List.range comps.length)).map fun (group, i) =>
        if i < 3 then
          decodeStringM (if i = 0 then encs.1 else if i = 1 then encs.2.1 else encs.2.2) group
        else group
      some (.mk e.tag e.vr (.strs [joinEquals decoded]) e.vlen)
    | _ => none
  | some .SH | some .LO | some .ST | some .LT | some .UC | some .UT =>
    match e.value with
    | .strs ss =>
      some (.mk e.tag e.vr (.strs (ss.map (decodeStringM encs.1))) e.vlen)
    | .oneShotIter _ _ _ _ | .encapIterVal _ _ _ =>
      match bulkIterNextF e.value with
      | none => none
      | some (none, _) => none
      | some (some (data, off, _), it₂) =>
        match bulkIterNextF it₂ with
        | some (none, _) =>
          some (.mk e.tag e.vr (.oneShotIter (encs.1.decodeStream data) off (-1) false) e.vlen)
        | some (some _, _) => none
        | none => none
    | _ => some e
  | _ => some e

/-- `readBulkData` from part_013 as a standalone function on the stream:
an encapsulated-format iterator for undefined-length pixel data, an
error for undefined length on any other tag, and a one-shot iterator
over a bounded sub-reader otherwise (`NewBulkDataIterator` leaves the
explicit length unset, i.e. -1). -/
def readBulkData (bs : List Nat) (offset : Nat) (tag : Nat) (length : Nat) : Option Value :=
  if length = UndefinedLength then
    if tag = PixelDataTag then some (.encapIterVal bs offset false)
    else none
  else some (.oneShotIter (bs.take length) offset (-1) false)

/-- the byte count of a fully buffered flat (non-sequence,
non-streaming) value field: summed string bytes with separators,
fixed-width numeric sizes, or the total of buffered byte fragments. -/
def flatValueBytes : Value → Option Nat
  | .strs ss => some (strsNumBytes ss)
  | .i16s xs => some (xs.length * 2)
  | .u16s xs => some (xs.length * 2)
  | .i32s xs => some (xs.length * 4)
  | .u32s xs => some (xs.length * 4)
  | .f32s xs => some (xs.length * 4)
  | .f64s xs => some (xs.length * 8)
  | .bytesBuf frags => some (fragsTotal frags)
  | _ => none

mutual

/-- a fully buffered value field: no still-open bulk-data iterator and no
bulk-data references, recursively through sequence items. -/
def valueBuffered : Value → Bool
  | .strs _ => true
  | .i16s _ => true
  | .u16s _ => true
  | .i32s _ => true
  | .u32s _ => true
  | .f32s _ => true
  | .f64s _ => true
  | .bytesBuf _ => true
  | .encapBuf _ => true
  | .refs _ => false
  | .oneShotIter _ _ _ _ => false
  | .encapIterVal _ _ _ => false
  | .seqVal items => itemsBuffered items

/-- every item of a sequence is fully buffered. -/
def itemsBuffered : List DataSet → Bool
  | [] => true
  | ds :: rest => dsBuffered ds && itemsBuffered rest

/-- every element of a data set is fully buffered. -/
def dsBuffered : DataSet → Bool
  | .mk es _ => elemsBuffered es

/-- every element of a list is fully buffered. -/
def elemsBuffered : List DataElement → Bool
  | [] => true
  | e :: rest => elemBuffered e && elemsBuffered rest

/-- a fully buffered data element. -/
def elemBuffered : DataElement → Bool
  | .mk _ _ v _ => valueBuffered v

end

/-! ## Byte-level inversion lemmas -/

/-- all entries of a stream are byte values. -/
def allBytes (bs : List Nat) : Prop := ∀ b ∈ bs, b < 256

theorem readUInt16_putUInt16 (order : ByteOrder) (v : Nat) (rest : List Nat) :
    readUInt16 order (putUInt16 order v ++ rest) = .ok (v % 65536) rest := by
  cases order <;>
    simp [putUInt16, readUInt16] <;> omega

theorem readUInt32_putUInt32 (order : ByteOrder) (v : Nat) (rest : List Nat) :
    readUInt32 order (putUInt32 order v ++ rest) = .ok (v % 4294967296) rest := by
  cases order <;>
    simp [putUInt32, readUInt32] <;> omega

theorem readUInt16_ok_inv (order : ByteOrder) (bs rest : List Nat) (v : Nat)
    (h : readUInt16 order bs = .ok v rest) (hb : allBytes bs) :
    bs = putUInt16 order v ++ rest ∧ v < 65536 := by
  match bs with
  | [] => simp [readUInt16] at h
  | [_] => simp [readUInt16] at h
  | b0 :: b1 :: tl =>
    have h0 : b0 < 256 := hb b0 (by simp)
    have h1 : b1 < 256 := hb b1 (by simp)
    cases order <;> simp [readUInt16] at h <;>
      (obtain ⟨hv, ht⟩ := h; subst ht; simp [putUInt16]; omega)

theorem readUInt32_ok_inv (order : ByteOrder) (bs rest : List Nat) (v : Nat)
    (h : readUInt32 order bs = .ok v rest) (hb : allBytes bs) :
    bs = putUInt32 order v ++ rest ∧ v < 4294967296 := by
  match bs with
  | [] => simp [readUInt32] at h
  | [_] => simp [readUInt32] at h
  | [_, _] => simp [readUInt32] at h
  | [_, _, _] => simp [readUInt32] at h
  | b0 :: b1 :: b2 :: b3 :: tl =>
    have h0 : b0 < 256 := hb b0 (by simp)
    have h1 : b1 < 256 := hb b1 (by simp)
    have h2 : b2 < 256 := hb b2 (by simp)
    have h3 : b3 < 256 := hb b3 (by simp)
    cases order <;> simp [readUInt32] at h <;>
      (obtain ⟨hv, ht⟩ := h; subst ht; simp [putUInt32]; omega)

theorem readTagBytes_putTag (order : ByteOrder) (tag : Nat) (rest : List Nat)
    (h : tag < 4294967296) :
    readTagBytes order (putTag order tag ++ rest) = .ok tag rest := by
  have hg : groupNumber tag < 65536 := by
    simp [groupNumber]; omega
  have he : elementNumber tag < 65536 := by
    simp [elementNumber]; omega
  simp only [putTag, List.append_assoc, readTagBytes, readUInt16_putUInt16]
  have h2 : groupNumber tag % 65536 = groupNumber tag := Nat.mod_eq_of_lt hg
  have h3 : elementNumber tag % 65536 = elementNumber tag := Nat.mod_eq_of_lt he
  simp [h2, h3, groupNumber, elementNumber]
  omega

theorem readTagForElement_putTag (order : ByteOrder) (tag : Nat) (rest : List Nat)
    (h : tag < 4294967296) :
    readTagForElement order (putTag order tag ++ rest) = .ok tag rest := by
  have hg : groupNumber tag < 65536 := by
    simp [groupNumber]; omega
  have he : elementNumber tag < 65536 := by
    simp [elementNumber]; omega
  simp only [putTag, List.append_assoc, readTagForElement, readUInt16_putUInt16]
  have h2 : groupNumber tag % 65536 = groupNumber tag := Nat.mod_eq_of_lt hg
  have h3 : elementNumber tag % 65536 = elementNumber tag := Nat.mod_eq_of_lt he
  simp [h2, h3, groupNumber, elementNumber]
  omega

theorem readTagForElement_ok_inv (order : ByteOrder) (bs rest : List Nat) (tag : Nat)
    (h : readTagForElement order bs = .ok tag rest) (hb : allBytes bs) :
    bs = putTag order tag ++ rest ∧ tag < 4294967296 := by
  simp only [readTagForElement] at h
  match hg : readUInt16 order bs with
  | .eof => rw [hg] at h; cases h
  | .err => rw [hg] at h; cases h
  | .ok g rest₁ =>
    rw [hg] at h
    dsimp only at h
    match he : readUInt16 order rest₁ with
    | .eof => rw [he] at h; cases h
    | .err => rw [he] at h; cases h
    | .ok e rest₂ =>
      rw [he] at h
      dsimp only at h
      cases h
      obtain ⟨hbs, hglt⟩ := readUInt16_ok_inv order bs rest₁ g hg hb
      have hb₁ : allBytes rest₁ := by
        intro b hbmem
        exact hb b (by rw [hbs]; simp [hbmem])
      obtain ⟨hbs₁, helt⟩ := readUInt16_ok_inv order rest₁ rest e he hb₁
      constructor
      · rw [hbs, hbs₁, putTag]
        have : groupNumber (g * 65536 + e) = g := by
          simp [groupNumber]; omega
        have h2 : elementNumber (g * 65536 + e) = e := by
          simp [elementNumber]; omega
        rw [this, h2]
        simp
      · omega

/-! ## Claim C6 -/

/-- C6: when the element parser reads a bulk-data VR element whose value
length is the sentinel 0xFFFFFFFF, it returns an encapsulated fragment
iterator if and only if the element's tag is pixel data (0x7FE0,0x0010);
for any other tag with undefined length and a bulk-data VR it returns an
error and no value. -/
theorem claim_C6_undefined_bulk_pixel_only :
    (∀ (bs : List Nat) (offset tag : Nat),
      readBulkData bs offset tag UndefinedLength =
        if tag = PixelDataTag then some (.encapIterVal bs offset false) else none) ∧
    (∀ (fuel tag : Nat) (vr : VRName) (stx : TransferStx) (bs : List Nat),
      vr.kind = .bulkDataVR → tag ≠ PixelDataTag →
      readValueF (fuel + 1) tag vr UndefinedLength stx bs = none) := by
  constructor
  · intro bs offset tag
    simp [readBulkData]
  · intro fuel tag vr stx bs hk htag
    simp only [readValueF, hk]
    simp [htag]

/-- witness for C6 at concrete inputs. -/
theorem claim_C6_witness :
    readBulkData [1, 2] 0 PixelDataTag UndefinedLength =
      some (.encapIterVal [1, 2] 0 false) ∧
    readValueF 3 0x00100010 .OB UndefinedLength .explicitVRLittleEndian [] = none := by
  constructor
  · rw [claim_C6_undefined_bulk_pixel_only.1 [1, 2] 0 PixelDataTag]
    rfl
  · exact claim_C6_undefined_bulk_pixel_only.2 2 0x00100010 .OB .explicitVRLittleEndian []
      rfl (by decide)

/-! ## Claim C7 -/

/-- C7: for a sequence parsed in undefined-length mode, `Next` terminates
normally (returning io.EOF with the iterator marked empty so the stream
is not advanced further) only after reading a sequence-delimitation tag
whose 32-bit length field is zero; end of input from the underlying
reader before a sequence-delimitation tag is an error rather than
io.EOF, and a nonzero delimiter length is also an error.  Stated over
`undefSeqNext` with no suspended item: (1) the delimiter with a zero
length terminates, marking the iterator empty, and a further `Next`
returns io.EOF on the unchanged state; (2) end of input is an error;
(3) a nonzero delimiter length is an error; (4) conversely, a normal
termination from a non-empty state can only happen on a stream that
starts with the delimiter tag and a zero length field. -/
theorem claim_C7_undefined_sequence_termination :
    (∀ (stx : TransferStx) (rest : List Nat),
      undefSeqNext ⟨putTag stx.byteOrder SequenceDelimitationItemTag ++
          (putUInt32 stx.byteOrder 0 ++ rest), stx, none, false⟩ =
        .eofOK ⟨rest, stx, none, true⟩ ∧
      undefSeqNext ⟨rest, stx, none, true⟩ = .eofOK ⟨rest, stx, none, true⟩) ∧
    (∀ stx : TransferStx, undefSeqNext ⟨[], stx, none, false⟩ = .errStep) ∧
    (∀ (stx : TransferStx) (n : Nat) (rest : List Nat), n ≠ 0 → n < 4294967296 →
      undefSeqNext ⟨putTag stx.byteOrder SequenceDelimitationItemTag ++
          (putUInt32 stx.byteOrder n ++ rest), stx, none, false⟩ = .errStep) ∧
    (∀ (s s' : UndefSeqIterState), s.empty = false → s.cur = none → allBytes s.buf →
      undefSeqNext s = .eofOK s' →
      s.buf = putTag s.stx.byteOrder SequenceDelimitationItemTag ++
        putUInt32 s.stx.byteOrder 0 ++ s'.buf ∧ s'.empty = true) := by
  refine ⟨?_, ?_, ?_, ?_⟩
  · intro stx rest
    constructor
    · simp only [undefSeqNext]
      rw [readTagForElement_putTag stx.byteOrder SequenceDelimitationItemTag _ (by decide)]
      simp [readUInt32_putUInt32]
    · simp [undefSeqNext]
  · intro stx
    simp [undefSeqNext, readTagForElement, readUInt16]
  · intro stx n rest hn hlt
    simp only [undefSeqNext]
    rw [readTagForElement_putTag stx.byteOrder SequenceDelimitationItemTag _ (by decide)]
    dsimp only
    rw [if_pos rfl, readUInt32_putUInt32]
    dsimp only
    rw [Nat.mod_eq_of_lt hlt]
    simp [hn]
  · intro s s' hempty hcur hbytes h
    simp only [undefSeqNext, hempty, hcur] at h
    simp only [Bool.false_eq_true, if_false] at h
    match htag : readTagForElement s.stx.byteOrder s.buf with
    | .eofR r => rw [htag] at h; cases h
    | .errR => rw [htag] at h; cases h
    | .ok tag rest =>
      rw [htag] at h
      dsimp only at h
      by_cases hsd : tag = SequenceDelimitationItemTag
      · rw [if_pos hsd] at h
        match hlen : readUInt32 s.stx.byteOrder rest with
        | .eof => rw [hlen] at h; cases h
        | .err => rw [hlen] at h; cases h
        | .ok n rest₂ =>
          rw [hlen] at h
          dsimp only at h
          by_cases hn : n = 0
          · rw [if_neg (by simp [hn])] at h
            cases h
            obtain ⟨hbuf, hlt⟩ := readTagForElement_ok_inv _ _ _ _ htag hbytes
            have hbrest : allBytes rest := by
              intro b hbm
              exact hbytes b (by rw [hbuf]; simp [hbm])
            obtain ⟨hrest, _⟩ := readUInt32_ok_inv _ _ _ _ hlen hbrest
            subst hsd hn
            constructor
            · rw [hbuf, hrest]
              simp [List.append_assoc]
            · rfl
          · rw [if_pos (by simp [hn])] at h
            cases h
      · rw [if_neg hsd] at h
        by_cases hit : tag = ItemTag
        · simp only [hit] at h
          simp only [if_neg (by decide : ¬ (ItemTag ≠ ItemTag))] at h
          match hlen : readUInt32 s.stx.byteOrder rest with
          | .eof => rw [hlen] at h; cases h
          | .err => rw [hlen] at h; cases h
          | .ok n rest₂ =>
            rw [hlen] at h
            dsimp only at h
            split at h <;> cases h
        · rw [if_pos hit] at h
          cases h

/-- witness for C7 at concrete inputs. -/
theorem claim_C7_witness :
    undefSeqNext ⟨[0xFE, 0xFF, 0xDD, 0xE0, 0, 0, 0, 0, 9, 9],
        .explicitVRLittleEndian, none, false⟩ =
      .eofOK ⟨[9, 9], .explicitVRLittleEndian, none, true⟩ ∧
    undefSeqNext ⟨[0xFE, 0xFF, 0xDD, 0xE0, 1, 0, 0, 0], .explicitVRLittleEndian,
        none, false⟩ = .errStep := by
  constructor
  · exact ((claim_C7_undefined_sequence_termination.1 .explicitVRLittleEndian [9, 9]).1)
  · exact claim_C7_undefined_sequence_termination.2.2.1 .explicitVRLittleEndian 1 []
      (by decide) (by decide)

/-- C2 is refuted on the write side: for the explicit-VR big-endian
syntax, the sequence writer emits the sequence delimitation tag in
big-endian byte order, not in the little-endian encoding the claim
demands. -/
theorem claim_C2_counterexample :
    writeValue .explicitVRBigEndian (some .SQ) (.seqVal []) UndefinedLength =
      some [0xFF, 0xFE, 0xE0, 0xDD, 0, 0, 0, 0] ∧
    putTag .littleEndian SequenceDelimitationItemTag ++ putUInt32 .littleEndian 0 =
      [0xFE, 0xFF, 0xDD, 0xE0, 0, 0, 0, 0] ∧
    ([0xFF, 0xFE, 0xE0, 0xDD, 0, 0, 0, 0] : List Nat) ≠
      [0xFE, 0xFF, 0xDD, 0xE0, 0, 0, 0, 0] := by
  refine ⟨?_, by decide, by decide⟩
  simp [writeValue, writeItems, putDelimiter, putTag, putUInt16, putUInt32, groupNumber,
    elementNumber, TransferStx.byteOrder, UndefinedLength, SequenceDelimitationItemTag,
    VRName.kind]

/-- C2 amended: item tags and delimiters are written and read in the
transfer syntax's byte order, by the sequence writer (delimiters and
item headers), the encapsulated writer, and the undefined-length
sequence iterator (which under the big-endian syntax accepts the
big-endian-encoded delimiter and rejects the little-endian encoding);
only the encapsulated-fragment read iterator is hard-coded to
little-endian. -/
theorem claim_C2_delimiters_syntax_order :
    (∀ stx : TransferStx,
      writeValue stx (some .SQ) (.seqVal []) UndefinedLength =
        some (putDelimiter stx.byteOrder SequenceDelimitationItemTag)) ∧
    (∀ stx : TransferStx,
      writeItems stx [DataSet.mk [] UndefinedLength] =
        some (putTag stx.byteOrder ItemTag ++
          (putUInt32 stx.byteOrder UndefinedLength ++
            putDelimiter stx.byteOrder ItemDelimitationItemTag))) ∧
    (∀ (stx : TransferStx) (frags : List (List Nat)),
      writeBulkData stx (.encapBuf frags) =
        some (writeEncapsulatedFormat stx.byteOrder (frags.map padOddFrag))) ∧
    undefSeqNext ⟨[0xFF, 0xFE, 0xE0, 0xDD, 0, 0, 0, 0, 9], .explicitVRBigEndian, none, false⟩ =
      .eofOK ⟨[9], .explicitVRBigEndian, none, true⟩ ∧
    undefSeqNext ⟨[0xFE, 0xFF, 0xDD, 0xE0, 0, 0, 0, 0], .explicitVRBigEndian, none, false⟩ =
      .errStep ∧
    (∀ (n : Nat) (rest : List Nat),
      collectEncapFragments (n + 1)
          (putTag .littleEndian SequenceDelimitationItemTag ++
            (putUInt32 .littleEndian 0 ++ rest)) =
        some ([], rest)) := by
  refine ⟨?_, ?_, ?_, rfl, rfl, ?_⟩
  · intro stx
    cases stx <;>
      simp [writeValue, writeItems, putDelimiter, VRName.kind, UndefinedLength,
        TransferStx.byteOrder]
  · intro stx
    cases stx <;>
      simp [writeItems, writeDataSetBytes, writeElemsList, sortElements, putDelimiter,
        UndefinedLength, TransferStx.byteOrder, DataSet.elements, DataSet.len]
  · intro stx frags
    rfl
  · intro n rest
    simp only [collectEncapFragments]
    rw [readTagBytes_putTag .littleEndian SequenceDelimitationItemTag _ (by decide)]
    dsimp only
    rw [if_pos rfl, readUInt32_putUInt32]

/-- once `dataElementIterator.NextElement` has returned `io.EOF`, the
iterator is empty with no pending meta elements, and every further call
returns `io.EOF` on the unchanged state. -/
theorem deIterNext_eofOK_inv (s s' : DEIterState) (h : deIterNext s = .eofOK s') :
    s'.empty = true ∧ s'.metaPending = [] ∧ deIterNext s' = .eofOK s' := by
  match hm : s.metaPending with
  | m :: r =>
    simp only [deIterNext, hm] at h
    cases h
  | [] =>
    simp only [deIterNext, hm] at h
    by_cases he : s.empty = true
    · rw [if_pos he] at h
      cases h
      exact ⟨he, hm, by simp [deIterNext, hm, he]⟩
    · rw [if_neg he] at h
      repeat' (split at h <;> try cases h)
      all_goals refine ⟨rfl, rfl, ?_⟩
      all_goals simp [deIterNext]

/-- `readUInt16` reports a clean end of input only on an empty stream. -/
theorem readUInt16_eof (order : ByteOrder) (bs : List Nat)
    (h : readUInt16 order bs = .eof) : bs = [] := by
  match bs with
  | [] => rfl
  | [_] => simp [readUInt16] at h
  | _ :: _ :: _ => cases order <;> simp [readUInt16] at h

/-- a clean `io.EOF` from `dcmReader.Tag` leaves nothing in the stream:
either no tag byte was available, or the two stray bytes of a half tag
were consumed. -/
theorem readTagForElement_eofR (order : ByteOrder) (bs rest : List Nat)
    (h : readTagForElement order bs = .eofR rest) : rest = [] := by
  simp only [readTagForElement] at h
  match hg : readUInt16 order bs with
  | .eof =>
    rw [hg] at h
    cases h
    exact readUInt16_eof order bs hg
  | .err => rw [hg] at h; cases h
  | .ok g r1 =>
    rw [hg] at h
    dsimp only at h
    match he : readUInt16 order r1 with
    | .eof =>
      rw [he] at h
      cases h
      exact readUInt16_eof order rest he
    | .err => rw [he] at h; cases h
    | .ok e r2 => rw [he] at h; cases h

/-- once a bulk-data iterator's `Next` has returned `io.EOF`, every
further `Next` returns `io.EOF` on the unchanged value. -/
theorem bulkIterNextF_eof_inv (v v' : Value) (h : bulkIterNextF v = some (none, v')) :
    bulkIterNextF v' = some (none, v') := by
  cases v <;> simp only [bulkIterNextF] at h
  all_goals try cases h
  case oneShotIter d o len em =>
    by_cases hem : em = true
    · rw [if_pos hem] at h
      cases h
      simp [bulkIterNextF, hem]
    · rw [if_neg hem] at h
      simp at h
  case encapIterVal d o em =>
    by_cases hem : em = true
    · rw [if_pos hem] at h
      cases h
      simp [bulkIterNextF, hem]
    · rw [if_neg hem] at h
      match ht : readTagForElement .littleEndian d with
      | .eofR r => rw [ht] at h; cases h
      | .errR => rw [ht] at h; cases h
      | .ok tag rest =>
        rw [ht] at h
        dsimp only at h
        by_cases hsd : tag = SequenceDelimitationItemTag
        · rw [if_pos hsd] at h
          match hl : readUInt32 .littleEndian rest with
          | .eof => rw [hl] at h; cases h
          | .err => rw [hl] at h; cases h
          | .ok len rest₂ =>
            rw [hl] at h
            dsimp only at h
            cases h
            simp [bulkIterNextF]
        · rw [if_neg hsd] at h
          by_cases hit : tag ≠ ItemTag
          · rw [if_pos hit] at h
            cases h
          · rw [if_neg hit] at h
            match hl : readUInt32 .littleEndian rest with
            | .eof => rw [hl] at h; cases h
            | .err => rw [hl] at h; cases h
            | .ok len rest₂ =>
              rw [hl] at h
              dsimp only at h
              split at h <;> simp at h

/-- once the explicit-length sequence iterator's `Next` has returned
`io.EOF`, the bounded region is exhausted and every further `Next`
returns `io.EOF` on the unchanged state. -/
theorem explSeqNext_eofOK_inv (s s' : ExplSeqIterState) (h : explSeqNext s = .eofOK s') :
    s'.buf = [] ∧ s'.cur = none ∧ explSeqNext s' = .eofOK s' := by
  simp only [explSeqNext] at h
  match hd : (match s.cur with | none => some s.buf | some drain => drain s.buf) with
  | none => rw [hd] at h; cases h
  | some buf₁ =>
    rw [hd] at h
    dsimp only at h
    match ht : readTagForElement s.stx.byteOrder buf₁ with
    | .eofR rest =>
      rw [ht] at h
      cases h
      have hrest : rest = [] := readTagForElement_eofR _ _ _ ht
      refine ⟨hrest, rfl, ?_⟩
      rw [hrest]
      simp [explSeqNext, readTagForElement, readUInt16]
    | .errR => rw [ht] at h; cases h
    | .ok tag rest =>
      rw [ht] at h
      dsimp only at h
      repeat' (split at h <;> try cases h)

/-- C10: once any iterator of the library has been closed or has
returned `io.EOF`, every further `Next` returns `io.EOF` without
advancing the stream: this holds for the one-shot bulk-data iterator
(closed, after yielding its reader, or after `io.EOF`), the
undefined-length and explicit-length sequence iterators, the
data-element iterator (including after a successful `Close`), and the
encapsulated-fragment bulk-data iterator (after `io.EOF` from `Next`
or after a successful `Close`). -/
theorem claim_C10_iterators_stay_eof :
    (∀ s : OneShotIterState, oneShotNext (oneShotClose s) = .eofOK (oneShotClose s)) ∧
    (∀ (s : OneShotIterState) (a : List Nat × Nat) (s' : OneShotIterState),
      oneShotNext s = .next a s' → oneShotNext s' = .eofOK s') ∧
    (∀ s s' : OneShotIterState, oneShotNext s = .eofOK s' →
      s' = s ∧ oneShotNext s' = .eofOK s') ∧
    (∀ s s' : UndefSeqIterState, undefSeqNext s = .eofOK s' →
      s'.empty = true ∧ undefSeqNext s' = .eofOK s') ∧
    (∀ s s' : DEIterState, deIterNext s = .eofOK s' →
      s'.empty = true ∧ s'.metaPending = [] ∧ deIterNext s' = .eofOK s') ∧
    (∀ (fuel : Nat) (s s' : DEIterState), deIterClose fuel s = some s' →
      deIterNext s' = .eofOK s') ∧
    (∀ v v' : Value, bulkIterNextF v = some (none, v') →
      bulkIterNextF v' = some (none, v')) ∧
    (∀ (fuel : Nat) (v v' : Value), encapIterClose fuel v = some v' →
      bulkIterNextF v' = some (none, v')) ∧
    (∀ s s' : ExplSeqIterState, explSeqNext s = .eofOK s' →
      s'.buf = [] ∧ s'.cur = none ∧ explSeqNext s' = .eofOK s') := by
  refine ⟨?_, ?_, ?_, ?_, fun s s' h => deIterNext_eofOK_inv s s' h, ?_,
    fun v v' h => bulkIterNextF_eof_inv v v' h, ?_,
    fun s s' h => explSeqNext_eofOK_inv s s' h⟩
  · intro s
    simp [oneShotNext, oneShotClose]
  · intro s a s' h
    simp only [oneShotNext] at h
    by_cases he : s.empty = true
    · rw [if_pos he] at h
      cases h
    · rw [if_neg he] at h
      cases h
      simp [oneShotNext]
  · intro s s' h
    simp only [oneShotNext] at h
    by_cases he : s.empty = true
    · rw [if_pos he] at h
      cases h
      exact ⟨rfl, by simp [oneShotNext, he]⟩
    · rw [if_neg he] at h
      cases h
  · intro s s' h
    simp only [undefSeqNext] at h
    by_cases he : s.empty = true
    · rw [if_pos he] at h
      cases h
      exact ⟨he, by simp [undefSeqNext, he]⟩
    · rw [if_neg he] at h
      repeat' (split at h <;> try cases h)
      all_goals refine ⟨rfl, ?_⟩
      all_goals simp [undefSeqNext]
  · intro fuel
    induction fuel with
    | zero =>
      intro s s' h
      simp [deIterClose] at h
    | succ n ih =>
      intro s s' h
      simp only [deIterClose] at h
      match hn : deIterNext s with
      | .eofOK s₂ =>
        rw [hn] at h
        dsimp only at h
        cases h
        exact (deIterNext_eofOK_inv s s' hn).2.2
      | .errStep =>
        rw [hn] at h
        cases h
      | .next a s₂ =>
        rw [hn] at h
        dsimp only at h
        exact ih s₂ s' h
  · intro fuel
    induction fuel with
    | zero =>
      intro v v' h
      simp [encapIterClose] at h
    | succ n ih =>
      intro v v' h
      simp only [encapIterClose] at h
      match hn : bulkIterNextF v with
      | none =>
        rw [hn] at h
        cases h
      | some (none, v₂) =>
        rw [hn] at h
        dsimp only at h
        cases h
        exact bulkIterNextF_eof_inv v v' hn
      | some (some a, v₂) =>
        rw [hn] at h
        dsimp only at h
        exact ih v₂ v' h

/-- witness for C10 at concrete iterator states. -/
theorem claim_C10_witness :
    oneShotNext ⟨[7], 3, true⟩ = .eofOK ⟨[7], 3, true⟩ ∧
    undefSeqNext ⟨[], .explicitVRLittleEndian, none, true⟩ =
      .eofOK ⟨[], .explicitVRLittleEndian, none, true⟩ ∧
    deIterNext ⟨[], .explicitVRLittleEndian, none, true, [], 0⟩ =
      .eofOK ⟨[], .explicitVRLittleEndian, none, true, [], 0⟩ ∧
    bulkIterNextF (.encapIterVal [5] 2 true) = some (none, .encapIterVal [5] 2 true) ∧
    bulkIterNextF (.encapIterVal [9] 4 true) = some (none, .encapIterVal [9] 4 true) ∧
    explSeqNext ⟨[], .explicitVRBigEndian, none⟩ = .eofOK ⟨[], .explicitVRBigEndian, none⟩ :=
  ⟨claim_C10_iterators_stay_eof.2.1 ⟨[7], 3, false⟩ ([7], 3) ⟨[7], 3, true⟩ rfl,
   (claim_C10_iterators_stay_eof.2.2.2.1 ⟨[], .explicitVRLittleEndian, none, true⟩
      ⟨[], .explicitVRLittleEndian, none, true⟩ rfl).2,
   claim_C10_iterators_stay_eof.2.2.2.2.2.1 1
      ⟨[], .explicitVRLittleEndian, none, true, [], 0⟩
      ⟨[], .explicitVRLittleEndian, none, true, [], 0⟩ rfl,
   claim_C10_iterators_stay_eof.2.2.2.2.2.2.1 (.encapIterVal [5] 2 true)
      (.encapIterVal [5] 2 true) rfl,
   claim_C10_iterators_stay_eof.2.2.2.2.2.2.2.1 1 (.encapIterVal [9] 4 true)
      (.encapIterVal [9] 4 true) rfl,
   (claim_C10_iterators_stay_eof.2.2.2.2.2.2.2.2 ⟨[], .explicitVRBigEndian, none⟩
      ⟨[], .explicitVRBigEndian, none⟩ rfl).2.2⟩

/-- C9: the native multi-frame splitter fails to construct when the
computed frame length is not positive, or when the input stream holds
more than one native fragment; and for an uncompressed 10-byte pixel
element with rows=1, cols=5, samples=1, bits-allocated=8 and
number-of-frames=2 the split-frames transform wraps the element in a
splitter whose iterator yields exactly two 5-byte readers and then
`io.EOF`. -/
theorem claim_C9_split_uncompressed_frames :
    (∀ (iter : Value) (fl nf : Int), fl ≤ 0 → newNativeMultiFrame iter fl nf = none) ∧
    newNativeMultiFrame
      (.encapIterVal
        [0xFE, 0xFF, 0x00, 0xE0, 2, 0, 0, 0, 1, 2,
         0xFE, 0xFF, 0x00, 0xE0, 2, 0, 0, 0, 3, 4,
         0xFE, 0xFF, 0xDD, 0xE0, 0, 0, 0, 0] 0 false) 5 1 = none ∧
    splitFramesTransform ⟨0, 0, 0, 0, 0⟩ (.mk 0x00280010 (some .US) (.u16s [1]) 2) =
      some (⟨1, 0, 0, 0, 0⟩, .unchanged (.mk 0x00280010 (some .US) (.u16s [1]) 2)) ∧
    splitFramesTransform ⟨1, 0, 0, 0, 0⟩ (.mk 0x00280011 (some .US) (.u16s [5]) 2) =
      some (⟨1, 5, 0, 0, 0⟩, .unchanged (.mk 0x00280011 (some .US) (.u16s [5]) 2)) ∧
    splitFramesTransform ⟨1, 5, 0, 0, 0⟩ (.mk 0x00280002 (some .US) (.u16s [1]) 2) =
      some (⟨1, 5, 1, 0, 0⟩, .unchanged (.mk 0x00280002 (some .US) (.u16s [1]) 2)) ∧
    splitFramesTransform ⟨1, 5, 1, 0, 0⟩ (.mk 0x00280100 (some .US) (.u16s [8]) 2) =
      some (⟨1, 5, 1, 8, 0⟩, .unchanged (.mk 0x00280100 (some .US) (.u16s [8]) 2)) ∧
    splitFramesTransform ⟨1, 5, 1, 8, 0⟩ (.mk 0x00280008 (some .IS) (.strs [[0x32]]) 2) =
      some (⟨1, 5, 1, 8, 2⟩, .unchanged (.mk 0x00280008 (some .IS) (.strs [[0x32]]) 2)) ∧
    splitFramesTransform ⟨1, 5, 1, 8, 2⟩
        (.mk PixelDataTag (some .OW) (.oneShotIter [0, 1, 2, 3, 4, 5, 6, 7, 8, 9] 0 10 false) 10) =
      some (⟨1, 5, 1, 8, 2⟩,
        .multi
          (.mk PixelDataTag (some .OW) (.oneShotIter [0, 1, 2, 3, 4, 5, 6, 7, 8, 9] 0 10 false) 10)
          ⟨[0, 1, 2, 3, 4, 5, 6, 7, 8, 9], 0, 5, 2, 0, false⟩) ∧
    nativeMultiFrameNext ⟨[0, 1, 2, 3, 4, 5, 6, 7, 8, 9], 0, 5, 2, 0, false⟩ =
      .next ([0, 1, 2, 3, 4], 0) ⟨[0, 1, 2, 3, 4, 5, 6, 7, 8, 9], 0, 5, 2, 1, true⟩ ∧
    nativeMultiFrameNext ⟨[0, 1, 2, 3, 4, 5, 6, 7, 8, 9], 0, 5, 2, 1, true⟩ =
      .next ([5, 6, 7, 8, 9], 5) ⟨[5, 6, 7, 8, 9], 0, 5, 2, 2, true⟩ ∧
    nativeMultiFrameNext ⟨[5, 6, 7, 8, 9], 0, 5, 2, 2, true⟩ =
      .eofOK ⟨[], 0, 5, 2, 2, false⟩ ∧
    nativeMultiFrameNext ⟨[], 0, 5, 2, 2, false⟩ = .eofOK ⟨[], 0, 5, 2, 2, false⟩ := by
  refine ⟨?_, rfl, rfl, rfl, rfl, rfl, rfl, rfl, rfl, rfl, rfl, rfl⟩
  intro iter fl nf h
  simp only [newNativeMultiFrame, if_pos h]

/-- witness for C9 at a concrete non-positive frame length. -/
theorem claim_C9_witness :
    newNativeMultiFrame (.oneShotIter [1] 0 1 false) 0 2 = none :=
  claim_C9_split_uncompressed_frames.1 (.oneShotIter [1] 0 1 false) 0 2 (by decide)

/-- C8: the claimed per-component person-name decoding is what
charactersets.go's encoding system implements, but the shipped
`UTF8TextOption` transform resolves only the first character-set term
and decodes the whole PN value with that single decoder.  With two
abstract decoders bound to "ISO 2022 IR 13" and "ISO 2022 IR 87", the
transform decodes both components of a two-component PN with the first
decoder, while the encoding system decodes the second component with
the second decoder, so the two disagree. -/
theorem claim_C8_pn_single_decoder_bug :
    let d13 : NamedDecoder := ⟨fun s => some (s.map fun b => 2 * b), fun s => s, []⟩
    let d87 : NamedDecoder := ⟨fun s => some (s.map fun b => 10 * b), fun s => s, []⟩
    let lookup : List Nat → Option NamedDecoder := fun t =>
      if t = strBytes "ISO 2022 IR 13" then some d13
      else if t = strBytes "ISO 2022 IR 87" then some d87
      else none
    let cse : DataElement := .mk SpecificCharacterSetTag (some .CS)
      (.strs [strBytes "ISO 2022 IR 13", strBytes "ISO 2022 IR 87"]) 30
    let pne : DataElement := .mk 0x00100010 (some .PN) (.strs [[1, 0x3D, 2]]) 4
    utf8TextTransform lookup d13 d13 cse = some (d13, cse) ∧
    utf8TextTransform lookup d13 d13 pne =
      some (d13, .mk 0x00100010 (some .PN) (.strs [[2, 0x7A, 4]]) 4) ∧
    newEncodingSystem lookup d13 cse = some (d13, d87, d87) ∧
    encodingSystemDecode (d13, d87, d87) pne =
      some (.mk 0x00100010 (some .PN) (.strs [[2, 0x3D, 20]]) 4) ∧
    ([[2, 0x7A, 4]] : List (List Nat)) ≠ [[2, 0x3D, 20]] :=
  ⟨rfl, rfl, rfl, rfl, by decide⟩

/-- `clampPad` yields an even length or the undefined sentinel. -/
theorem clampPad_even (n : Nat) : clampPad n % 2 = 0 ∨ clampPad n = UndefinedLength := by
  simp only [clampPad]
  split
  · exact .inr rfl
  · split <;> [left; left] <;> omega

/-- an element length recomputed by `calculateElementLength` is even or
the undefined sentinel. -/
theorem calculateElementLength_even (e : DataElement) (stx : TransferStx) (l : Nat)
    (v' : Value) (h : calculateElementLength e stx = some (l, v')) :
    l % 2 = 0 ∨ l = UndefinedLength := by
  cases e with
  | mk t vr v vlen =>
    rw [calculateElementLength.eq_def] at h
    dsimp only at h
    by_cases hu : vlen = UndefinedLength
    · rw [if_pos hu] at h
      cases h
      exact .inr rfl
    · rw [if_neg hu] at h
      cases v with
      | strs ss => cases h; exact clampPad_even _
      | i16s xs => cases h; exact clampPad_even _
      | u16s xs => cases h; exact clampPad_even _
      | i32s xs => cases h; exact clampPad_even _
      | u32s xs => cases h; exact clampPad_even _
      | f32s xs => cases h; exact clampPad_even _
      | f64s xs => cases h; exact clampPad_even _
      | bytesBuf frags => cases h; exact clampPad_even _
      | encapBuf frags => cases h; exact .inr rfl
      | refs rs => cases h
      | oneShotIter d o n em =>
        dsimp only at h
        split at h
        · cases h
        · cases h; exact clampPad_even _
      | encapIterVal d o em => cases h; exact .inr rfl
      | seqVal items =>
        dsimp only at h
        match hs : calculateSequenceLength items stx with
        | none => rw [hs] at h; cases h
        | some (seqLen, items₁) =>
          rw [hs] at h
          dsimp only at h
          cases h
          exact clampPad_even _

/-- `elementSize` preserves even-or-sentinel lengths. -/
theorem elementSize_even (stx : TransferStx) (vr : Option VRName) (l : Nat)
    (h : l % 2 = 0 ∨ l = UndefinedLength) :
    elementSize stx vr l % 2 = 0 ∨ elementSize stx vr l = UndefinedLength := by
  by_cases hu : l = UndefinedLength
  · simp [elementSize, hu]
  · have he : l % 2 = 0 := h.resolve_right hu
    left
    simp only [elementSize, if_neg hu]
    rw [show (2 : Nat) ^ 32 = 4294967296 from by norm_num]
    split
    · omega
    · split <;> omega

/-- the summed serialized size of an element list is even or at least the
undefined sentinel. -/
theorem calcElemsSize_even : ∀ (es : List DataElement) (stx : TransferStx) (size : Nat)
    (es' : List DataElement), calcElemsSize es stx = some (size, es') →
    size % 2 = 0 ∨ UndefinedLength ≤ size := by
  intro es
  induction es with
  | nil =>
    intro stx size es' h
    simp only [calcElemsSize] at h
    cases h
    exact .inl rfl
  | cons e rest ih =>
    intro stx size es' h
    simp only [calcElemsSize] at h
    match hl : calculateElementLength e stx with
    | none => rw [hl] at h; cases h
    | some (elemLength, v₁) =>
      rw [hl] at h
      dsimp only at h
      match hr : calcElemsSize rest stx with
      | none => rw [hr] at h; cases h
      | some (restSize, rest₁) =>
        rw [hr] at h
        dsimp only at h
        cases h
        have h1 := elementSize_even stx e.vr elemLength
          (calculateElementLength_even e stx elemLength v₁ hl)
        have h2 := ih stx restSize rest₁ hr
        simp only [UndefinedLength] at h1 h2 ⊢
        omega

/-- a data-set length recomputed by `calculateDataSetLength` is even or
the undefined sentinel. -/
theorem calculateDataSetLength_even (ds : DataSet) (stx : TransferStx) (l : Nat)
    (ds' : DataSet) (h : calculateDataSetLength ds stx = some (l, ds')) :
    l % 2 = 0 ∨ l = UndefinedLength := by
  cases ds with
  | mk es dsLen =>
    simp only [calculateDataSetLength] at h
    by_cases hu : UndefinedLength ≤ dsLen
    · rw [if_pos hu] at h
      cases h
      exact .inr rfl
    · rw [if_neg hu] at h
      match hc : calcElemsSize es stx with
      | none => rw [hc] at h; cases h
      | some (size, es₁) =>
        rw [hc] at h
        dsimp only at h
        cases h
        have h1 := calcElemsSize_even es stx size es₁ hc
        split
        · exact .inr rfl
        · next hlt =>
          simp only [UndefinedLength] at h1 ⊢
          omega

/-- every item length recorded by `calculateSequenceLength` is even or
the undefined sentinel. -/
theorem calculateSequenceLength_items_even : ∀ (items : List DataSet) (stx : TransferStx)
    (s : Nat) (items' : List DataSet), calculateSequenceLength items stx = some (s, items') →
    ∀ it ∈ items', it.len % 2 = 0 ∨ it.len = UndefinedLength := by
  intro items
  induction items with
  | nil =>
    intro stx s items' h it hm
    simp only [calculateSequenceLength] at h
    cases h
    cases hm
  | cons item rest ih =>
    intro stx s items' h it hm
    simp only [calculateSequenceLength] at h
    match hd : calculateDataSetLength item stx with
    | none => rw [hd] at h; cases h
    | some (itemLen, item₁) =>
      rw [hd] at h
      dsimp only at h
      match hr : calculateSequenceLength rest stx with
      | none => rw [hr] at h; cases h
      | some (restSize, rest₁) =>
        rw [hr] at h
        dsimp only at h
        cases h
        rcases List.mem_cons.mp hm with hhead | htail
        · rw [hhead]
          exact calculateDataSetLength_even item stx itemLen item₁ hd
        · exact ih stx restSize rest₁ hr it htail

/-- C5 is refuted for streaming encapsulated values: writing a pixel-data
element whose value is a still-streaming encapsulated-format iterator
with one 1-byte fragment re-emits the fragment's item length field as 1,
an odd length, with no padding. -/
theorem claim_C5_counterexample :
    writeDataElement
        (.mk PixelDataTag (some .OB)
          (.encapIterVal
            [0xFE, 0xFF, 0x00, 0xE0, 1, 0, 0, 0, 0xAB,
             0xFE, 0xFF, 0xDD, 0xE0, 0, 0, 0, 0] 0 false)
          UndefinedLength)
        .explicitVRLittleEndian =
      some ([0xE0, 0x7F, 0x10, 0x00, 0x4F, 0x42, 0, 0, 0xFF, 0xFF, 0xFF, 0xFF,
        0xFE, 0xFF, 0x00, 0xE0] ++ putUInt32 .littleEndian 1 ++
        [0xAB, 0xFE, 0xFF, 0xDD, 0xE0, 0, 0, 0, 0]) ∧
    (1 : Nat) % 2 = 1 := by
  refine ⟨?_, rfl⟩
  simp [writeDataElement, writeValue, writeVRStx, writeValueLengthStx, writeBulkData,
    encapIterWrite, collectEncapFragments, writeEncapsulatedFormat, putTag, putUInt16,
    putUInt32, readTagBytes, readUInt16, readUInt32, groupNumber, elementNumber,
    VRName.kind, VRName.nameBytes, has32BitLength, UndefinedLength, ItemTag,
    SequenceDelimitationItemTag, PixelDataTag, TransferStx.byteOrder,
    TransferStx.isImplicit, DataElement.vr, DataElement.value, DataElement.vlen,
    DataElement.tag]
  decide

/-- C5 amended: every length the writer itself computes is even or the
undefined sentinel: recalculated element lengths, recalculated data-set
and sequence-item lengths, the payloads of text values (padded on
write), buffered byte fragments (padded to an even total), and buffered
encapsulated fragments (each padded to even length before the item
header is emitted); only a streaming encapsulated iterator's re-emitted
fragment lengths escape padding. -/
theorem claim_C5_recalculated_lengths_even :
    (∀ (e : DataElement) (stx : TransferStx) (l : Nat) (v' : Value),
      calculateElementLength e stx = some (l, v') → l % 2 = 0 ∨ l = UndefinedLength) ∧
    (∀ (ds : DataSet) (stx : TransferStx) (l : Nat) (ds' : DataSet),
      calculateDataSetLength ds stx = some (l, ds') → l % 2 = 0 ∨ l = UndefinedLength) ∧
    (∀ (items : List DataSet) (stx : TransferStx) (s : Nat) (items' : List DataSet),
      calculateSequenceLength items stx = some (s, items') →
      ∀ it ∈ items', it.len % 2 = 0 ∨ it.len = UndefinedLength) ∧
    (∀ (pad : Nat) (v : Value) (b : List Nat),
      writeText pad v = some b → b.length % 2 = 0) ∧
    (∀ frags : List (List Nat), (bytesValueWrite frags).length % 2 = 0) ∧
    (∀ f : List Nat, (padOddFrag f).length % 2 = 0) ∧
    (∀ (order : ByteOrder) (frags : List (List Nat)),
      encapBufWrite order frags = writeEncapsulatedFormat order (frags.map padOddFrag)) := by
  refine ⟨calculateElementLength_even, calculateDataSetLength_even,
    calculateSequenceLength_items_even, ?_, ?_, ?_, fun _ _ => rfl⟩
  · intro pad v b h
    cases v <;> simp only [writeText] at h <;> cases h
    split
    · next hodd => simp only [List.length_append, List.length_singleton]; omega
    · next hodd => omega
  · intro frags
    simp only [bytesValueWrite, fragsTotal]
    rw [List.length_append]
    have hf : frags.flatten.length = (frags.map List.length).sum := by
      induction frags with
      | nil => rfl
      | cons f rest ih => simp [List.flatten, ih]
    rw [hf]
    split
    · next hodd => simp only [List.length_singleton]; omega
    · next hodd => simp only [List.length_nil]; omega
  · intro f
    simp only [padOddFrag]
    split
    · next hodd => simp only [List.length_append, List.length_singleton]; omega
    · next hodd => omega

/-- witness for C5 at a concrete recalculated element length. -/
theorem claim_C5_witness :
    calculateElementLength (.mk 0x7FE00010 (some .OB) (.strs [[65]]) 0)
        .explicitVRLittleEndian = some (2, .strs [[65]]) ∧
    ((2 : Nat) % 2 = 0 ∨ (2 : Nat) = UndefinedLength) :=
  ⟨rfl, claim_C5_recalculated_lengths_even.1 (.mk 0x7FE00010 (some .OB) (.strs [[65]]) 0)
    .explicitVRLittleEndian 2 (.strs [[65]]) rfl⟩

/-- `putUInt16` always writes two bytes. -/
theorem putUInt16_length (order : ByteOrder) (v : Nat) : (putUInt16 order v).length = 2 := by
  cases order <;> rfl

/-- `putUInt32` always writes four bytes. -/
theorem putUInt32_length (order : ByteOrder) (v : Nat) : (putUInt32 order v).length = 4 := by
  cases order <;> rfl

/-- `putUInt64` always writes eight bytes. -/
theorem putUInt64_length (order : ByteOrder) (v : Nat) : (putUInt64 order v).length = 8 := by
  cases order <;> simp [putUInt64, putUInt32_length]

/-- a tag is always written as four bytes. -/
theorem putTag_length (order : ByteOrder) (tag : Nat) : (putTag order tag).length = 4 := by
  simp [putTag, putUInt16_length]

/-- every VR name is two bytes long. -/
theorem nameBytes_length (vrn : VRName) : (VRName.nameBytes vrn).length = 2 := by
  cases vrn <;> rfl

/-- the length of a flattened list of lists is the sum of the lengths. -/
theorem flatten_length_sum : ∀ l : List (List Nat),
    l.flatten.length = (l.map List.length).sum
  | [] => rfl
  | f :: rest => by
    simp [List.flatten, flatten_length_sum rest]

/-- flattening a map whose entries all have length `k` yields
`k * xs.length` bytes. -/
theorem flattenMap_length {α : Type} (f : α → List Nat) (k : Nat) : ∀ xs : List α,
    (∀ x ∈ xs, (f x).length = k) → ((xs.map f).flatten).length = k * xs.length
  | [], _ => by simp
  | x :: rest, h => by
    have ih := flattenMap_length f k rest fun y hy => h y (List.mem_cons_of_mem x hy)
    simp [List.flatten, ih, h x (List.mem_cons_self x rest)]
    ring

/-- the backslash-joined text of a `[]string` value has exactly
`strsNumBytes` bytes. -/
theorem joinBackslash_length : ∀ ss : List (List Nat),
    (joinBackslash ss).length = strsNumBytes ss
  | [] => rfl
  | [s] => by simp [joinBackslash, strsNumBytes]
  | s :: t :: rest => by
    have ih := joinBackslash_length (t :: rest)
    simp [joinBackslash, strsNumBytes] at ih ⊢
    omega

/-- `writeText` emits exactly the recalculated (padded) length of a flat
string value. -/
theorem writeText_flat_length (pad : Nat) (v : Value) (b : List Nat) (n : Nat)
    (h : writeText pad v = some b) (hf : flatValueBytes v = some n)
    (hn : n < UndefinedLength) : b.length = clampPad n := by
  cases v <;> simp only [writeText] at h <;> try cases h
  all_goals try cases hf
  case strs ss =>
    have hj := joinBackslash_length ss
    simp only [clampPad, if_neg (Nat.not_le_of_lt hn)]
    split
    · next hodd =>
      rw [hj] at hodd
      rw [List.length_append, hj, if_pos hodd]
      rfl
    · next hodd =>
      rw [hj] at hodd
      rw [hj, if_neg hodd]

/-- `writeNumberBinary` emits exactly the recalculated length of a
fixed-width numeric value. -/
theorem writeNumberBinary_flat_length (order : ByteOrder) (v : Value) (b : List Nat)
    (n : Nat) (h : writeNumberBinary order v = some b) (hf : flatValueBytes v = some n)
    (hn : n < UndefinedLength) : b.length = clampPad n := by
  cases v <;> simp only [writeNumberBinary] at h <;> try cases h
  all_goals cases hf
  all_goals simp only [clampPad, if_neg (Nat.not_le_of_lt hn)]
  case i16s xs =>
    rw [flattenMap_length _ 2 xs fun x _ => putUInt16_length order (toUnsignedBits 16 x)]
    split <;> omega
  case u16s xs =>
    rw [flattenMap_length _ 2 xs fun x _ => putUInt16_length order x]
    split <;> omega
  case i32s xs =>
    rw [flattenMap_length _ 4 xs fun x _ => putUInt32_length order (toUnsignedBits 32 x)]
    split <;> omega
  case u32s xs =>
    rw [flattenMap_length _ 4 xs fun x _ => putUInt32_length order x]
    split <;> omega
  case f32s xs =>
    rw [flattenMap_length _ 4 xs fun x _ => putUInt32_length order x]
    split <;> omega
  case f64s xs =>
    rw [flattenMap_length _ 8 xs fun x _ => putUInt64_length order x]
    split <;> omega

/-- `writeTag` for the AT representation emits exactly the recalculated
length. -/
theorem writeTagValue_flat_length (order : ByteOrder) (v : Value) (b : List Nat)
    (n : Nat) (h : writeTagValue order v = some b) (hf : flatValueBytes v = some n)
    (hn : n < UndefinedLength) : b.length = clampPad n := by
  cases v <;> simp only [writeTagValue] at h <;> try cases h
  all_goals cases hf
  case u32s xs =>
    simp only [clampPad, if_neg (Nat.not_le_of_lt hn)]
    rw [flattenMap_length _ 4 xs fun x _ => putTag_length order x]
    split <;> omega

/-- the buffered byte fragments write exactly the recalculated (padded)
total. -/
theorem bytesValueWrite_length (frags : List (List Nat))
    (hn : fragsTotal frags < UndefinedLength) :
    (bytesValueWrite frags).length = clampPad (fragsTotal frags) := by
  simp only [bytesValueWrite, clampPad, if_neg (Nat.not_le_of_lt hn), List.length_append,
    flatten_length_sum]
  have ht : fragsTotal frags = (frags.map List.length).sum := rfl
  rw [← ht]
  split <;> rfl

/-- unfolding of `writeValue` for a present VR. -/
theorem writeValue_some_eq (stx : TransferStx) (vrn : VRName) (v : Value) (l : Nat) :
    writeValue stx (some vrn) v l =
      match vrn.kind with
      | .textVR => writeText 0x20 v
      | .numberBinaryVR => writeNumberBinary stx.byteOrder v
      | .bulkDataVR => writeBulkData stx v
      | .uniqueIdentifierVR => writeText 0x00 v
      | .tagVR => writeTagValue stx.byteOrder v
      | .sequenceVR =>
        match v with
        | .seqVal items =>
          match writeItems stx items with
          | none => none
          | some body =>
            some (body ++
              if UndefinedLength ≤ l then
                putDelimiter stx.byteOrder SequenceDelimitationItemTag
              else [])
        | _ => none := by
  cases vrn <;> cases v <;> simp [writeValue, VRName.kind]

/-- `writeValue` on a flat buffered value emits exactly the recalculated
(clamped and padded) byte count. -/
theorem writeValue_flat_length (stx : TransferStx) (vrn : VRName) (v : Value) (l : Nat)
    (b : List Nat) (n : Nat) (hf : flatValueBytes v = some n) (hn : n < UndefinedLength)
    (h : writeValue stx (some vrn) v l = some b) : b.length = clampPad n := by
  rw [writeValue_some_eq] at h
  match hk : vrn.kind with
  | .textVR =>
    rw [hk] at h
    exact writeText_flat_length _ _ _ _ h hf hn
  | .uniqueIdentifierVR =>
    rw [hk] at h
    exact writeText_flat_length _ _ _ _ h hf hn
  | .numberBinaryVR =>
    rw [hk] at h
    exact writeNumberBinary_flat_length _ _ _ _ h hf hn
  | .tagVR =>
    rw [hk] at h
    exact writeTagValue_flat_length _ _ _ _ h hf hn
  | .bulkDataVR =>
    rw [hk] at h
    dsimp only at h
    cases v <;> simp only [writeBulkData] at h <;> try exact Option.noConfusion hf
    case strs ss => exact writeText_flat_length _ _ _ _ h hf hn
    case i16s xs => exact writeNumberBinary_flat_length _ _ _ _ h hf hn
    case u16s xs => exact writeNumberBinary_flat_length _ _ _ _ h hf hn
    case i32s xs => exact writeNumberBinary_flat_length _ _ _ _ h hf hn
    case u32s xs => exact writeNumberBinary_flat_length _ _ _ _ h hf hn
    case f32s xs => exact writeNumberBinary_flat_length _ _ _ _ h hf hn
    case f64s xs => exact writeNumberBinary_flat_length _ _ _ _ h hf hn
    case bytesBuf frags =>
      cases h
      cases hf
      exact bytesValueWrite_length frags hn
  | .sequenceVR =>
    rw [hk] at h
    dsimp only at h
    cases v <;> try cases hf
    all_goals cases h

/-- on a flat buffered value, `calculateElementLength` keeps the value and
returns the clamped padded byte count (or keeps an undefined recorded
length). -/
theorem calculateElementLength_flat (t : Nat) (vr : Option VRName) (v : Value) (L : Nat)
    (stx : TransferStx) (l : Nat) (v' : Value) (n : Nat) (hf : flatValueBytes v = some n)
    (h : calculateElementLength (.mk t vr v L) stx = some (l, v')) :
    l = UndefinedLength ∨ (l = clampPad n ∧ v' = v) := by
  rw [calculateElementLength.eq_def] at h
  dsimp only at h
  by_cases hu : L = UndefinedLength
  · rw [if_pos hu] at h
    cases h
    exact .inl rfl
  · rw [if_neg hu] at h
    cases v <;> try exact Option.noConfusion hf
    all_goals cases hf
    all_goals cases h
    all_goals exact .inr ⟨rfl, rfl⟩

/-- a processed flat element is written with exactly
`elementSize stx vr length` bytes. -/
theorem writeDataElement_flat_size (stx : TransferStx) (t : Nat) (vrn : VRName)
    (v v' : Value) (L l : Nat) (b : List Nat) (n : Nat)
    (hf : flatValueBytes v = some n)
    (hc : calculateElementLength (.mk t (some vrn) v L) stx = some (l, v'))
    (hl : l ≠ UndefinedLength)
    (hsmall : n + 13 < 2 ^ 32)
    (hw : writeDataElement (.mk t (some vrn) v' l) stx = some b) :
    b.length = elementSize stx (some vrn) l := by
  rcases calculateElementLength_flat t (some vrn) v L stx l v' n hf hc with hUnd | ⟨hlc, hvv⟩
  · exact absurd hUnd hl
  have hnU : n < UndefinedLength := by
    by_contra h'
    push_neg at h'
    refine hl ?_
    rw [hlc]
    simp only [clampPad, if_pos h']
  have hlb : l ≤ n + 1 := by
    rw [hlc]
    simp only [clampPad, if_neg (Nat.not_le_of_lt hnU)]
    split <;> omega
  rw [hvv] at hw
  rw [writeDataElement.eq_def] at hw
  simp only [DataElement.vr, DataElement.vlen, DataElement.value, DataElement.tag] at hw
  by_cases him : stx.isImplicit = true
  · simp only [writeVRStx, writeValueLengthStx, if_pos him] at hw
    match hv : writeValue stx (some vrn) v l with
    | none => rw [hv] at hw; cases hw
    | some valB =>
      rw [hv] at hw
      dsimp only at hw
      cases hw
      have hval : valB.length = l := by
        rw [hlc]
        exact writeValue_flat_length stx vrn v l valB n hf hnU hv
      simp only [elementSize, if_neg hl, if_pos him]
      rw [show (2 : Nat) ^ 32 = 4294967296 from by norm_num]
      simp only [List.length_append, putTag_length, putUInt32_length, List.length_nil, hval]
      omega
  · simp only [writeVRStx, writeValueLengthStx, if_neg him] at hw
    dsimp only [Option.map, Option.getD] at hw
    by_cases h32 : has32BitLength vrn = true
    · rw [if_pos h32] at hw
      dsimp only at hw
      match hv : writeValue stx (some vrn) v l with
      | none => rw [hv] at hw; cases hw
      | some valB =>
        rw [hv] at hw
        dsimp only at hw
        cases hw
        have hval : valB.length = l := by
          rw [hlc]
          exact writeValue_flat_length stx vrn v l valB n hf hnU hv
        simp only [elementSize, if_neg hl, if_neg him]
        dsimp only [Option.map, Option.getD]
        rw [if_pos h32]
        rw [show (2 : Nat) ^ 32 = 4294967296 from by norm_num]
        simp only [List.length_append, putTag_length, putUInt16_length, putUInt32_length,
          nameBytes_length, hval]
        omega
    · rw [if_neg h32] at hw
      by_cases hbig : 0xFFFF < l
      · rw [if_pos hbig] at hw
        dsimp only at hw
        cases hw
      · rw [if_neg hbig] at hw
        dsimp only at hw
        match hv : writeValue stx (some vrn) v l with
        | none => rw [hv] at hw; cases hw
        | some valB =>
          rw [hv] at hw
          dsimp only at hw
          cases hw
          have hval : valB.length = l := by
            rw [hlc]
            exact writeValue_flat_length stx vrn v l valB n hf hnU hv
          simp only [elementSize, if_neg hl, if_neg him]
          dsimp only [Option.map, Option.getD]
          rw [if_neg h32]
          rw [show (2 : Nat) ^ 32 = 4294967296 from by norm_num]
          simp only [List.length_append, putTag_length, putUInt16_length, nameBytes_length,
            hval]
          omega

/-- the bytes of a written element list are the sum of the per-element
serialized sizes, given per-element size agreement. -/
theorem writeElemsList_length (stx : TransferStx) : ∀ (es : List DataElement) (b : List Nat),
    (∀ e ∈ es, ∀ b', writeDataElement e stx = some b' →
      b'.length = elementSize stx e.vr e.vlen) →
    writeElemsList stx es = some b →
    b.length = (es.map fun e => elementSize stx e.vr e.vlen).sum := by
  intro es
  induction es with
  | nil =>
    intro b _ h
    rw [writeElemsList.eq_def] at h
    dsimp only at h
    cases h
    rfl
  | cons e rest ih =>
    intro b hall h
    rw [writeElemsList.eq_def] at h
    dsimp only at h
    match hwe : writeDataElement e stx with
    | none => rw [hwe] at h; cases h
    | some b₁ =>
      rw [hwe] at h
      dsimp only at h
      match hrest : writeElemsList stx rest with
      | none => rw [hrest] at h; cases h
      | some b₂ =>
        rw [hrest] at h
        dsimp only at h
        cases h
        rw [List.length_append, hall e (List.mem_cons_self e rest) b₁ hwe,
          ih b₂ (fun x hx b' hb' => hall x (List.mem_cons_of_mem e hx) b' hb') hrest]
        simp

/-- the group-length fold is the wrapped sum over the non-group-length
elements. -/
theorem metaGroupLengthSize_radix : ∀ (es : List DataElement) (acc : Nat), acc < 2 ^ 32 →
    es.foldl
      (fun acc e =>
        if e.tag = FileMetaInformationGroupLengthTag then acc
        else (acc + elementSize .explicitVRLittleEndian e.vr e.vlen) % 2 ^ 32) acc =
    (acc + ((es.filter fun e => e.tag ≠ FileMetaInformationGroupLengthTag).map
      fun e => elementSize .explicitVRLittleEndian e.vr e.vlen).sum) % 2 ^ 32 := by
  intro es
  induction es with
  | nil =>
    intro acc hacc
    simp only [List.foldl_nil, List.filter_nil, List.map_nil, List.sum_nil, Nat.add_zero]
    omega
  | cons e rest ih =>
    intro acc hacc
    by_cases hgl : e.tag = FileMetaInformationGroupLengthTag
    · have hfilt : ((e :: rest).filter fun x => x.tag ≠ FileMetaInformationGroupLengthTag) =
          rest.filter fun x => x.tag ≠ FileMetaInformationGroupLengthTag := by
        simp [List.filter_cons, hgl]
      rw [hfilt]
      simp only [List.foldl_cons]
      rw [if_pos hgl]
      exact ih acc hacc
    · have hfilt : ((e :: rest).filter fun x => x.tag ≠ FileMetaInformationGroupLengthTag) =
          e :: rest.filter fun x => x.tag ≠ FileMetaInformationGroupLengthTag := by
        simp [List.filter_cons, hgl]
      rw [hfilt]
      simp only [List.foldl_cons, List.map_cons, List.sum_cons]
      rw [if_neg hgl,
        ih ((acc + elementSize .explicitVRLittleEndian e.vr e.vlen) % 2 ^ 32)
          (Nat.mod_lt _ (by norm_num)),
        Nat.mod_add_mod, Nat.add_assoc]

/-- the stored group length is the wrapped sum of predicted sizes over
the other meta elements. -/
theorem metaGroupLengthSize_eq_sum (es : List DataElement) :
    metaGroupLengthSize es =
      ((es.filter fun e => e.tag ≠ FileMetaInformationGroupLengthTag).map
        fun e => elementSize .explicitVRLittleEndian e.vr e.vlen).sum % 2 ^ 32 := by
  have h := metaGroupLengthSize_radix es 0 (by norm_num)
  simpa [metaGroupLengthSize] using h

set_option maxRecDepth 4000 in
/-- C4 is refuted when a meta element carries an undefined length: its
predicted `elementSize` is the sentinel 0xFFFFFFFF, which wraps the
uint32 group-length sum.  The writer stores 27 in (0002,0000) while the
other meta elements encode to 48 bytes. -/
theorem claim_C4_counterexample :
    newDataElementWriterBytes (DataSet.mk
        [.mk 0x00020010 (some .UI) (.strs [strBytes "1.2.840.10008.1.2.1"]) 0,
         .mk 0x00021234 (some .SQ) (.seqVal []) UndefinedLength] 0) =
      some (.explicitVRLittleEndian,
        List.replicate 128 0 ++
          [68, 73, 67, 77,
           2, 0, 0, 0, 85, 76, 4, 0, 27, 0, 0, 0,
           2, 0, 16, 0, 85, 73, 20, 0,
           49, 46, 50, 46, 56, 52, 48, 46, 49, 48, 48, 48, 56, 46, 49, 46, 50, 46, 49, 0,
           2, 0, 52, 18, 83, 81, 0, 0, 255, 255, 255, 255, 254, 255, 221, 224, 0, 0, 0, 0]) ∧
    metaGroupLengthSize
        [.mk 0x00020010 (some .UI) (.strs [strBytes "1.2.840.10008.1.2.1"]) 20,
         .mk 0x00021234 (some .SQ) (.seqVal []) UndefinedLength] = 27 ∧
    writeElemsList .explicitVRLittleEndian
        [.mk 0x00020010 (some .UI) (.strs [strBytes "1.2.840.10008.1.2.1"]) 20,
         .mk 0x00021234 (some .SQ) (.seqVal []) UndefinedLength] =
      some ([2, 0, 16, 0, 85, 73, 20, 0] ++ strBytes "1.2.840.10008.1.2.1" ++
        [0, 2, 0, 52, 18, 83, 81, 0, 0, 255, 255, 255, 255, 254, 255, 221, 224, 0, 0, 0, 0]) ∧
    ([2, 0, 16, 0, 85, 73, 20, 0] ++ strBytes "1.2.840.10008.1.2.1" ++
      [0, 2, 0, 52, 18, 83, 81, 0, 0, 255, 255, 255, 255, 254, 255, 221, 224, 0, 0, 0, 0]).length
      = 48 ∧
    (27 : Nat) ≠ 48 := by
  refine ⟨?_, rfl, ?_, by decide, by decide⟩
  · simp [newDataElementWriterBytes, isMetaHeader, isMetaElement, dataSetTransferStx,
      lookupTransferStx, processHeaderElems, processElementForConstruct,
      processSequenceForConstruct, calculateElementLength, calculateSequenceLength, clampPad,
      strsNumBytes, strBytes, createMetaGroupLengthElement, metaGroupLengthSize, elementSize,
      dictionaryVR, dictionaryVRRaw, mapInsert, sortElements, insertByTag, writeElemsList,
      writeDataElement, writeValue, writeItems, writeVRStx, writeValueLengthStx, writeText,
      joinBackslash, putTag, putUInt16, putUInt32, putDelimiter, VRName.kind,
      VRName.nameBytes, has32BitLength, UndefinedLength, FileMetaInformationGroupLengthTag,
      TransferSyntaxUIDTag, SequenceDelimitationItemTag, TransferStx.byteOrder,
      TransferStx.isImplicit, DataElement.vr, DataElement.value, DataElement.vlen,
      DataElement.tag, DataSet.elements, DataSet.len, groupNumber, elementNumber,
      isPrivateCreator, isPrivateTag, List.find?, ExplicitVRLittleEndianUID,
      ImplicitVRLittleEndianUID, ExplicitVRBigEndianUID, DeflatedExplicitVRLittleEndianUID]
    all_goals decide
  · simp [writeElemsList, writeDataElement, writeValue, writeItems, writeVRStx,
      writeValueLengthStx, writeText, joinBackslash, putTag, putUInt16, putUInt32,
      putDelimiter, VRName.kind, VRName.nameBytes, has32BitLength, UndefinedLength,
      SequenceDelimitationItemTag, TransferStx.byteOrder, TransferStx.isImplicit,
      DataElement.vr, DataElement.value, DataElement.vlen, DataElement.tag, groupNumber,
      elementNumber, strBytes]
    all_goals decide

/-- C4 amended: the value stored in the file-meta group-length element is
the uint32-wrapped sum of the predicted explicit-VR little-endian
`elementSize` of every other meta element, the group-length element
itself excluded; for flat buffered elements with a defined recalculated
length the predicted size is exactly the emitted byte count, and the
emitted meta bytes total the sum of the per-element sizes. -/
theorem claim_C4_meta_group_length :
    (∀ es : List DataElement,
      (createMetaGroupLengthElement es).value =
        .u32s [((es.filter fun e => e.tag ≠ FileMetaInformationGroupLengthTag).map
          fun e => elementSize .explicitVRLittleEndian e.vr e.vlen).sum % 2 ^ 32]) ∧
    (∀ (stx : TransferStx) (t : Nat) (vrn : VRName) (v v' : Value) (L l : Nat)
      (b : List Nat) (n : Nat),
      flatValueBytes v = some n →
      calculateElementLength (.mk t (some vrn) v L) stx = some (l, v') →
      l ≠ UndefinedLength →
      n + 13 < 2 ^ 32 →
      writeDataElement (.mk t (some vrn) v' l) stx = some b →
      b.length = elementSize stx (some vrn) l) ∧
    (∀ (stx : TransferStx) (es : List DataElement) (b : List Nat),
      (∀ e ∈ es, ∀ b', writeDataElement e stx = some b' →
        b'.length = elementSize stx e.vr e.vlen) →
      writeElemsList stx es = some b →
      b.length = (es.map fun e => elementSize stx e.vr e.vlen).sum) := by
  refine ⟨?_, writeDataElement_flat_size, writeElemsList_length⟩
  intro es
  simp [createMetaGroupLengthElement, metaGroupLengthSize_eq_sum, DataElement.value]

/-- witness for C4 at a concrete flat meta element. -/
theorem claim_C4_witness :
    ([2, 0, 16, 0, 85, 73, 2, 0, 49, 50] : List Nat).length =
      elementSize .explicitVRLittleEndian (some .UI) 2 := by
  refine claim_C4_meta_group_length.2.1 .explicitVRLittleEndian 0x00020010 .UI
    (.strs [[49, 50]]) (.strs [[49, 50]]) 0 2 _ 2 rfl rfl (by decide) (by norm_num) ?_
  simp [writeDataElement, writeValue, writeVRStx, writeValueLengthStx, writeText,
    joinBackslash, putTag, putUInt16, groupNumber, elementNumber, VRName.kind,
    VRName.nameBytes, has32BitLength, UndefinedLength, TransferStx.byteOrder,
    TransferStx.isImplicit, DataElement.vr, DataElement.value, DataElement.vlen,
    DataElement.tag]
  decide

/-- the map insertion preserves buffered-ness. -/
theorem elemsBuffered_mapInsert : ∀ (acc : List DataElement) (e : DataElement),
    elemsBuffered acc = true → elemBuffered e = true →
    elemsBuffered (mapInsert acc e) = true := by
  intro acc
  induction acc with
  | nil =>
    intro e _ he
    simp [mapInsert, elemsBuffered, he]
  | cons x rest ih =>
    intro e hacc he
    simp only [elemsBuffered, Bool.and_eq_true] at hacc
    simp only [mapInsert]
    split
    · simp [elemsBuffered, he, hacc.2]
    · simp [elemsBuffered, hacc.1, ih e hacc.2 he]

/-- `readText` always yields a buffered string list. -/
theorem readTextValue_buffered (vr : VRName) (p : Nat → Bool) (length : Nat)
    (bs : List Nat) (v : Value) (rest : List Nat)
    (h : readTextValue vr p length bs = some (v, rest)) : valueBuffered v = true := by
  simp only [readTextValue] at h
  split at h
  · cases h
    rfl
  · split at h
    · cases h
      rfl
    · cases h

/-- `readNumberBinary` always yields a buffered numeric slice. -/
theorem readNumberBinaryValue_buffered (vr : VRName) (order : ByteOrder) (length : Nat)
    (bs : List Nat) (v : Value) (rest : List Nat)
    (h : readNumberBinaryValue vr order length bs = some (v, rest)) :
    valueBuffered v = true := by
  cases vr <;> simp only [readNumberBinaryValue] at h <;> try cases h
  all_goals simp only [Option.map_eq_some'] at h
  all_goals obtain ⟨⟨ws, r⟩, hc, hf⟩ := h
  all_goals cases hf
  all_goals rfl

/-- `bufferBulkData`'s fragment decoding always yields a buffered value. -/
theorem bufferFromFragments_buffered (vr : VRName) (order : ByteOrder) (isEncap : Bool)
    (frags : List (List Nat)) (v : Value)
    (h : bufferFromFragments vr order isEncap frags = some v) : valueBuffered v = true := by
  cases vr <;> simp only [bufferFromFragments] at h <;>
    repeat' (split at h <;> try cases h)
  all_goals try cases h
  all_goals rfl

/-- every element produced by the parser family is fully buffered,
recursively through nested sequence items. -/
theorem parseBuffered : ∀ fuel : Nat,
    (∀ (stx : TransferStx) (bs : List Nat) (e : DataElement) (rest : List Nat),
      parseDataElementF fuel stx bs = .ok e rest → elemBuffered e = true) ∧
    (∀ (tag : Nat) (vr : VRName) (length : Nat) (stx : TransferStx) (bs : List Nat)
      (v : Value) (rest : List Nat),
      readValueF fuel tag vr length stx bs = some (v, rest) → valueBuffered v = true) ∧
    (∀ (stx : TransferStx) (bs : List Nat) (acc es : List DataElement) (rest : List Nat),
      collectDataElementsF fuel stx bs acc = some (es, rest) →
      elemsBuffered acc = true → elemsBuffered es = true) ∧
    (∀ (stx : TransferStx) (bs : List Nat) (items : List DataSet),
      collectSeqItemsExplicitF fuel stx bs = some items → itemsBuffered items = true) ∧
    (∀ (stx : TransferStx) (bs : List Nat) (items : List DataSet) (rest : List Nat),
      collectSeqItemsUndefF fuel stx bs = some (items, rest) →
      itemsBuffered items = true) := by
  intro fuel
  induction fuel with
  | zero =>
    refine ⟨?_, ?_, ?_, ?_, ?_⟩
    · intro stx bs e rest h
      simp [parseDataElementF] at h
    · intro tag vr length stx bs v rest h
      simp [readValueF] at h
    · intro stx bs acc es rest h
      simp [collectDataElementsF] at h
    · intro stx bs items h
      simp [collectSeqItemsExplicitF] at h
    · intro stx bs items rest h
      simp [collectSeqItemsUndefF] at h
  | succ n ih =>
    obtain ⟨ihP, ihV, ihC, ihE, ihU⟩ := ih
    refine ⟨?_, ?_, ?_, ?_, ?_⟩
    · intro stx bs e rest h
      simp only [parseDataElementF] at h
      match ht : readTagForElement stx.byteOrder bs with
      | .eofR r => rw [ht] at h; cases h
      | .errR => rw [ht] at h; cases h
      | .ok tag rest₁ =>
        rw [ht] at h
        dsimp only at h
        by_cases hid : tag = ItemDelimitationItemTag
        · rw [if_pos hid] at h
          repeat' (split at h <;> try cases h)
        · rw [if_neg hid] at h
          match hvr :
            (if stx.isImplicit then some (dictionaryVR tag, rest₁)
             else
               match readBytes 2 rest₁ with
               | .ok vrBytes rest₂ =>
                 match lookupVRByName vrBytes with
                 | some vr => some (vr, rest₂)
                 | none => none
               | _ => none) with
          | none => rw [hvr] at h; cases h
          | some (vr, rest₂) =>
            rw [hvr] at h
            dsimp only at h
            match hlen : readValueLengthF stx vr rest₂ with
            | none => rw [hlen] at h; cases h
            | some (length, rest₃) =>
              rw [hlen] at h
              dsimp only at h
              match hval : readValueF n tag vr length stx rest₃ with
              | none => rw [hval] at h; cases h
              | some (value, rest₄) =>
                rw [hval] at h
                dsimp only at h
                cases h
                simpa [elemBuffered] using ihV tag vr length stx rest₃ value rest hval
    · intro tag vr length stx bs v rest h
      simp only [readValueF] at h
      match hk : vr.kind with
      | .textVR =>
        rw [hk] at h
        exact readTextValue_buffered vr goIsSpace length bs v rest h
      | .uniqueIdentifierVR =>
        rw [hk] at h
        exact readTextValue_buffered vr (fun r => r = 0x00 || r = 0x20) length bs v rest h
      | .numberBinaryVR =>
        rw [hk] at h
        exact readNumberBinaryValue_buffered vr stx.byteOrder length bs v rest h
      | .tagVR =>
        rw [hk] at h
        dsimp only at h
        match hr : readTagValueF stx.byteOrder (length / 4) bs with
        | none => rw [hr] at h; cases h
        | some (ts, r) =>
          rw [hr] at h
          dsimp only at h
          cases h
          rfl
      | .sequenceVR =>
        rw [hk] at h
        dsimp only at h
        by_cases hb : length < UndefinedLength
        · rw [if_pos hb] at h
          match hc : collectSeqItemsExplicitF n stx (bs.take length) with
          | none => rw [hc] at h; cases h
          | some items =>
            rw [hc] at h
            dsimp only at h
            cases h
            simpa [valueBuffered] using ihE stx (bs.take length) items hc
        · rw [if_neg hb] at h
          match hc : collectSeqItemsUndefF n stx bs with
          | none => rw [hc] at h; cases h
          | some (items, r) =>
            rw [hc] at h
            dsimp only at h
            cases h
            simpa [valueBuffered] using ihU stx bs items rest hc
      | .bulkDataVR =>
        rw [hk] at h
        dsimp only at h
        by_cases hu : length = UndefinedLength
        · rw [if_pos hu] at h
          by_cases hp : tag = PixelDataTag
          · rw [if_pos hp] at h
            match hc : collectEncapFragments n bs with
            | none => rw [hc] at h; cases h
            | some (frags, r) =>
              rw [hc] at h
              dsimp only at h
              match hbf : bufferFromFragments vr stx.byteOrder true frags with
              | none => rw [hbf] at h; cases h
              | some v₀ =>
                rw [hbf] at h
                dsimp only at h
                cases h
                exact bufferFromFragments_buffered vr stx.byteOrder true frags v hbf
          · rw [if_neg hp] at h
            cases h
        · rw [if_neg hu] at h
          match hbf : bufferFromFragments vr stx.byteOrder false [bs.take length] with
          | none => rw [hbf] at h; cases h
          | some v₀ =>
            rw [hbf] at h
            dsimp only at h
            cases h
            exact bufferFromFragments_buffered vr stx.byteOrder false [bs.take length] v hbf
    · intro stx bs acc es rest h hacc
      simp only [collectDataElementsF] at h
      match hp : parseDataElementF n stx bs with
      | .eofR r =>
        rw [hp] at h
        dsimp only at h
        cases h
        exact hacc
      | .errR => rw [hp] at h; cases h
      | .ok e r =>
        rw [hp] at h
        dsimp only at h
        exact ihC stx r (mapInsert acc e) es rest h
          (elemsBuffered_mapInsert acc e hacc (ihP stx bs e r hp))
    · intro stx bs items h
      simp only [collectSeqItemsExplicitF] at h
      match ht : readTagForElement stx.byteOrder bs with
      | .eofR r =>
        rw [ht] at h
        cases h
        rfl
      | .errR => rw [ht] at h; cases h
      | .ok tag rest₁ =>
        rw [ht] at h
        dsimp only at h
        by_cases hsd : tag = SequenceDelimitationItemTag
        · rw [if_pos hsd] at h
          cases h
        · rw [if_neg hsd] at h
          by_cases hit : tag ≠ ItemTag
          · rw [if_pos hit] at h
            cases h
          · rw [if_neg hit] at h
            match hl : readUInt32 stx.byteOrder rest₁ with
            | .eof => rw [hl] at h; cases h
            | .err => rw [hl] at h; cases h
            | .ok itemLen rest₂ =>
              rw [hl] at h
              dsimp only at h
              by_cases hund : UndefinedLength ≤ itemLen
              · rw [if_pos hund] at h
                match hc : collectDataElementsF n stx rest₂ [] with
                | none => rw [hc] at h; cases h
                | some (elems, rest₃) =>
                  rw [hc] at h
                  dsimp only at h
                  match hs : collectSeqItemsExplicitF n stx rest₃ with
                  | none => rw [hs] at h; cases h
                  | some items₂ =>
                    rw [hs] at h
                    dsimp only at h
                    cases h
                    simp only [itemsBuffered, dsBuffered, Bool.and_eq_true]
                    exact ⟨ihC stx rest₂ [] elems rest₃ hc rfl, ihE stx rest₃ items₂ hs⟩
              · rw [if_neg hund] at h
                match hc : collectDataElementsF n stx (rest₂.take itemLen) [] with
                | none => rw [hc] at h; cases h
                | some (elems, rest₃) =>
                  rw [hc] at h
                  dsimp only at h
                  match hs : collectSeqItemsExplicitF n stx (rest₂.drop itemLen) with
                  | none => rw [hs] at h; cases h
                  | some items₂ =>
                    rw [hs] at h
                    dsimp only at h
                    cases h
                    simp only [itemsBuffered, dsBuffered, Bool.and_eq_true]
                    exact ⟨ihC stx (rest₂.take itemLen) [] elems rest₃ hc rfl,
                      ihE stx (rest₂.drop itemLen) items₂ hs⟩
    · intro stx bs items rest h
      simp only [collectSeqItemsUndefF] at h
      match ht : readTagForElement stx.byteOrder bs with
      | .eofR r => rw [ht] at h; cases h
      | .errR => rw [ht] at h; cases h
      | .ok tag rest₁ =>
        rw [ht] at h
        dsimp only at h
        by_cases hsd : tag = SequenceDelimitationItemTag
        · rw [if_pos hsd] at h
          match hl : readUInt32 stx.byteOrder rest₁ with
          | .eof => rw [hl] at h; cases h
          | .err => rw [hl] at h; cases h
          | .ok len rest₂ =>
            rw [hl] at h
            dsimp only at h
            by_cases hz : len ≠ 0
            · rw [if_pos hz] at h
              cases h
            · rw [if_neg hz] at h
              cases h
              rfl
        · rw [if_neg hsd] at h
          by_cases hit : tag ≠ ItemTag
          · rw [if_pos hit] at h
            cases h
          · rw [if_neg hit] at h
            match hl : readUInt32 stx.byteOrder rest₁ with
            | .eof => rw [hl] at h; cases h
            | .err => rw [hl] at h; cases h
            | .ok itemLen rest₂ =>
              rw [hl] at h
              dsimp only at h
              by_cases hund : UndefinedLength ≤ itemLen
              · rw [if_pos hund] at h
                match hc : collectDataElementsF n stx rest₂ [] with
                | none => rw [hc] at h; cases h
                | some (elems, rest₃) =>
                  rw [hc] at h
                  dsimp only at h
                  match hs : collectSeqItemsUndefF n stx rest₃ with
                  | none => rw [hs] at h; cases h
                  | some (items₂, rem) =>
                    rw [hs] at h
                    dsimp only at h
                    cases h
                    simp only [itemsBuffered, dsBuffered, Bool.and_eq_true]
                    exact ⟨ihC stx rest₂ [] elems rest₃ hc rfl, ihU stx rest₃ items₂ rest hs⟩
              · rw [if_neg hund] at h
                match hc : collectDataElementsF n stx (rest₂.take itemLen) [] with
                | none => rw [hc] at h; cases h
                | some (elems, rest₃) =>
                  rw [hc] at h
                  dsimp only at h
                  match hs : collectSeqItemsUndefF n stx (rest₂.drop itemLen) with
                  | none => rw [hs] at h; cases h
                  | some (items₂, rem) =>
                    rw [hs] at h
                    dsimp only at h
                    cases h
                    simp only [itemsBuffered, dsBuffered, Bool.and_eq_true]
                    exact ⟨ihC stx (rest₂.take itemLen) [] elems rest₃ hc rfl,
                      ihU stx (rest₂.drop itemLen) items₂ rest hs⟩

/-- the data set returned by `Parse` is fully buffered, nested sequence
items included. -/
theorem parseFile_buffered (f : List Nat) (ds : DataSet) (h : parseFile f = some ds) :
    dsBuffered ds = true := by
  simp only [parseFile] at h
  match h1 : readDicomSignatureF f with
  | none => rw [h1] at h; cases h
  | some afterSig =>
    rw [h1] at h
    dsimp only at h
    match h2 : bufferMetadataHeaderF afterSig with
    | none => rw [h2] at h; cases h
    | some (metaBytes, body) =>
      rw [h2] at h
      dsimp only at h
      match h3 : findSyntaxUID (f.length + 2) metaBytes with
      | none => rw [h3] at h; cases h
      | some stx =>
        rw [h3] at h
        dsimp only at h
        split at h
        · cases h
        · match h4 : collectDataElementsF (f.length + 2) .explicitVRLittleEndian
              metaBytes [] with
          | none => rw [h4] at h; cases h
          | some (metaElems, r1) =>
            rw [h4] at h
            dsimp only at h
            match h5 : collectDataElementsF (f.length + 2) stx body metaElems with
            | none => rw [h5] at h; cases h
            | some (allElems, r2) =>
              rw [h5] at h
              dsimp only at h
              cases h
              have hm := (parseBuffered (f.length + 2)).2.2.1 .explicitVRLittleEndian
                metaBytes [] metaElems r1 h4 rfl
              simpa [dsBuffered] using
                (parseBuffered (f.length + 2)).2.2.1 stx body metaElems allElems r2 h5 hm

set_option maxRecDepth 8000 in
/-- C3 is refuted on the "exactly one string" clause for UR/UT: an
undefined-length pixel-data element with VR UT whose encapsulated stream
holds zero fragments parses to an empty string list. -/
theorem claim_C3_counterexample :
    parseFile (List.replicate 128 0 ++
        [68, 73, 67, 77,
         2, 0, 0, 0, 85, 76, 4, 0, 28, 0, 0, 0,
         2, 0, 16, 0, 85, 73, 20, 0,
         49, 46, 50, 46, 56, 52, 48, 46, 49, 48, 48, 48, 56, 46, 49, 46, 50, 46, 49, 0,
         0xE0, 0x7F, 0x10, 0x00, 85, 84, 0, 0, 255, 255, 255, 255,
         254, 255, 221, 224, 0, 0, 0, 0]) =
      some (.mk
        [.mk 0x00020000 (some .UL) (.u32s [28]) 4,
         .mk 0x00020010 (some .UI) (.strs [strBytes "1.2.840.10008.1.2.1"]) 20,
         .mk 0x7FE00010 (some .UT) (.strs []) UndefinedLength] UndefinedLength) ∧
    ([] : List (List Nat)).length ≠ 1 := by
  exact ⟨rfl, by decide⟩

/-- C3 amended: every element of a parsed data set is fully buffered
(never a still-open bulk-data iterator), nested items included, and the
buffered type is determined by the VR: OW/OB/UN keep byte fragments
(encapsulated or plain), a single UC fragment splits on backslash with
no trimming, a single UR/UT fragment is one right-trimmed string, and a
single OL/OD/OF fragment decodes to 32-bit words, 64-bit floats, or
32-bit floats; with zero fragments the single-fragment types yield the
empty typed value, so UR/UT buffer to at most one string. -/
theorem claim_C3_parse_buffers_values :
    (∀ (f : List Nat) (ds : DataSet), parseFile f = some ds → dsBuffered ds = true) ∧
    (∀ (order : ByteOrder) (isEncap : Bool) (frags : List (List Nat)),
      bufferFromFragments .OW order isEncap frags =
        some (if isEncap then .encapBuf frags else .bytesBuf frags) ∧
      bufferFromFragments .OB order isEncap frags =
        some (if isEncap then .encapBuf frags else .bytesBuf frags) ∧
      bufferFromFragments .UN order isEncap frags =
        some (if isEncap then .encapBuf frags else .bytesBuf frags)) ∧
    (∀ (order : ByteOrder) (isEncap : Bool) (buff : List Nat),
      bufferFromFragments .UC order isEncap [buff] =
        some (.strs (splitOnBackslash buff)) ∧
      bufferFromFragments .UR order isEncap [buff] =
        some (.strs [trimRightFunc goIsSpace buff]) ∧
      bufferFromFragments .UT order isEncap [buff] =
        some (.strs [trimRightFunc goIsSpace buff])) ∧
    (∀ (order : ByteOrder) (isEncap : Bool) (buff ws r : List Nat),
      (readChunks 4 order (buff.length / 4) buff = some (ws, r) →
        bufferFromFragments .OL order isEncap [buff] = some (.u32s ws) ∧
        bufferFromFragments .OF order isEncap [buff] = some (.f32s ws)) ∧
      (readChunks 8 order (buff.length / 8) buff = some (ws, r) →
        bufferFromFragments .OD order isEncap [buff] = some (.f64s ws))) ∧
    (∀ (order : ByteOrder) (isEncap : Bool),
      bufferFromFragments .UC order isEncap [] = some (.strs []) ∧
      bufferFromFragments .UR order isEncap [] = some (.strs []) ∧
      bufferFromFragments .UT order isEncap [] = some (.strs []) ∧
      bufferFromFragments .OL order isEncap [] = some (.u32s []) ∧
      bufferFromFragments .OD order isEncap [] = some (.f64s []) ∧
      bufferFromFragments .OF order isEncap [] = some (.f32s [])) := by
  refine ⟨parseFile_buffered, fun order isEncap frags => ⟨rfl, rfl, rfl⟩,
    fun order isEncap buff => ⟨rfl, rfl, rfl⟩, ?_, fun order isEncap => ⟨rfl, rfl, rfl, rfl, rfl, rfl⟩⟩
  intro order isEncap buff ws r
  constructor
  · intro hc
    constructor
    · simp only [bufferFromFragments, hc]
    · simp only [bufferFromFragments, hc]
  · intro hc
    simp only [bufferFromFragments, hc]

set_option maxRecDepth 8000 in
/-- witness for C3 at a concrete parsed file. -/
theorem claim_C3_witness :
    parseFile (List.replicate 128 0 ++
        [68, 73, 67, 77,
         2, 0, 0, 0, 85, 76, 4, 0, 28, 0, 0, 0,
         2, 0, 16, 0, 85, 73, 20, 0,
         49, 46, 50, 46, 56, 52, 48, 46, 49, 48, 48, 48, 56, 46, 49, 46, 50, 46, 49, 0]) =
      some (.mk
        [.mk 0x00020000 (some .UL) (.u32s [28]) 4,
         .mk 0x00020010 (some .UI) (.strs [strBytes "1.2.840.10008.1.2.1"]) 20]
        UndefinedLength) ∧
    dsBuffered (.mk
        [.mk 0x00020000 (some .UL) (.u32s [28]) 4,
         .mk 0x00020010 (some .UI) (.strs [strBytes "1.2.840.10008.1.2.1"]) 20]
        UndefinedLength) = true := by
  refine ⟨rfl, claim_C3_parse_buffers_values.1
    (List.replicate 128 0 ++
      [68, 73, 67, 77,
       2, 0, 0, 0, 85, 76, 4, 0, 28, 0, 0, 0,
       2, 0, 16, 0, 85, 73, 20, 0,
       49, 46, 50, 46, 56, 52, 48, 46, 49, 48, 48, 48, 56, 46, 49, 46, 50, 46, 49, 0])
    (.mk
      [.mk 0x00020000 (some .UL) (.u32s [28]) 4,
       .mk 0x00020010 (some .UI) (.strs [strBytes "1.2.840.10008.1.2.1"]) 20]
      UndefinedLength) ?_⟩
  rfl

/-! ## Concrete writer-canonical files for the round-trip property

One file per transfer syntax, each holding the meta header, a CS
element, a sequence with one nested item, and a US element, with the
body elements in ascending tag order and every length and padding in
the writer's normal form.  The explicit-LE and explicit-BE files use
undefined-length sequence and item encodings; the implicit-LE file uses
explicit lengths. -/

/-- canonical explicit-VR little-endian file (undefined-length sequence
and item). -/
def fileExplicitLE : List Nat := List.replicate 128 0 ++
  [68, 73, 67, 77,
   2, 0, 0, 0, 85, 76, 4, 0, 28, 0, 0, 0,
   2, 0, 16, 0, 85, 73, 20, 0] ++ strBytes "1.2.840.10008.1.2.1" ++ [0] ++
  [8, 0, 5, 0, 67, 83, 2, 0, 65, 32,
   8, 0, 16, 17, 83, 81, 0, 0, 255, 255, 255, 255,
   254, 255, 0, 224, 255, 255, 255, 255,
   8, 0, 80, 17, 85, 73, 4, 0, 49, 46, 50, 0,
   254, 255, 13, 224, 0, 0, 0, 0,
   254, 255, 221, 224, 0, 0, 0, 0,
   40, 0, 16, 0, 85, 83, 2, 0, 1, 0]

/-- the data set `Parse` yields for `fileExplicitLE`. -/
def dataSetExplicitLE : DataSet := .mk
  [.mk 0x00020000 (some .UL) (.u32s [28]) 4,
   .mk 0x00020010 (some .UI) (.strs [strBytes "1.2.840.10008.1.2.1"]) 20,
   .mk 0x00080005 (some .CS) (.strs [[65]]) 2,
   .mk 0x00081110 (some .SQ)
     (.seqVal [.mk [.mk 0x00081150 (some .UI) (.strs [[49, 46, 50]]) 4] UndefinedLength])
     UndefinedLength,
   .mk 0x00280010 (some .US) (.u16s [1]) 2] UndefinedLength

/-- canonical implicit-VR little-endian file (explicit sequence and item
lengths). -/
def fileImplicitLE : List Nat := List.replicate 128 0 ++
  [68, 73, 67, 77,
   2, 0, 0, 0, 85, 76, 4, 0, 26, 0, 0, 0,
   2, 0, 16, 0, 85, 73, 18, 0] ++ strBytes "1.2.840.10008.1.2" ++ [0] ++
  [8, 0, 5, 0, 2, 0, 0, 0, 65, 32,
   8, 0, 16, 17, 20, 0, 0, 0,
   254, 255, 0, 224, 12, 0, 0, 0,
   8, 0, 80, 17, 4, 0, 0, 0, 49, 46, 50, 0,
   40, 0, 16, 0, 2, 0, 0, 0, 1, 0]

/-- the data set `Parse` yields for `fileImplicitLE`. -/
def dataSetImplicitLE : DataSet := .mk
  [.mk 0x00020000 (some .UL) (.u32s [26]) 4,
   .mk 0x00020010 (some .UI) (.strs [strBytes "1.2.840.10008.1.2"]) 18,
   .mk 0x00080005 (some .CS) (.strs [[65]]) 2,
   .mk 0x00081110 (some .SQ)
     (.seqVal [.mk [.mk 0x00081150 (some .UI) (.strs [[49, 46, 50]]) 4] 12]) 20,
   .mk 0x00280010 (some .US) (.u16s [1]) 2] UndefinedLength

/-- canonical explicit-VR big-endian file (undefined-length sequence and
item; item and delimiter tags in big-endian byte order, as the code
writes them). -/
def fileExplicitBE : List Nat := List.replicate 128 0 ++
  [68, 73, 67, 77,
   2, 0, 0, 0, 85, 76, 4, 0, 28, 0, 0, 0,
   2, 0, 16, 0, 85, 73, 20, 0] ++ strBytes "1.2.840.10008.1.2.2" ++ [0] ++
  [0, 8, 0, 5, 67, 83, 0, 2, 65, 32,
   0, 8, 17, 16, 83, 81, 0, 0, 255, 255, 255, 255,
   255, 254, 224, 0, 255, 255, 255, 255,
   0, 8, 17, 80, 85, 73, 0, 4, 49, 46, 50, 0,
   255, 254, 224, 13, 0, 0, 0, 0,
   255, 254, 224, 221, 0, 0, 0, 0,
   0, 40, 0, 16, 85, 83, 0, 2, 0, 1]

/-- the data set `Parse` yields for `fileExplicitBE`. -/
def dataSetExplicitBE : DataSet := .mk
  [.mk 0x00020000 (some .UL) (.u32s [28]) 4,
   .mk 0x00020010 (some .UI) (.strs [strBytes "1.2.840.10008.1.2.2"]) 20,
   .mk 0x00080005 (some .CS) (.strs [[65]]) 2,
   .mk 0x00081110 (some .SQ)
     (.seqVal [.mk [.mk 0x00081150 (some .UI) (.strs [[49, 46, 50]]) 4] UndefinedLength])
     UndefinedLength,
   .mk 0x00280010 (some .US) (.u16s [1]) 2] UndefinedLength

/-- `fileExplicitLE` with its body elements in descending tag order: a
valid file that is not writer-canonical. -/
def fileUnsorted : List Nat := List.replicate 128 0 ++
  [68, 73, 67, 77,
   2, 0, 0, 0, 85, 76, 4, 0, 28, 0, 0, 0,
   2, 0, 16, 0, 85, 73, 20, 0] ++ strBytes "1.2.840.10008.1.2.1" ++ [0] ++
  [40, 0, 16, 0, 85, 83, 2, 0, 1, 0,
   8, 0, 16, 17, 83, 81, 0, 0, 255, 255, 255, 255,
   254, 255, 0, 224, 255, 255, 255, 255,
   8, 0, 80, 17, 85, 73, 4, 0, 49, 46, 50, 0,
   254, 255, 13, 224, 0, 0, 0, 0,
   254, 255, 221, 224, 0, 0, 0, 0,
   8, 0, 5, 0, 67, 83, 2, 0, 65, 32]

/-- the data set `Parse` yields for `fileUnsorted` (map in insertion
order). -/
def dataSetUnsorted : DataSet := .mk
  [.mk 0x00020000 (some .UL) (.u32s [28]) 4,
   .mk 0x00020010 (some .UI) (.strs [strBytes "1.2.840.10008.1.2.1"]) 20,
   .mk 0x00280010 (some .US) (.u16s [1]) 2,
   .mk 0x00081110 (some .SQ)
     (.seqVal [.mk [.mk 0x00081150 (some .UI) (.strs [[49, 46, 50]]) 4] UndefinedLength])
     UndefinedLength,
   .mk 0x00080005 (some .CS) (.strs [[65]]) 2] UndefinedLength

/-- membership in the insertion step. -/
theorem mem_insertByTag (e b : DataElement) : ∀ l : List DataElement,
    b ∈ insertByTag e l → b = e ∨ b ∈ l := by
  intro l
  induction l with
  | nil =>
    intro h
    simp [insertByTag] at h
    exact .inl h
  | cons x rest ih =>
    intro h
    simp only [insertByTag] at h
    split at h
    · rcases List.mem_cons.mp h with h | h
      · exact .inl h
      · exact .inr h
    · rcases List.mem_cons.mp h with h | h
      · exact .inr (by simp [h])
      · rcases ih h with h | h
        · exact .inl h
        · exact .inr (List.mem_cons_of_mem x h)

/-- the insertion step keeps the list sorted by ascending tag. -/
theorem insertByTag_sorted (e : DataElement) : ∀ l : List DataElement,
    List.Pairwise (fun a b => a.tag ≤ b.tag) l →
    List.Pairwise (fun a b => a.tag ≤ b.tag) (insertByTag e l) := by
  intro l
  induction l with
  | nil =>
    intro _
    simp [insertByTag]
  | cons x rest ih =>
    intro h
    rw [List.pairwise_cons] at h
    obtain ⟨hx, hrest⟩ := h
    simp only [insertByTag]
    split
    · next hlt =>
      rw [List.pairwise_cons]
      refine ⟨?_, by rw [List.pairwise_cons]; exact ⟨hx, hrest⟩⟩
      intro b hb
      rcases List.mem_cons.mp hb with hb | hb
      · rw [hb]
        exact Nat.le_of_lt hlt
      · exact Nat.le_trans (Nat.le_of_lt hlt) (hx b hb)
    · next hlt =>
      rw [List.pairwise_cons]
      refine ⟨?_, ih hrest⟩
      intro b hb
      rcases mem_insertByTag e b rest hb with hb | hb
      · rw [hb]
        exact Nat.le_of_not_lt hlt
      · exact hx b hb

/-- `SortedElements` is sorted by ascending tag, so the writer emits
elements in ascending tag order whatever the map order was. -/
theorem sortElements_sorted : ∀ es : List DataElement,
    List.Pairwise (fun a b => a.tag ≤ b.tag) (sortElements es) := by
  intro es
  induction es with
  | nil => simp [sortElements]
  | cons e rest ih =>
    simp only [sortElements, List.foldr_cons]
    exact insertByTag_sorted e _ ih

set_option maxRecDepth 20000 in
/-- C1 is refuted for files whose body elements are not in ascending tag
order: `fileUnsorted` parses successfully, but `Construct` re-sorts the
element map, reproducing the sorted canonical file instead of the
input. -/
theorem claim_C1_counterexample :
    parseFile fileUnsorted = some dataSetUnsorted ∧
    constructFile dataSetUnsorted = some fileExplicitLE ∧
    fileUnsorted ≠ fileExplicitLE := by
  refine ⟨by rfl, ?_, by decide⟩
  simp [fileUnsorted, dataSetUnsorted, fileExplicitLE,
      constructFile, constructBody, newDataElementWriterBytes, metaElements,
      isMetaHeader, isMetaElement, dataSetTransferStx, lookupTransferStx, processHeaderElems,
      processElementForConstruct, processSequenceForConstruct, processItemForConstruct,
      processElemsForConstruct, calculateElementLength, calculateSequenceLength,
      calculateDataSetLength, calcElemsSize, clampPad, strsNumBytes, fragsTotal, strBytes,
      createMetaGroupLengthElement, metaGroupLengthSize, elementSize, dictionaryVR,
      dictionaryVRRaw, mapInsert, sortElements, insertByTag, writeElemsList, writeDataElement,
      writeValue, writeItems, writeDataSetBytes, writeVRStx, writeValueLengthStx, writeText,
      writeNumberBinary, writeTagValue, writeBulkData, bytesValueWrite, joinBackslash, putTag,
      putUInt16, putUInt32, putUInt64, putDelimiter, VRName.kind, VRName.nameBytes,
      has32BitLength, UndefinedLength, FileMetaInformationGroupLengthTag,
      TransferSyntaxUIDTag, SequenceDelimitationItemTag, ItemTag, ItemDelimitationItemTag,
      PixelDataTag, TransferStx.byteOrder, TransferStx.isImplicit, DataElement.vr,
      DataElement.value, DataElement.vlen, DataElement.tag, DataSet.elements, DataSet.len,
      groupNumber, elementNumber, isPrivateCreator, isPrivateTag, List.find?, toUnsignedBits,
      ExplicitVRLittleEndianUID, ImplicitVRLittleEndianUID, ExplicitVRBigEndianUID,
      DeflatedExplicitVRLittleEndianUID]
  all_goals decide

set_option maxRecDepth 20000 in
/-- C1 amended: `Construct` always writes the body elements in ascending
tag order, so `construct(parse(f)) = f` byte-exactly only for
writer-canonical files; it does hold for such files, for each of the
three syntaxes and for both explicit-length and undefined-length
sequence/item encodings, shown on one canonical file per syntax
(undefined-length sequence and item in explicit-VR little- and
big-endian, explicit lengths in implicit-VR little-endian). -/
theorem claim_C1_roundtrip_canonical :
    (∀ es : List DataElement,
      List.Pairwise (fun a b => a.tag ≤ b.tag) (sortElements es)) ∧
    (parseFile fileExplicitLE = some dataSetExplicitLE ∧
     constructFile dataSetExplicitLE = some fileExplicitLE) ∧
    (parseFile fileImplicitLE = some dataSetImplicitLE ∧
     constructFile dataSetImplicitLE = some fileImplicitLE) ∧
    (parseFile fileExplicitBE = some dataSetExplicitBE ∧
     constructFile dataSetExplicitBE = some fileExplicitBE) := by
  refine ⟨sortElements_sorted, ⟨by rfl, ?_⟩, ⟨by rfl, ?_⟩, ⟨by rfl, ?_⟩⟩
  · simp [fileExplicitLE, dataSetExplicitLE,
      constructFile, constructBody, newDataElementWriterBytes, metaElements,
      isMetaHeader, isMetaElement, dataSetTransferStx, lookupTransferStx, processHeaderElems,
      processElementForConstruct, processSequenceForConstruct, processItemForConstruct,
      processElemsForConstruct, calculateElementLength, calculateSequenceLength,
      calculateDataSetLength, calcElemsSize, clampPad, strsNumBytes, fragsTotal, strBytes,
      createMetaGroupLengthElement, metaGroupLengthSize, elementSize, dictionaryVR,
      dictionaryVRRaw, mapInsert, sortElements, insertByTag, writeElemsList, writeDataElement,
      writeValue, writeItems, writeDataSetBytes, writeVRStx, writeValueLengthStx, writeText,
      writeNumberBinary, writeTagValue, writeBulkData, bytesValueWrite, joinBackslash, putTag,
      putUInt16, putUInt32, putUInt64, putDelimiter, VRName.kind, VRName.nameBytes,
      has32BitLength, UndefinedLength, FileMetaInformationGroupLengthTag,
      TransferSyntaxUIDTag, SequenceDelimitationItemTag, ItemTag, ItemDelimitationItemTag,
      PixelDataTag, TransferStx.byteOrder, TransferStx.isImplicit, DataElement.vr,
      DataElement.value, DataElement.vlen, DataElement.tag, DataSet.elements, DataSet.len,
      groupNumber, elementNumber, isPrivateCreator, isPrivateTag, List.find?, toUnsignedBits,
      ExplicitVRLittleEndianUID, ImplicitVRLittleEndianUID, ExplicitVRBigEndianUID,
      DeflatedExplicitVRLittleEndianUID]
    all_goals decide
  · simp [fileImplicitLE, dataSetImplicitLE,
      constructFile, constructBody, newDataElementWriterBytes, metaElements,
      isMetaHeader, isMetaElement, dataSetTransferStx, lookupTransferStx, processHeaderElems,
      processElementForConstruct, processSequenceForConstruct, processItemForConstruct,
      processElemsForConstruct, calculateElementLength, calculateSequenceLength,
      calculateDataSetLength, calcElemsSize, clampPad, strsNumBytes, fragsTotal, strBytes,
      createMetaGroupLengthElement, metaGroupLengthSize, elementSize, dictionaryVR,
      dictionaryVRRaw, mapInsert, sortElements, insertByTag, writeElemsList, writeDataElement,
      writeValue, writeItems, writeDataSetBytes, writeVRStx, writeValueLengthStx, writeText,
      writeNumberBinary, writeTagValue, writeBulkData, bytesValueWrite, joinBackslash, putTag,
      putUInt16, putUInt32, putUInt64, putDelimiter, VRName.kind, VRName.nameBytes,
      has32BitLength, UndefinedLength, FileMetaInformationGroupLengthTag,
      TransferSyntaxUIDTag, SequenceDelimitationItemTag, ItemTag, ItemDelimitationItemTag,
      PixelDataTag, TransferStx.byteOrder, TransferStx.isImplicit, DataElement.vr,
      DataElement.value, DataElement.vlen, DataElement.tag, DataSet.elements, DataSet.len,
      groupNumber, elementNumber, isPrivateCreator, isPrivateTag, List.find?, toUnsignedBits,
      ExplicitVRLittleEndianUID, ImplicitVRLittleEndianUID, ExplicitVRBigEndianUID,
      DeflatedExplicitVRLittleEndianUID]
    all_goals decide
  · simp [fileExplicitBE, dataSetExplicitBE,
      constructFile, constructBody, newDataElementWriterBytes, metaElements,
      isMetaHeader, isMetaElement, dataSetTransferStx, lookupTransferStx, processHeaderElems,
      processElementForConstruct, processSequenceForConstruct, processItemForConstruct,
      processElemsForConstruct, calculateElementLength, calculateSequenceLength,
      calculateDataSetLength, calcElemsSize, clampPad, strsNumBytes, fragsTotal, strBytes,
      createMetaGroupLengthElement, metaGroupLengthSize, elementSize, dictionaryVR,
      dictionaryVRRaw, mapInsert, sortElements, insertByTag, writeElemsList, writeDataElement,
      writeValue, writeItems, writeDataSetBytes, writeVRStx, writeValueLengthStx, writeText,
      writeNumberBinary, writeTagValue, writeBulkData, bytesValueWrite, joinBackslash, putTag,
      putUInt16, putUInt32, putUInt64, putDelimiter, VRName.kind, VRName.nameBytes,
      has32BitLength, UndefinedLength, FileMetaInformationGroupLengthTag,
      TransferSyntaxUIDTag, SequenceDelimitationItemTag, ItemTag, ItemDelimitationItemTag,
      PixelDataTag, TransferStx.byteOrder, TransferStx.isImplicit, DataElement.vr,
      DataElement.value, DataElement.vlen, DataElement.tag, DataSet.elements, DataSet.len,
      groupNumber, elementNumber, isPrivateCreator, isPrivateTag, List.find?, toUnsignedBits,
      ExplicitVRLittleEndianUID, ImplicitVRLittleEndianUID, ExplicitVRBigEndianUID,
      DeflatedExplicitVRLittleEndianUID]
    all_goals decide

end GoDicom
